import Mathlib

/-!
ESBMC symbolic execution core: guards, branching, merging and loop bounds.

A shallow embedding of `util/guard.cpp` and `goto-symex/symex_goto.cpp`.
Terms of the new representation (`expr2tc`, irep2.h) and of the old one
(`exprt`) are two separate types, as in the sources; `guardt` stores
`expr2tc` conjuncts and builds `exprt` terms in `as_expr` and in the join.
-/

set_option autoImplicit false

/-! ## Terms -/

/-- The renaming level of a symbol (`symbol_data::renaming_level`, irep2.h). -/
inductive renaming_level where
  | level0
  | level1
  | level2
  | level1_global
  | level2_global
  deriving DecidableEq, Repr

/-- The fields of `symbol_data` (irep2.h) that renaming reads and writes: the
name, the renaming level, the activation number and the SSA number. The
thread and node numbers are left out. The two numbers are `unsigned int`
(irep2.h:2019-2020); they are held as naturals, and the one place that does
arithmetic on them, the bump of the SSA number in `assignment`, wraps at
2^32. -/
structure symbol_data where
  thename : String
  rlevel : renaming_level
  level1_num : Nat
  level2_num : Nat
  deriving DecidableEq, Repr

/-- The expressions of irep2.h that the guard and the branching code inspect:
boolean constants, symbols, the boolean connectives and if-then-else. Every
other kind of term is an uninterpreted leaf `other n`. Types are not
recorded. -/
inductive expr2tc where
  | constant_bool (constant_value : Bool)
  | symbol (sym : symbol_data)
  | not2t (value : expr2tc)
  | and2t (side_1 side_2 : expr2tc)
  | or2t (side_1 side_2 : expr2tc)
  | implies2t (side_1 side_2 : expr2tc)
  | if2t (cond true_value false_value : expr2tc)
  | other (id : Nat)
  deriving DecidableEq, Repr

/-- The canonical constant `true_expr` of irep2.h. -/
def true_expr : expr2tc := .constant_bool true

/-- The canonical constant `false_expr` of irep2.h. -/
def false_expr : expr2tc := .constant_bool false

/-- The test `is_true(const expr2tc &)` of irep2.h: a boolean constant whose
value is true. -/
def is_true : expr2tc → Bool
  | .constant_bool v => v
  | _ => false

/-- The test `is_false(const expr2tc &)` of irep2.h: a boolean constant whose
value is false. -/
def is_false : expr2tc → Bool
  | .constant_bool v => !v
  | _ => false

/-- The test `is_symbol2t`. -/
def is_symbol2t : expr2tc → Bool
  | .symbol _ => true
  | _ => false

/-- The test `is_not2t(e) && is_symbol2t(to_not2t(e).value)` used by
`symex_goto` (symex_goto.cpp:105). -/
def is_not_of_symbol : expr2tc → Bool
  | .not2t (.symbol _) => true
  | _ => false

/-- Modelled from the spec: `exprt`, the old string-based term representation
(expr.h and irep.h are not among the sources). It mirrors `expr2tc`, except
that `and` and `or` nodes carry a list of operands. -/
inductive exprt where
  | constant_bool (value : Bool)
  | symbol (sym : symbol_data)
  | not (op0 : exprt)
  | and (operands : List exprt)
  | or (operands : List exprt)
  | implies (op0 op1 : exprt)
  | ifx (cond true_value false_value : exprt)
  | other (id : Nat)

mutual
/-- Structural equality of old terms (`operator==` on `exprt`). -/
def exprt.beq : exprt → exprt → Bool
  | .constant_bool a, .constant_bool b => a == b
  | .symbol a, .symbol b => decide (a = b)
  | .not a, .not b => exprt.beq a b
  | .and as, .and bs => exprt.beq_list as bs
  | .or as, .or bs => exprt.beq_list as bs
  | .implies a1 a2, .implies b1 b2 => exprt.beq a1 b1 && exprt.beq a2 b2
  | .ifx a1 a2 a3, .ifx b1 b2 b3 => exprt.beq a1 b1 && exprt.beq a2 b2 && exprt.beq a3 b3
  | .other a, .other b => a == b
  | _, _ => false
/-- Structural equality of operand lists. -/
def exprt.beq_list : List exprt → List exprt → Bool
  | [], [] => true
  | a :: as, b :: bs => exprt.beq a b && exprt.beq_list as bs
  | _, _ => false
end

/-- Modelled from the spec: `exprt::is_true` (expr.cpp is not among the
sources): the term is the boolean constant true. -/
def exprt.is_true : exprt → Bool
  | .constant_bool v => v
  | _ => false

/-- Modelled from the spec: `exprt::make_not` (expr.cpp is not among the
sources): a constant is flipped, a negation loses its `not`, and any other
term is wrapped in a `not`. -/
def exprt.make_not : exprt → exprt
  | .constant_bool v => .constant_bool (!v)
  | .not e => e
  | e => .not e

/-- Modelled from the spec: `migrate_expr_back` (migrate.cpp is not among the
sources): the old term with the same structure as a new one. -/
def migrate_expr_back : expr2tc → exprt
  | .constant_bool v => .constant_bool v
  | .symbol s => .symbol s
  | .not2t e => .not (migrate_expr_back e)
  | .and2t a b => .and [migrate_expr_back a, migrate_expr_back b]
  | .or2t a b => .or [migrate_expr_back a, migrate_expr_back b]
  | .implies2t a b => .implies (migrate_expr_back a) (migrate_expr_back b)
  | .if2t c a b => .ifx (migrate_expr_back c) (migrate_expr_back a) (migrate_expr_back b)
  | .other n => .other n

/-- The binary nesting of an operand list: `op [a, b, c]` becomes
`op (op a b) c`; an empty list gives the unit `u` and a single operand gives
that operand. -/
def splice_expr (op : expr2tc → expr2tc → expr2tc) (u : expr2tc) : List expr2tc → expr2tc
  | [] => u
  | a :: rest => rest.foldl op a

mutual
/-- Modelled from the spec: `migrate_expr` (migrate.cpp is not among the
sources): the new term with the same structure as an old one; an `and` or
`or` with more than two operands is nested to the left. -/
def migrate_expr : exprt → expr2tc
  | .constant_bool v => .constant_bool v
  | .symbol s => .symbol s
  | .not e => .not2t (migrate_expr e)
  | .and ops => splice_expr .and2t true_expr (migrate_expr_list ops)
  | .or ops => splice_expr .or2t false_expr (migrate_expr_list ops)
  | .implies a b => .implies2t (migrate_expr a) (migrate_expr b)
  | .ifx c a b => .if2t (migrate_expr c) (migrate_expr a) (migrate_expr b)
  | .other n => .other n
/-- The operands of an old term, migrated one by one. -/
def migrate_expr_list : List exprt → List expr2tc
  | [] => []
  | e :: es => migrate_expr e :: migrate_expr_list es
end

/-! ## Truth assignments -/

/-- A truth assignment: a boolean for every symbol and for every
uninterpreted leaf. -/
structure valuation where
  sym : symbol_data → Bool
  other : Nat → Bool

/-- The truth value of a new term under a truth assignment. -/
def expr2tc.eval (v : valuation) : expr2tc → Bool
  | .constant_bool b => b
  | .symbol s => v.sym s
  | .not2t e => !(e.eval v)
  | .and2t a b => a.eval v && b.eval v
  | .or2t a b => a.eval v || b.eval v
  | .implies2t a b => !(a.eval v) || b.eval v
  | .if2t c a b => if c.eval v then a.eval v else b.eval v
  | .other n => v.other n

mutual
/-- The truth value of an old term under a truth assignment. -/
def exprt.eval (v : valuation) : exprt → Bool
  | .constant_bool b => b
  | .symbol s => v.sym s
  | .not e => !(exprt.eval v e)
  | .and ops => exprt.eval_all v ops
  | .or ops => exprt.eval_any v ops
  | .implies a b => !(exprt.eval v a) || exprt.eval v b
  | .ifx c a b => if exprt.eval v c then exprt.eval v a else exprt.eval v b
  | .other n => v.other n
/-- Every operand is true. -/
def exprt.eval_all (v : valuation) : List exprt → Bool
  | [] => true
  | e :: es => exprt.eval v e && exprt.eval_all v es
/-- Some operand is true. -/
def exprt.eval_any (v : valuation) : List exprt → Bool
  | [] => false
  | e :: es => exprt.eval v e || exprt.eval_any v es
end

/-! ## Guards (util/guard.cpp) -/

/-- A guard: the list `guard_list` of conjuncts. -/
structure guardt where
  guard_list : List expr2tc
  deriving DecidableEq, Repr

/-- The truth value of a guard: the conjunction of its conjuncts. -/
def guardt.eval (v : valuation) (g : guardt) : Bool :=
  g.guard_list.all (fun e => e.eval v)

/-- The function `guardt::as_expr(it)` (guard.cpp:25-46); the iterator is the
index `it` into `guard_list`. At the end of the list the result is
`true_exprt()`, at the last element it is that element, and otherwise an
`and` node over all elements from `it` on. The abort on a conjunct that is
not of boolean type is left out, since types are not recorded. -/
def guardt.as_expr (g : guardt) (it : Nat) : exprt :=
  match g.guard_list.drop it with
  | [] => .constant_bool true
  | [e] => migrate_expr_back e
  | es => .and (es.map migrate_expr_back)

/-- The function `guardt::add(const expr2tc &)` (guard.cpp:81-98) on the
conjunct list: a conjunction is split, first side before second, the
constant true is dropped, anything else is pushed to the back. -/
def guardt.add_list (l : List expr2tc) : expr2tc → List expr2tc
  | .and2t side_1 side_2 => guardt.add_list (guardt.add_list l side_1) side_2
  | .constant_bool true => l
  | e => l ++ [e]

/-- The function `guardt::add(const expr2tc &)` (guard.cpp:81-98). -/
def guardt.add (g : guardt) (expr : expr2tc) : guardt :=
  { guard_list := guardt.add_list g.guard_list expr }

/-- The function `guardt::move(exprt &)` (guard.cpp:112-123): the constant
true is dropped, any other term is migrated and pushed to the back. -/
def guardt.move (g : guardt) (expr : exprt) : guardt :=
  if expr.is_true then g
  else { guard_list := g.guard_list ++ [migrate_expr expr] }

/-- The loop of `guardt::is_false` (guard.cpp:248-252) over the conjunct
list: it returns true at the first conjunct that is the constant false. -/
def forall_guard_is_false : List expr2tc → Bool
  | [] => false
  | e :: es => if is_false e then true else forall_guard_is_false es

/-- The function `guardt::is_false` (guard.cpp:246-253): some conjunct is the
constant false. -/
def guardt.is_false (g : guardt) : Bool :=
  forall_guard_is_false g.guard_list

/-- The loop of `operator-=` (guard.cpp:141-147) on the two lists: while the
front of the first list equals the current element of the second, pop it. -/
def guardt.sub_list : List expr2tc → List expr2tc → List expr2tc
  | a :: l1, b :: l2 => if a = b then guardt.sub_list l1 l2 else a :: l1
  | l1, _ => l1

/-- The operator `g1 -= g2` (guard.cpp:137-150). -/
def guardt.operator_sub_assign (g1 g2 : guardt) : guardt :=
  { guard_list := guardt.sub_list g1.guard_list g2.guard_list }

/-- The common-prefix loop of `operator|=` (guard.cpp:173-183): the number of
steps both iterators make before one list ends or the elements differ. -/
def guardt.common_len : List expr2tc → List expr2tc → Nat
  | a :: l1, b :: l2 => if a = b then guardt.common_len l1 l2 + 1 else 0
  | _, _ => 0

/-- The operator `g1 |= g2` (guard.cpp:164-211); the result is the new `g1`. -/
def guardt.operator_or_assign (g1 g2 : guardt) : guardt :=
  if g2.is_false then g1
  else if g1.is_false then { guard_list := g2.guard_list }
  else
    let it := guardt.common_len g1.guard_list g2.guard_list
    if it = g2.guard_list.length then g1
    else
      let and_expr1 := g1.as_expr it
      let and_expr2 := g2.as_expr it
      let g1e : guardt := { guard_list := g1.guard_list.take it }
      let tmp := and_expr2.make_not
      if !(exprt.beq tmp and_expr1) then
        if and_expr1.is_true || and_expr2.is_true then g1e
        else g1e.move (.or [and_expr1, and_expr2])
      else g1e

/-- Modelled from the spec: `guardt::make_false` (guard.h is not among the
sources): the guard whose only conjunct is the constant false. -/
def guardt.make_false (_g : guardt) : guardt :=
  { guard_list := [false_expr] }

/-- Modelled from the spec: the no-argument `as_expr()` that symex_goto.cpp
uses where an `expr2tc` is expected (guard.h is not among the sources): the
conjuncts folded into a single boolean term, `as_expr(guard_list.begin())`
migrated to the new representation. -/
def guardt.as_expr2tc (g : guardt) : expr2tc :=
  migrate_expr (g.as_expr 0)

/-- Modelled from the spec: `guardt::guard_expr` (guard.h is not among the
sources): `guard_expr(e)` returns `guard ⇒ e`. -/
def guardt.guard_expr (g : guardt) (dest : expr2tc) : expr2tc :=
  .implies2t g.as_expr2tc dest

/-! ## Ordered maps (`std::map`) as association lists -/

/-- The lookup `m.find(key)` of a `std::map`. -/
def map_find {κ ν : Type} [DecidableEq κ] : List (κ × ν) → κ → Option ν
  | [], _ => none
  | (k, v) :: m, key => if k = key then some v else map_find m key

/-- The update `m[key] = val` of a `std::map`. -/
def map_set {κ ν : Type} [DecidableEq κ] : List (κ × ν) → κ → ν → List (κ × ν)
  | [], key, val => [(key, val)]
  | (k, v) :: m, key, val =>
    if k = key then (key, val) :: m else (k, v) :: map_set m key val

/-- The removal `m.erase(key)` of a `std::map`. -/
def map_erase {κ ν : Type} [DecidableEq κ] (m : List (κ × ν)) (key : κ) : List (κ × ν) :=
  m.filter (fun kv => !decide (kv.1 = key))

/-! ## Renaming, path state and the equation sink -/

/-- Modelled from the spec: the source of a record (symex_target.h is not
among the sources): the program counter, an index into the instruction list. -/
structure sourcet where
  pc : Nat
  deriving DecidableEq, Repr

/-- Modelled from the spec: the fields of a goto-program instruction that
symex_goto.cpp reads (goto_program.h is not among the sources): the successor
list, the location number, the loop number and the loop id of the location. -/
structure instructiont where
  targets : List Nat
  location_number : Nat
  loop_number : Nat
  loopid : String
  deriving DecidableEq, Repr, Inhabited

/-- The boolean options read by `loop_bound_exceeded` through
`options.get_bool_option` (symex_goto.cpp:287-297). -/
structure optionst where
  no_unwinding_assertions : Bool
  partial_loops : Bool
  base_case : Bool
  forward_condition : Bool
  deriving DecidableEq, Repr

/-- Modelled from the spec: a symbol table entry (symbol.h is not among the
sources); only its name is used. -/
structure symbolt where
  name : String
  deriving DecidableEq, Repr

/-- Modelled from the spec: the L1 map, identifier to activation number
(renaming.h is not among the sources). -/
structure level1t where
  current_names : List (String × Nat)
  deriving DecidableEq, Repr

/-- Modelled from the spec: the L2 map, L1 name to SSA number; its keys are
the live identifiers (renaming.h is not among the sources). -/
structure level2t where
  current_names : List (symbol_data × Nat)
  deriving DecidableEq, Repr

/-- Modelled from the spec: the points-to abstraction, a set of
(pointer, object) pairs whose join is the union (value_set.h is not among
the sources). -/
abbrev value_sett := Finset (Nat × Nat)

/-- Modelled from the spec: a goto-state, the snapshot of depth, renaming,
value set and guard taken at a fork (goto_symex_state.h is not among the
sources). -/
structure goto_statet where
  depth : Nat
  level2 : level2t
  value_set : value_sett
  guard : guardt
  deriving DecidableEq

/-- Modelled from the spec: a call-stack frame with its L1 map and its
`goto_state_map` from join target to pending states (goto_symex_state.h is
not among the sources). -/
structure framet where
  level1 : level1t
  goto_state_map : List (Nat × List goto_statet)
  deriving DecidableEq

/-- Modelled from the spec: the path state (goto_symex_state.h is not among
the sources). `top` is the frame `top()` returns, `call_stack` holds the
frames below it. -/
structure goto_symex_statet where
  source : sourcet
  guard : guardt
  level2 : level2t
  value_set : value_sett
  depth : Nat
  unwind_map : List (sourcet × Nat)
  top : framet
  call_stack : List framet
  deriving DecidableEq

/-- Modelled from the spec: a record of the equation sink (symex_target.h is
not among the sources): `assignment(guard, new_lhs, original_lhs, rhs, source,
stack_trace, visibility)`, `assumption(guard, cond, source)` and
`assertion(guard, cond, message, source, stack_trace)`. Stack traces are
left out; `hidden` is true for the visibility HIDDEN. -/
inductive SSA_stept where
  | assignment (guard : expr2tc) (lhs original_lhs rhs : expr2tc) (source : sourcet)
      (hidden : Bool)
  | assumption (guard cond : expr2tc) (source : sourcet)
  | assertion (guard cond : expr2tc) (msg : String) (source : sourcet)
  deriving DecidableEq, Repr

/-- The collaborators of the engine that are not among the sources and are
taken as they come: `goto_symex_statet::rename`, `do_simplify`, the namespace
lookup `ns.lookup` (none when it throws), `guard_identifier()`, the effect of
an assignment on the value set, and the instruction list the program counter
points into. -/
structure collaborators where
  rename : goto_symex_statet → expr2tc → expr2tc
  do_simplify : expr2tc → expr2tc
  ns_lookup : String → Option symbolt
  guard_identifier : String
  value_set_assign : value_sett → expr2tc → expr2tc → value_sett
  program : List instructiont

/-- The members of `goto_symext` that symex_goto.cpp reads and writes: the
current state, the equation sink `target`, the options and the unwinding
limits `max_unwind` and `unwind_set`. -/
structure goto_symext where
  cur_state : goto_symex_statet
  target : List SSA_stept
  options : optionst
  max_unwind : Nat
  unwind_set : List (Nat × Nat)

/-- The instruction `*pc`. -/
def collaborators.instruction (ext : collaborators) (pc : Nat) : instructiont :=
  ext.program.getD pc default

/-- Modelled from the spec: `symbol_data::get_symbol_name` (irep2.cpp is not
among the sources): the plain name at level 0, the name with its numbers
above. -/
def symbol_data.get_symbol_name (s : symbol_data) : String :=
  match s.rlevel with
  | .level0 => s.thename
  | .level1_global => s.thename
  | .level1 => s.thename ++ "@" ++ toString s.level1_num
  | .level2 => s.thename ++ "@" ++ toString s.level1_num ++ "#" ++ toString s.level2_num
  | .level2_global => s.thename ++ "#" ++ toString s.level2_num

/-- The level-0 symbol `symbol2t(type, name)`. -/
def symbol2t (name : String) : symbol_data :=
  { thename := name, rlevel := .level0, level1_num := 0, level2_num := 0 }

/-- Modelled from the spec: `get_original_name` (goto_symex_state.cpp is not
among the sources): the source identifier, with all renaming removed. -/
def get_original_name (s : symbol_data) : symbol_data :=
  symbol2t s.thename

/-- Modelled from the spec: `level1t::rename`: a level-0 symbol gets the
activation number its identifier has in the L1 map (0 when it has none). -/
def level1t.rename (l1 : level1t) (s : symbol_data) : symbol_data :=
  match s.rlevel with
  | .level0 =>
    { s with rlevel := .level1, level1_num := (map_find l1.current_names s.thename).getD 0 }
  | _ => s

/-- Modelled from the spec: `level2t::current_number`: the SSA number of an
L1 name, 0 when the map has no entry. -/
def level2t.current_number (l2 : level2t) (s : symbol_data) : Nat :=
  (map_find l2.current_names s).getD 0

/-- Modelled from the spec: `level2t::rename` on a symbol: an L1 name gets
its current SSA number. -/
def level2t.rename (l2 : level2t) (s : symbol_data) : symbol_data :=
  match s.rlevel with
  | .level1 => { s with rlevel := .level2, level2_num := l2.current_number s }
  | _ => s

/-- Modelled from the spec: `level2t::get_variables`: the keys of the L2 map. -/
def level2t.get_variables (l2 : level2t) : List symbol_data :=
  l2.current_names.map Prod.fst

/-- Modelled from the spec: `current_name(level2, e)` on a symbol: the L2
form of the symbol as it is in the given L2 map, through the L1 map of the
top frame. -/
def goto_symex_statet.current_name (st : goto_symex_statet) (plevel2 : level2t)
    (s : symbol_data) : symbol_data :=
  plevel2.rename (st.top.level1.rename s)

/-- Modelled from the spec: `goto_symex_statet::assignment(lhs, rhs, false)`
(goto_symex_state.cpp is not among the sources): `rename_write`, the L2
number of the L1 name of `lhs` is bumped and `lhs` becomes the new L2 name;
the value set is updated by the collaborator. The SSA number of a symbol is
an `unsigned int` (irep2.h:2020), so the bump wraps at 2^32. -/
def goto_symex_statet.assignment (ext : collaborators) (st : goto_symex_statet)
    (lhs : symbol_data) (rhs : expr2tc) : goto_symex_statet × symbol_data :=
  let l1_name := st.top.level1.rename lhs
  let count := (st.level2.current_number l1_name + 1) % 4294967296
  let new_lhs : symbol_data := { l1_name with rlevel := .level2, level2_num := count }
  ({ st with
      level2 := { current_names := map_set st.level2.current_names l1_name count },
      value_set := ext.value_set_assign st.value_set (.symbol new_lhs) rhs },
   new_lhs)

/-- Modelled from the spec: the constructor `goto_statet(const
goto_symex_statet &)`: the snapshot of depth, renaming, value set and guard. -/
def goto_statet.of_state (st : goto_symex_statet) : goto_statet :=
  { depth := st.depth, level2 := st.level2, value_set := st.value_set, guard := st.guard }

/-- Modelled from the spec: `goto_symext::claim` (goto_symex.cpp is not among
the sources): the claim is renamed and simplified and one claim record
`(guard, e, message)` is appended; the state guard is not changed. -/
def goto_symext.claim (ext : collaborators) (s : goto_symext) (claim_expr : expr2tc)
    (msg : String) : goto_symext :=
  let new_expr := ext.do_simplify (ext.rename s.cur_state claim_expr)
  { s with target := s.target ++
      [.assertion s.cur_state.guard.as_expr2tc new_expr msg s.cur_state.source] }

/-! ## Branching, merging and loop bounds (goto-symex/symex_goto.cpp) -/

/-- The test `m.count(key) != 0` of a `std::map`. -/
def map_contains {κ ν : Type} [DecidableEq κ] (m : List (κ × ν)) (key : κ) : Bool :=
  (map_find m key).isSome

/-- The read `m[key]` of a `std::map` with numeric values: 0 when the key has
no entry. -/
def map_at {κ : Type} [DecidableEq κ] (m : List (κ × Nat)) (key : κ) : Nat :=
  (map_find m key).getD 0

/-- The function `goto_symext::get_unwind` (symex_goto.cpp:337-358). The
message it prints is left out. -/
def goto_symext.get_unwind (ext : collaborators) (s : goto_symext) (source : sourcet)
    (unwind : Nat) : Bool :=
  let id := (ext.instruction source.pc).loop_number
  let this_loop_max_unwind :=
    if map_contains s.unwind_set id then map_at s.unwind_set id else s.max_unwind
  this_loop_max_unwind != 0 && decide (unwind ≥ this_loop_max_unwind)

/-- The negated condition of `loop_bound_exceeded` (symex_goto.cpp:279-285):
`false_expr` for the constant true, `not2t(guard)` otherwise. -/
def negated_cond (guard : expr2tc) : expr2tc :=
  if is_true guard then false_expr else .not2t guard

/-- The unwinding assumption of `loop_bound_exceeded` (symex_goto.cpp:302-304
and 326-329): the record `assumption(guard.as_expr(), guard_expr(cond),
source)` is appended to the sink. -/
def goto_symext.unwinding_assumption (s : goto_symext) (cond : expr2tc) : goto_symext :=
  let guarded_expr := s.cur_state.guard.guard_expr cond
  { s with target := s.target ++
      [.assumption s.cur_state.guard.as_expr2tc guarded_expr s.cur_state.source] }

/-- The statement `cur_state->guard.add(e)`. -/
def goto_symext.guard_add (s : goto_symext) (e : expr2tc) : goto_symext :=
  { s with cur_state := { s.cur_state with guard := s.cur_state.guard.add e } }

/-- The function `goto_symext::loop_bound_exceeded` (symex_goto.cpp:274-335). -/
def goto_symext.loop_bound_exceeded (ext : collaborators) (s : goto_symext)
    (guard : expr2tc) : goto_symext :=
  let loop_id := (ext.instruction s.cur_state.source.pc).loopid
  let negated := negated_cond guard
  let unwinding_assertions := !s.options.no_unwinding_assertions
  let partial_loops := s.options.partial_loops
  let base_case := s.options.base_case
  let forward_condition := s.options.forward_condition
  if base_case then
    (s.unwinding_assumption negated).guard_add negated
  else if forward_condition then
    (s.claim ext negated ("unwinding assertion loop " ++ loop_id)).guard_add negated
  else if !partial_loops then
    if unwinding_assertions then
      (s.claim ext negated ("unwinding assertion loop " ++ loop_id)).guard_add negated
    else
      (s.unwinding_assumption negated).guard_add negated
  else s

/-- The statement `cur_state->unwind_map[cur_state->source] = n`. -/
def goto_symext.set_unwind (s : goto_symext) (n : Nat) : goto_symext :=
  { s with cur_state :=
      { s.cur_state with unwind_map := map_set s.cur_state.unwind_map s.cur_state.source n } }

/-- The statement `cur_state->source.pc = pc`. -/
def goto_symext.set_pc (s : goto_symext) (pc : Nat) : goto_symext :=
  { s with cur_state := { s.cur_state with source := { pc := pc } } }

/-- The statement `goto_state_map[pc].push_back(new_state)` on the top frame. -/
def goto_symext.push_goto_state (s : goto_symext) (pc : Nat) (new_state : goto_statet) :
    goto_symext :=
  let goto_state_list := (map_find s.cur_state.top.goto_state_map pc).getD []
  { s with cur_state := { s.cur_state with top := { s.cur_state.top with
      goto_state_map :=
        map_set s.cur_state.top.goto_state_map pc (goto_state_list ++ [new_state]) } } }

/-- The guard adjustment of `symex_goto` (symex_goto.cpp:97-140), after the
snapshot `new_state` of the current state has been taken: the result is the
engine with the guard of its current state adjusted, and the snapshot with
its guard adjusted. -/
def goto_symext.adjust_guards (ext : collaborators) (s : goto_symext)
    (new_state : goto_statet) (new_guard : expr2tc) (forward : Bool) :
    goto_symext × goto_statet :=
  if is_true new_guard then
    ({ s with cur_state := { s.cur_state with guard := s.cur_state.guard.make_false } },
     new_state)
  else
    let r : goto_symext × expr2tc :=
      if is_symbol2t new_guard || is_not_of_symbol new_guard then
        (s, new_guard)
      else
        let new_rhs := ext.do_simplify (.not2t new_guard)
        let a := s.cur_state.assignment ext (symbol2t ext.guard_identifier) new_rhs
        let guard : guardt := { guard_list := [] }
        ({ s with
            cur_state := a.1,
            target := s.target ++
              [.assignment guard.as_expr2tc (.symbol a.2) (.symbol a.2) new_rhs
                a.1.source true] },
         .not2t (.symbol a.2))
    let guard_expr := r.2
    let not_guard_expr := ext.do_simplify (.not2t guard_expr)
    if forward then
      (r.1.guard_add not_guard_expr, { new_state with guard := new_state.guard.add guard_expr })
    else
      (r.1.guard_add guard_expr, { new_state with guard := new_state.guard.add not_guard_expr })

/-- The fork of `symex_goto` (symex_goto.cpp:76-140): the current state moves
to `state_pc`, its snapshot is queued under `new_state_pc`, and the two
guards are adjusted. The snapshot is pushed to the state queue with its guard
already adjusted, where the source pushes it first and adjusts it in place. -/
def goto_symext.fork (ext : collaborators) (s : goto_symext) (new_guard : expr2tc)
    (goto_target : Nat) (forward : Bool) : goto_symext :=
  let new_state_pc := if forward then goto_target else s.cur_state.source.pc + 1
  let state_pc := if forward then s.cur_state.source.pc + 1 else goto_target
  let s1 := s.set_pc state_pc
  -- put into state-queue, adjust guards
  let r := s1.adjust_guards ext (goto_statet.of_state s1.cur_state) new_guard forward
  r.1.push_goto_state new_state_pc r.2

/-- The function `goto_symext::symex_goto` (symex_goto.cpp:19-141). The
thrown string and the failed assertion are the two errors; the counter is an
`unsigned`, so the increment wraps at 2^32. -/
def goto_symext.symex_goto (ext : collaborators) (s : goto_symext) (old_guard : expr2tc) :
    Except String goto_symext :=
  let instruction := ext.instruction s.cur_state.source.pc
  let new_guard := ext.do_simplify (ext.rename s.cur_state old_guard)
  if is_false new_guard || s.cur_state.guard.is_false then
    -- reset unwinding counter, next instruction
    .ok ((s.set_unwind 0).set_pc (s.cur_state.source.pc + 1))
  else if instruction.targets.isEmpty then
    .error "assertion failed: !instruction.targets.empty()"
  else if instruction.targets.length != 1 then
    .error "no support for non-deterministic gotos"
  else
    let goto_target := instruction.targets.headD 0
    let forward : Bool :=
      decide (instruction.location_number < (ext.instruction goto_target).location_number)
    if !forward then
      let unwind := (map_at s.cur_state.unwind_map s.cur_state.source + 1) % 4294967296
      let s1 := s.set_unwind unwind
      if s1.get_unwind ext s1.cur_state.source unwind then
        let s2 := s1.loop_bound_exceeded ext new_guard
        -- reset unwinding, next instruction
        .ok ((s2.set_unwind 0).set_pc (s2.cur_state.source.pc + 1))
      else if is_true new_guard then
        .ok (s1.set_pc goto_target)
      else
        .ok (s1.fork ext new_guard goto_target forward)
    else
      .ok (s.fork ext new_guard goto_target forward)

/-- The function `goto_symext::merge_value_sets` (symex_goto.cpp:181-190). -/
def goto_symext.merge_value_sets (s : goto_symext) (src : goto_statet) : goto_symext :=
  if s.cur_state.guard.is_false then
    { s with cur_state := { s.cur_state with value_set := src.value_set } }
  else
    { s with cur_state :=
        { s.cur_state with value_set := s.cur_state.value_set ∪ src.value_set } }

/-- The right-hand side that `phi_function` builds for a symbol found in the
namespace (symex_goto.cpp:229-248). -/
def goto_symext.phi_rhs (s : goto_symext) (goto_state : goto_statet) (symbol : symbolt) :
    expr2tc :=
  if s.cur_state.guard.is_false then
    .symbol (s.cur_state.current_name goto_state.level2 (symbol2t symbol.name))
  else if goto_state.guard.is_false then
    .symbol (s.cur_state.current_name goto_state.level2 (symbol2t symbol.name))
  else
    let tmp_guard := goto_state.guard.operator_sub_assign s.cur_state.guard
    let true_val := s.cur_state.current_name goto_state.level2 (symbol2t symbol.name)
    let false_val := s.cur_state.current_name s.cur_state.level2 (symbol2t symbol.name)
    .if2t tmp_guard.as_expr2tc (.symbol true_val) (.symbol false_val)

/-- The body of the loop over the variables in `phi_function`
(symex_goto.cpp:207-271) for the variable `it`. A failed namespace lookup
throws and the handler continues with the next variable. -/
def goto_symext.phi_function_body (ext : collaborators) (goto_state : goto_statet)
    (s : goto_symext) (it : symbol_data) : goto_symext :=
  if goto_state.level2.current_number it = s.cur_state.level2.current_number it then
    s -- not changed
  else if it.thename = ext.guard_identifier then
    s -- just a guard
  else
    let orig_name := get_original_name it
    let original_identifier := orig_name.get_symbol_name
    match ext.ns_lookup original_identifier with
    | none => s
    | some symbol =>
      let rhs := s.phi_rhs goto_state symbol
      let lhs := symbol2t symbol.name
      let a := s.cur_state.assignment ext lhs rhs
      let true_guard : guardt := { guard_list := [] }
      { s with
          cur_state := a.1,
          target := s.target ++
            [.assignment true_guard.as_expr2tc (.symbol a.2) (.symbol lhs) rhs
              a.1.source true] }

/-- The set `variables` of `phi_function` (symex_goto.cpp:196-199): the L2
variables of the pending state and of the current state, each once. The
order in which a `std::set` is walked is not modelled. -/
def goto_symext.phi_variables (s : goto_symext) (goto_state : goto_statet) :
    List symbol_data :=
  (goto_state.level2.get_variables ++ s.cur_state.level2.get_variables).dedup

/-- The function `goto_symext::phi_function` (symex_goto.cpp:192-272). -/
def goto_symext.phi_function (ext : collaborators) (s : goto_symext)
    (goto_state : goto_statet) : goto_symext :=
  (s.phi_variables goto_state).foldl (goto_symext.phi_function_body ext goto_state) s

/-- The body of the loop over the pending states in `merge_gotos`
(symex_goto.cpp:163-174). -/
def goto_symext.merge_goto_state (ext : collaborators) (s : goto_symext)
    (goto_state : goto_statet) : goto_symext :=
  -- do SSA phi functions
  let s1 := s.phi_function ext goto_state
  let s2 := s1.merge_value_sets goto_state
  -- adjust guard, adjust depth
  { s2 with cur_state := { s2.cur_state with
      guard := s2.cur_state.guard.operator_or_assign goto_state.guard,
      depth := min s2.cur_state.depth goto_state.depth } }

/-- The function `goto_symext::merge_gotos` (symex_goto.cpp:143-179): the
pending states of the current pc are merged last first, then the entry is
erased. -/
def goto_symext.merge_gotos (ext : collaborators) (s : goto_symext) : goto_symext :=
  match map_find s.cur_state.top.goto_state_map s.cur_state.source.pc with
  | none => s -- nothing to do
  | some state_list =>
    let s1 := state_list.reverse.foldl (goto_symext.merge_goto_state ext) s
    { s1 with cur_state := { s1.cur_state with top := { s1.cur_state.top with
        goto_state_map := map_erase s1.cur_state.top.goto_state_map s.cur_state.source.pc } } }

/-! ## Sample inputs -/

/-- A symbol at level 2 with activation number 0 and SSA number `n`. -/
def sample_sym (name : String) (n : Nat) : expr2tc :=
  .symbol { thename := name, rlevel := .level2, level1_num := 0, level2_num := n }

/-- A program of three instructions: a forward goto to 2 at 0, a skip at 1,
and a backward goto to 0 at 2, which closes loop 7. -/
def sample_program : List instructiont :=
  [ { targets := [2], location_number := 0, loop_number := 0, loopid := "" },
    { targets := [], location_number := 1, loop_number := 0, loopid := "" },
    { targets := [0], location_number := 2, loop_number := 7, loopid := "7" } ]

/-- Collaborators that rename nothing, simplify nothing and find every
identifier in the namespace. -/
def sample_ext : collaborators :=
  { rename := fun _ e => e
    do_simplify := fun e => e
    ns_lookup := fun n => some { name := n }
    guard_identifier := "goto_symex::guard"
    value_set_assign := fun vs _ _ => vs
    program := sample_program }

/-- A path state at `pc` with the given guard and L2 map, an empty value
set, depth 0, no unwinding so far and nothing queued. -/
def sample_state (pc : Nat) (g : List expr2tc) (l2 : List (symbol_data × Nat)) :
    goto_symex_statet :=
  { source := { pc := pc }
    guard := { guard_list := g }
    level2 := { current_names := l2 }
    value_set := ∅
    depth := 0
    unwind_map := []
    top := { level1 := { current_names := [] }, goto_state_map := [] }
    call_stack := [] }

/-- An engine with an empty sink, the given options and state, and a global
unwinding limit of 3. -/
def sample_symex (o : optionst) (st : goto_symex_statet) : goto_symext :=
  { cur_state := st, target := [], options := o, max_unwind := 3, unwind_set := [] }

/-- The L1 name of the identifier `name` in activation 0. -/
def sample_l1 (name : String) : symbol_data :=
  { thename := name, rlevel := .level1, level1_num := 0, level2_num := 0 }

/-- A pending state with the given guard and L2 map, an empty value set and
depth 0. -/
def sample_goto_state (g : List expr2tc) (l2 : List (symbol_data × Nat)) : goto_statet :=
  { depth := 0, level2 := { current_names := l2 }, value_set := ∅,
    guard := { guard_list := g } }

/-- The truth assignment under which the symbols named "a" are true and
everything else is false. -/
def sample_valuation : valuation :=
  { sym := fun s => decide (s.thename = "a"), other := fun _ => false }

/-- The path state `sample_state` with one list of pending states queued
under its own pc. -/
def sample_state_with_pending (pc : Nat) (g : List expr2tc) (l2 : List (symbol_data × Nat))
    (pending : List goto_statet) : goto_symex_statet :=
  { sample_state pc g l2 with
    top := { level1 := { current_names := [] }, goto_state_map := [(pc, pending)] } }

/-- A truth assignment satisfies an assignment record when, under the guard
of the record, the left-hand side has the value of the right-hand side;
assumptions and claims ask nothing of it. -/
def SSA_stept.holds (v : valuation) : SSA_stept → Bool
  | .assignment guard lhs _ rhs _ _ => !(guard.eval v) || (lhs.eval v == rhs.eval v)
  | _ => true

/-- The guard of the goto-state queued last under `pc` in the top frame. -/
def goto_symext.last_pending_guard (s : goto_symext) (pc : Nat) : Option guardt :=
  ((map_find s.cur_state.top.goto_state_map pc).bind List.getLast?).map (fun p => p.guard)

/-! ## Guards: the second overload of `add` and the splitting the spec describes -/

mutual
/-- The function `guardt::add(const exprt &)` (guard.cpp:60-79) on the
conjunct list: the operands of an `and` node are added one by one, the
constant true is dropped, any other term is migrated and pushed to the back.
The test that the `and` node has boolean type is left out, since types are
not recorded. -/
def guardt.add_exprt_list (l : List expr2tc) : exprt → List expr2tc
  | .and operands => guardt.add_operands l operands
  | .constant_bool true => l
  | .constant_bool false => l ++ [migrate_expr (.constant_bool false)]
  | .symbol s => l ++ [migrate_expr (.symbol s)]
  | .not e => l ++ [migrate_expr (.not e)]
  | .or operands => l ++ [migrate_expr (.or operands)]
  | .implies a b => l ++ [migrate_expr (.implies a b)]
  | .ifx c a b => l ++ [migrate_expr (.ifx c a b)]
  | .other n => l ++ [migrate_expr (.other n)]
/-- The loop `forall_operands(it, expr) add(*it)` of guard.cpp:64-65. -/
def guardt.add_operands (l : List expr2tc) : List exprt → List expr2tc
  | [] => l
  | e :: es => guardt.add_operands (guardt.add_exprt_list l e) es
end

/-- The function `guardt::add(const exprt &)` (guard.cpp:60-79). -/
def guardt.add_exprt (g : guardt) (expr : exprt) : guardt :=
  { guard_list := guardt.add_exprt_list g.guard_list expr }

/-- The sequence the spec describes for `add(e)`, written from its words: a
conjunction is split recursively, first operand before second, leaves that
are the constant true are dropped, and any other leaf stands for itself. -/
def spec_conjuncts : expr2tc → List expr2tc
  | .and2t side_1 side_2 => spec_conjuncts side_1 ++ spec_conjuncts side_2
  | .constant_bool true => []
  | e => [e]

mutual
/-- The sequence the spec describes for `add(e)` on an old term: an `and`
node is split recursively into its operands in order, leaves that are the
constant true are dropped, and any other leaf stands for itself. -/
def spec_conjuncts_exprt : exprt → List exprt
  | .and operands => spec_conjuncts_operands operands
  | .constant_bool true => []
  | .constant_bool false => [.constant_bool false]
  | .symbol s => [.symbol s]
  | .not e => [.not e]
  | .or operands => [.or operands]
  | .implies a b => [.implies a b]
  | .ifx c a b => [.ifx c a b]
  | .other n => [.other n]
/-- The conjuncts of a list of operands, one operand after the other. -/
def spec_conjuncts_operands : List exprt → List exprt
  | [] => []
  | e :: es => spec_conjuncts_exprt e ++ spec_conjuncts_operands es
end

/-- A program whose instruction 0 is a goto with the two targets 1 and 2,
followed by two skips. -/
def sample_program_two_targets : List instructiont :=
  [ { targets := [1, 2], location_number := 0, loop_number := 0, loopid := "" },
    { targets := [], location_number := 1, loop_number := 0, loopid := "" },
    { targets := [], location_number := 2, loop_number := 0, loopid := "" } ]

/-- The collaborators `sample_ext` over the program with the two-target goto. -/
def sample_ext_two_targets : collaborators :=
  { sample_ext with program := sample_program_two_targets }

/-- The engine `sample_symex` at the back-edge of instruction 2 with guard
`a`, no unwinding limit, and the counter of the back-edge at the largest
value an `unsigned` holds. -/
def sample_symex_counter_max : goto_symext :=
  { cur_state := { sample_state 2 [sample_sym "a" 1] [] with
      unwind_map := [({ pc := 2 }, 4294967295)] },
    target := [],
    options := ⟨false, false, false, false⟩,
    max_unwind := 0,
    unwind_set := [] }

/-! ## Handles and cached hashes (util/irep2.h) -/

/-- The cached hash values of the nodes of a term: the `crc_val` of the node
itself and, in operand order, the caches of its operands. -/
inductive crc_cache where
  | node (crc_val : Nat) (operands : List crc_cache)

/-- The member `crc_val` of a node. -/
def crc_cache.crc_val : crc_cache → Nat
  | .node v _ => v

/-- The cache of operand `i` of a node; an operand with no recorded cache has
nothing cached. -/
def crc_cache.operand : crc_cache → Nat → crc_cache
  | .node _ ops, i => ops.getD i (.node 0 [])

/-- A handle `irep_container<expr2t>` as `crc` and `operator==` see it: the
term it points to and the `crc_val` of each node of that term. Sharing of
nodes between handles is not recorded. -/
structure irep_container where
  term : expr2tc
  cache : crc_cache

/-- The two functions hashing rests on, taken as they come (irep2.cpp is not
among the sources): the combinator `boost::hash_combine` and the hash of the
tag of a node together with its fields that are not expressions. -/
structure crc_functions where
  hash_combine : Nat → Nat → Nat
  hash_fields : expr2tc → Nat

/-- The operator `operator==(const expr2tc &, const expr2tc &)`
(irep2.h:4549-4552): the two nodes are compared, and the comparison of nodes,
modelled from the spec (irep2.cpp is not among the sources), is structural
equality of the terms; `crc_val` is not one of the fields compared. -/
def irep_container.operator_eq (a b : irep_container) : Bool :=
  decide (a.term = b.term)

/-- The hash of a node from the hash of its own fields and the values its
operands contribute, accumulated from 0 with the combinator. -/
def crc_functions.accumulate (p : crc_functions) (t : expr2tc) (operands : List Nat) : Nat :=
  operands.foldl p.hash_combine (p.hash_combine 0 (p.hash_fields t))

/-- Modelled from the spec: the value `crc_val` holds after `do_crc`
(irep2.cpp is not among the sources): a value that is already cached (not 0)
is kept; otherwise the tag and each operand hash are accumulated with the
combinator, an operand contributing the value its own `do_crc` leaves in its
node. -/
def do_crc (p : crc_functions) : expr2tc → crc_cache → Nat
  | .constant_bool b, c =>
    if c.crc_val ≠ 0 then c.crc_val else p.accumulate (.constant_bool b) []
  | .symbol s, c =>
    if c.crc_val ≠ 0 then c.crc_val else p.accumulate (.symbol s) []
  | .other n, c =>
    if c.crc_val ≠ 0 then c.crc_val else p.accumulate (.other n) []
  | .not2t a, c =>
    if c.crc_val ≠ 0 then c.crc_val
    else p.accumulate (.not2t a) [do_crc p a (c.operand 0)]
  | .and2t a b, c =>
    if c.crc_val ≠ 0 then c.crc_val
    else p.accumulate (.and2t a b) [do_crc p a (c.operand 0), do_crc p b (c.operand 1)]
  | .or2t a b, c =>
    if c.crc_val ≠ 0 then c.crc_val
    else p.accumulate (.or2t a b) [do_crc p a (c.operand 0), do_crc p b (c.operand 1)]
  | .implies2t a b, c =>
    if c.crc_val ≠ 0 then c.crc_val
    else p.accumulate (.implies2t a b) [do_crc p a (c.operand 0), do_crc p b (c.operand 1)]
  | .if2t x a b, c =>
    if c.crc_val ≠ 0 then c.crc_val
    else p.accumulate (.if2t x a b)
      [do_crc p x (c.operand 0), do_crc p a (c.operand 1), do_crc p b (c.operand 2)]

/-- Modelled from the spec: the caches `do_crc` leaves behind (irep2.cpp is
not among the sources): a node with a cached value is left alone, operands
included; otherwise the operands are hashed, which fills their caches, and
the hash is stored in the node. -/
def do_crc_store (p : crc_functions) : expr2tc → crc_cache → crc_cache
  | .constant_bool b, c =>
    if c.crc_val ≠ 0 then c else .node (do_crc p (.constant_bool b) c) []
  | .symbol s, c =>
    if c.crc_val ≠ 0 then c else .node (do_crc p (.symbol s) c) []
  | .other n, c =>
    if c.crc_val ≠ 0 then c else .node (do_crc p (.other n) c) []
  | .not2t a, c =>
    if c.crc_val ≠ 0 then c
    else .node (do_crc p (.not2t a) c) [do_crc_store p a (c.operand 0)]
  | .and2t a b, c =>
    if c.crc_val ≠ 0 then c
    else .node (do_crc p (.and2t a b) c)
      [do_crc_store p a (c.operand 0), do_crc_store p b (c.operand 1)]
  | .or2t a b, c =>
    if c.crc_val ≠ 0 then c
    else .node (do_crc p (.or2t a b) c)
      [do_crc_store p a (c.operand 0), do_crc_store p b (c.operand 1)]
  | .implies2t a b, c =>
    if c.crc_val ≠ 0 then c
    else .node (do_crc p (.implies2t a b) c)
      [do_crc_store p a (c.operand 0), do_crc_store p b (c.operand 1)]
  | .if2t x a b, c =>
    if c.crc_val ≠ 0 then c
    else .node (do_crc p (.if2t x a b) c)
      [do_crc_store p x (c.operand 0), do_crc_store p a (c.operand 1),
        do_crc_store p b (c.operand 2)]

/-- The method `irep_container::crc` (irep2.h:260-268): a `crc_val` that is
not 0 is returned as it is; otherwise `do_crc(0)` is run and the `crc_val` it
leaves is returned. The result is a `uint32_t`. -/
def irep_container.crc (p : crc_functions) (h : irep_container) : Nat :=
  (if h.cache.crc_val ≠ 0 then h.cache.crc_val else do_crc p h.term h.cache) % 4294967296

/-- The handle after `crc()`: the caches are those `do_crc` leaves. -/
def irep_container.after_crc (p : crc_functions) (h : irep_container) : irep_container :=
  { term := h.term,
    cache := if h.cache.crc_val ≠ 0 then h.cache else do_crc_store p h.term h.cache }

/-- The caches of a term of which no node has a hash cached. -/
def crc_cache.fresh : crc_cache := .node 0 []

/-- Every cached value is the hash of its node: in each node of the term,
`crc_val` is 0 or the value `do_crc` computes for that node from nothing
cached. -/
def crc_cache.coherent (p : crc_functions) : expr2tc → crc_cache → Bool
  | .constant_bool b, c =>
    c.crc_val == 0 || c.crc_val == do_crc p (.constant_bool b) crc_cache.fresh
  | .symbol s, c => c.crc_val == 0 || c.crc_val == do_crc p (.symbol s) crc_cache.fresh
  | .other n, c => c.crc_val == 0 || c.crc_val == do_crc p (.other n) crc_cache.fresh
  | .not2t a, c =>
    (c.crc_val == 0 || c.crc_val == do_crc p (.not2t a) crc_cache.fresh) &&
      crc_cache.coherent p a (c.operand 0)
  | .and2t a b, c =>
    (c.crc_val == 0 || c.crc_val == do_crc p (.and2t a b) crc_cache.fresh) &&
      crc_cache.coherent p a (c.operand 0) && crc_cache.coherent p b (c.operand 1)
  | .or2t a b, c =>
    (c.crc_val == 0 || c.crc_val == do_crc p (.or2t a b) crc_cache.fresh) &&
      crc_cache.coherent p a (c.operand 0) && crc_cache.coherent p b (c.operand 1)
  | .implies2t a b, c =>
    (c.crc_val == 0 || c.crc_val == do_crc p (.implies2t a b) crc_cache.fresh) &&
      crc_cache.coherent p a (c.operand 0) && crc_cache.coherent p b (c.operand 1)
  | .if2t x a b, c =>
    (c.crc_val == 0 || c.crc_val == do_crc p (.if2t x a b) crc_cache.fresh) &&
      crc_cache.coherent p x (c.operand 0) && crc_cache.coherent p a (c.operand 1) &&
      crc_cache.coherent p b (c.operand 2)

/-- A combinator and a field hash to compute with: `seed * 31 + v + 7`, and a
number for each tag, to which a symbol adds the length of its name and an
uninterpreted leaf its index. -/
def sample_crc_functions : crc_functions :=
  { hash_combine := fun seed v => seed * 31 + v + 7
    hash_fields := fun t =>
      match t with
      | .constant_bool b => if b then 1 else 2
      | .symbol s => 3 + s.thename.length
      | .not2t _ => 4
      | .and2t _ _ => 5
      | .or2t _ _ => 6
      | .implies2t _ _ => 7
      | .if2t _ _ _ => 8
      | .other n => 9 + n }

/-! ## Runs of branch and merge steps, and the names the sink records -/

/-- A step of the engine that symex_goto.cpp implements: `symex_goto` on a
condition, or `merge_gotos`. -/
inductive symex_stept where
  | goto (old_guard : expr2tc)
  | merge
  deriving DecidableEq, Repr

/-- A sequence of `symex_goto` and `merge_gotos` steps run from a state; the
run stops at the first error. -/
def goto_symext.run (ext : collaborators) : goto_symext → List symex_stept →
    Except String goto_symext
  | s, [] => .ok s
  | s, .goto old_guard :: rest =>
    match s.symex_goto ext old_guard with
    | .ok s1 => goto_symext.run ext s1 rest
    | .error e => .error e
  | s, .merge :: rest => goto_symext.run ext (s.merge_gotos ext) rest

/-- The successive arrivals of one path at the goto of `source`, the counter
of `source` being `counter` at the first of them: every state of the list is
at `source` with a guard and a (renamed and simplified) condition that are
not false, and it finds in the counter of `source` what `symex_goto` left
there at the arrival before (no instruction of the loop body writes that
entry). -/
def arrivals_at (ext : collaborators) (old_guard : expr2tc) (source : sourcet) :
    Nat → List goto_symext → Prop
  | _, [] => True
  | counter, s :: rest =>
    s.cur_state.source = source ∧
    map_at s.cur_state.unwind_map source = counter ∧
    s.cur_state.guard.is_false = false ∧
    is_false (ext.do_simplify (ext.rename s.cur_state old_guard)) = false ∧
    ∀ s' : goto_symext, s.symex_goto ext old_guard = .ok s' →
      arrivals_at ext old_guard source (map_at s'.cur_state.unwind_map source) rest

/-- The unwinding limit in force for the loop of `source`, as `get_unwind`
computes it (symex_goto.cpp:341-345): the entry of `unwind_set` for the loop
number when there is one, `max_unwind` otherwise. -/
def goto_symext.this_loop_max_unwind (ext : collaborators) (s : goto_symext)
    (source : sourcet) : Nat :=
  let id := (ext.instruction source.pc).loop_number
  if map_contains s.unwind_set id then map_at s.unwind_set id else s.max_unwind

/-- The sample engine at the back-edge of instruction 2 with the guard `a`
and the counter of the back-edge at `counter`. -/
def sample_symex_arrival (counter : Nat) : goto_symext :=
  sample_symex ⟨false, false, false, false⟩
    { sample_state 2 [sample_sym "a" 1] [] with unwind_map := [(⟨2⟩, counter)] }

/-- The engine `sample_symex_arrival` at the counter 4294967295, with the
limit 4294967296 set for loop 7 in `unwind_set`. -/
def sample_symex_wide_bound : goto_symext :=
  { sample_symex_arrival 4294967295 with unwind_set := [(7, 4294967296)] }

/-! ## Shared nodes and mutable access through a handle (util/irep2.h) -/

/-- A reference-counted node as a handle sees it: the term it stands for and
its cached hash `crc_val` (irep2.h:783). -/
structure expr2t_node where
  term : expr2tc
  crc_val : Nat
  deriving DecidableEq, Repr

/-- The nodes in existence, by address, and the handles (`irep_container`
objects, each a `std::shared_ptr`) in existence: `handles[h]` is the address
handle `h` points to, `none` for an empty handle. -/
structure handle_store where
  nodes : List expr2t_node
  handles : List (Option Nat)
  deriving DecidableEq, Repr

/-- The address handle `h` points to; a handle the store does not have counts
as empty. -/
def handle_store.pointee (st : handle_store) (h : Nat) : Option Nat :=
  st.handles.getD h none

/-- The value of `std::shared_ptr::use_count()` on handle `h`: the number of
handles that point to the node of `h`, 0 for an empty handle. -/
def handle_store.use_count (st : handle_store) (h : Nat) : Nat :=
  match st.pointee h with
  | none => 0
  | some a => st.handles.count (some a)

/-- Modelled from the spec: `expr2t::clone` (irep2.cpp is not among the
sources): a copy of the node, member by member. -/
def expr2t_node.clone (n : expr2t_node) : expr2t_node :=
  { term := n.term, crc_val := n.crc_val }

/-- The function `irep_container::detach` (irep2.h:247-258): nothing happens
when the use count is 1; otherwise the node is cloned into a new node and the
handle is assigned the clone. An empty handle has the use count 0 and the
call of `clone` through its null pointer is an error. -/
def handle_store.detach (st : handle_store) (h : Nat) : Except String handle_store :=
  if st.use_count h == 1 then .ok st
  else
    match (st.pointee h).bind (fun a => st.nodes[a]?) with
    | none => .error "null pointer dereference"
    | some foo =>
      .ok { nodes := st.nodes ++ [foo.clone],
            handles := st.handles.set h (some st.nodes.length) }

/-- The non-const `irep_container::get` (irep2.h:239-245): `detach`, then the
cached hash of the node of the handle is set to 0 and the address of the node
is returned. -/
def handle_store.get (st : handle_store) (h : Nat) : Except String (handle_store × Nat) :=
  match st.detach h with
  | .error e => .error e
  | .ok st1 =>
    match st1.pointee h with
    | none => .error "null pointer dereference"
    | some tmp =>
      match st1.nodes[tmp]? with
      | none => .error "null pointer dereference"
      | some n => .ok ({ st1 with nodes := st1.nodes.set tmp { n with crc_val := 0 } }, tmp)

/-- What a handle observes: the node it points to, with its term and its
cached hash. -/
def handle_store.observe (st : handle_store) (h : Nat) : Option expr2t_node :=
  (st.pointee h).bind (fun a => st.nodes[a]?)

/-- Every handle that is not empty points to a node in existence. -/
def handle_store.wf (st : handle_store) : Prop :=
  ∀ h a, st.pointee h = some a → a < st.nodes.length

/-- A store with two nodes and three handles: handles 0 and 1 share node 0,
whose hash is cached, and handle 2 alone points to node 1. -/
def sample_handle_store : handle_store :=
  { nodes := [{ term := sample_sym "a" 1, crc_val := 77 },
              { term := sample_sym "b" 1, crc_val := 88 }],
    handles := [some 0, some 0, some 1] }

/-! ## The regression test 01_cbmc_abs1 (regression/esbmc/01_cbmc_abs1/main.c) -/

/-- The value of an integer in the 32 bits of a two's-complement `int`. -/
def to_int32 (n : Int) : Int :=
  (n + 2147483648) % 4294967296 - 2147483648

/-- Modelled from the spec: the value of the term `abs2t` on an `int`
operand. irep2.h:3642 documents the term as the absolute value of its
operand, with the type of the operand; its evaluation is not among the
sources. The value is the absolute value, in the 32 bits of the type. -/
def abs2t_value (val : Int) : Int :=
  to_int32 (Int.natAbs val)

/-- Modelled from the spec: the call `abs(x)` as `goto_convertt::do_abs`
(declared in goto_convert_class.h:412, its body is not among the sources)
translates it: the value assigned is the term `abs2t` on the argument. -/
def do_abs (argument : Int) : Int :=
  abs2t_value argument

/-- The term `(my_i<0)?-my_i:my_i` of main.c:15 on a 32-bit `int`, the
negation being the two's-complement one. -/
def main_iabs (my_i : Int) : Int :=
  if my_i < 0 then to_int32 (-my_i) else my_i

/-- The assertions of `main` on `int` values (main.c:10, 11 and 16), for the
value `my_i` of the variable that is not initialised. -/
def main_int_assertions (my_i : Int) : List Bool :=
  [do_abs (-1) == 1, do_abs 1 == 1, do_abs my_i == main_iabs my_i]

/-! ## The green normal form (cache/algorithms/expr_green_normal_form.test.h) -/

/-- The relational operators of the documented rules. -/
inductive green_op where
  | equality
  | notequal
  | lessthan
  | lessthanequal
  | greaterthan
  | greaterthanequal
  deriving DecidableEq, Repr

/-- A relation of the input form `A + B + C + ... + k OP y`: the symbols, the
constant `k` of the left-hand side, the operator and the constant `y`. -/
structure green_relation where
  symbols : List String
  k : Int
  op : green_op
  y : Int
  deriving DecidableEq, Repr

/-- A relation against 0, `A + B + C + ... + k OP 0`, or
`-(A + B + C + ... + k) OP 0` when `negated`. -/
structure green_normal_form where
  symbols : List String
  k : Int
  negated : Bool
  op : green_op
  deriving DecidableEq, Repr

/-- The value of `A + B + C + ... + k` under an assignment of integers to the
symbols. -/
def green_sum (σ : String → Int) (symbols : List String) (k : Int) : Int :=
  (symbols.map σ).sum + k

/-- The truth of `a OP b` on integers. -/
def green_op.holds : green_op → Int → Int → Bool
  | .equality, a, b => decide (a = b)
  | .notequal, a, b => decide (a ≠ b)
  | .lessthan, a, b => decide (a < b)
  | .lessthanequal, a, b => decide (a ≤ b)
  | .greaterthan, a, b => decide (a > b)
  | .greaterthanequal, a, b => decide (a ≥ b)

/-- Whether an assignment satisfies a relation of the input form. -/
def green_relation.holds (σ : String → Int) (r : green_relation) : Bool :=
  r.op.holds (green_sum σ r.symbols r.k) r.y

/-- Whether an assignment satisfies a relation against 0. -/
def green_normal_form.holds (σ : String → Int) (r : green_normal_form) : Bool :=
  r.op.holds
    (if r.negated then -(green_sum σ r.symbols r.k) else green_sum σ r.symbols r.k) 0

/-- Modelled from the spec: the rules for changing relations, as the comment
of the class documents them (expr_green_normal_form.test.h:27-34; the
implementation of `run` and `convert_inequality` is not among the sources). -/
def expr_green_normal_form.run (r : green_relation) : green_normal_form :=
  match r.op with
  | .equality => { symbols := r.symbols, k := r.k - r.y, negated := false, op := .equality }
  | .notequal => { symbols := r.symbols, k := r.k - r.y, negated := false, op := .notequal }
  | .lessthan =>
    { symbols := r.symbols, k := r.k - r.y + 1, negated := false, op := .lessthanequal }
  | .lessthanequal =>
    { symbols := r.symbols, k := r.k - r.y, negated := false, op := .lessthanequal }
  | .greaterthan =>
    { symbols := r.symbols, k := r.k + r.y - 1, negated := true, op := .lessthanequal }
  | .greaterthanequal =>
    { symbols := r.symbols, k := r.k + r.y, negated := true, op := .lessthanequal }

/-- The assignment that gives every symbol the value 0. -/
def sample_green_assignment : String → Int :=
  fun _ => 0

/-- The relation `A + 0 OP 1`. -/
def sample_green_relation (op : green_op) : green_relation :=
  { symbols := ["A"], k := 0, op := op, y := 1 }

/-! ## Visibility of the records the engine appends -/

/-- Whether a record is marked HIDDEN when it is an assignment; assumptions
and claims carry no visibility. -/
def SSA_stept.hidden_if_assignment : SSA_stept → Bool
  | .assignment _ _ _ _ _ hidden => hidden
  | _ => true

/-- Whether a record is an assignment marked HIDDEN. -/
def SSA_stept.is_hidden_assignment : SSA_stept → Bool
  | .assignment _ _ _ _ _ hidden => hidden
  | _ => false

/-- The sink `t` is the sink `t0` followed by records that all pass the test
`p`. -/
def sink_adds (p : SSA_stept → Bool) (t0 t : List SSA_stept) : Prop :=
  ∃ app : List SSA_stept, t = t0 ++ app ∧ ∀ r ∈ app, p r = true

/-! ## Observers for the merge -/

/-- The statement `frame.goto_state_map.erase(pc)` on the top frame. -/
def goto_symext.erase_goto_state_list (s : goto_symext) (pc : Nat) : goto_symext :=
  { s with cur_state := { s.cur_state with top := { s.cur_state.top with
      goto_state_map := map_erase s.cur_state.top.goto_state_map pc } } }

/-- The pending states queued in the top frame under the current pc, in the
order in which they were queued; none when the map has no entry. -/
def goto_symext.pending_states (s : goto_symext) : List goto_statet :=
  (map_find s.cur_state.top.goto_state_map s.cur_state.source.pc).getD []

/-- A pending state with the given guard, depth and value set and an empty
L2 map. -/
def sample_pending (g : List expr2tc) (depth : Nat) (vs : value_sett) : goto_statet :=
  { depth := depth, level2 := { current_names := [] }, value_set := vs,
    guard := { guard_list := g } }

/-- The sample engine at pc 1 with the guard `g`, the depth 7, the value set
`vs` and the pending states `pending` queued under pc 1. -/
def sample_symex_merge (g : List expr2tc) (vs : value_sett) (pending : List goto_statet) :
    goto_symext :=
  sample_symex ⟨false, false, false, false⟩
    { sample_state_with_pending 1 g [] pending with depth := 7, value_set := vs }

/-! ## A loop followed by a branch -/

/-- The instructions of `sample_program`, followed by a forward goto to 5 at
3 and two skips. -/
def sample_program_after_loop : List instructiont :=
  sample_program ++
    [ { targets := [5], location_number := 3, loop_number := 0, loopid := "" },
      { targets := [], location_number := 4, loop_number := 0, loopid := "" },
      { targets := [], location_number := 5, loop_number := 0, loopid := "" } ]

/-- The collaborators `sample_ext` over `sample_program_after_loop`. -/
def sample_ext_after_loop : collaborators :=
  { sample_ext with program := sample_program_after_loop }

/-- The sample engine (limit 3, default options) at the back-edge of
instruction 2 with the guard `a` and the counter at 2, with one pending state
of guard `b` queued under pc 3, the instruction after the loop. -/
def sample_symex_at_bound : goto_symext :=
  sample_symex ⟨false, false, false, false⟩
    { sample_state 2 [sample_sym "a" 1] [] with
      unwind_map := [(⟨2⟩, 2)],
      top := { level1 := { current_names := [] },
               goto_state_map := [(3, [sample_pending [sample_sym "b" 1] 0 ∅])] } }

/-! ## The solver factory (solvers/solve.cpp) -/

/-- Modelled from the spec: a solver context as its constructor leaves it,
as far as the two flags go: which solver it is and the values its parameters
`int_encoding` and `is_cpp` received (the solver classes are not among the
sources). -/
structure smt_convt where
  solver : String
  int_encoding : Bool
  is_cpp : Bool
  deriving DecidableEq, Repr

/-- The preprocessor symbols Z3, MINISAT, MATHSAT, USECVC and BOOLECTOR: which
solvers were built in. -/
structure solver_build where
  z3 : Bool
  minisat : Bool
  mathsat : Bool
  usecvc : Bool
  boolector : Bool
  deriving DecidableEq, Repr

/-- Modelled from the spec: the constructor functions `create_new_*_solver`
and `smtlib_convt`, declared in solve.cpp:9-27 with the parameters
`(bool int_encoding, const namespacet &ns, bool is_cpp, ...)` (their bodies
are not among the sources): the context records the two flags it is given.
The namespace, the options and the tuple and array interfaces are left out. -/
def create_new_solver (solver : String) (int_encoding is_cpp : Bool) : smt_convt :=
  { solver := solver, int_encoding := int_encoding, is_cpp := is_cpp }

/-- The function `create_z3_solver(is_cpp, int_encoding, ...)`
(solve.cpp:29-44); `abort()` is an error. -/
def create_z3_solver (b : solver_build) (is_cpp int_encoding : Bool) :
    Except String smt_convt :=
  if !b.z3 then .error "Sorry, Z3 support was not built into this version of ESBMC"
  else .ok (create_new_solver "z3" int_encoding is_cpp)

/-- The function `create_minisat_solver(int_encoding, ns, is_cpp, options)`
(solve.cpp:46-59). -/
def create_minisat_solver (b : solver_build) (int_encoding is_cpp : Bool) :
    Except String smt_convt :=
  if !b.minisat then
    .error "Sorry, MiniSAT support was not built into this version of ESBMC"
  else .ok (create_new_solver "minisat" int_encoding is_cpp)

/-- The function `create_mathsat_solver(is_cpp, int_encoding, ...)`
(solve.cpp:61-76). -/
def create_mathsat_solver (b : solver_build) (is_cpp int_encoding : Bool) :
    Except String smt_convt :=
  if !b.mathsat then
    .error "Sorry, MathSAT support was not built into this version of ESBMC"
  else .ok (create_new_solver "mathsat" int_encoding is_cpp)

/-- The function `create_cvc_solver(is_cpp, int_encoding, ...)`
(solve.cpp:78-93). -/
def create_cvc_solver (b : solver_build) (is_cpp int_encoding : Bool) :
    Except String smt_convt :=
  if !b.usecvc then .error "Sorry, CVC support was not built into this version of ESBMC"
  else .ok (create_new_solver "cvc" int_encoding is_cpp)

/-- The function `create_boolector_solver(is_cpp, int_encoding, ...)`
(solve.cpp:95-110). -/
def create_boolector_solver (b : solver_build) (is_cpp int_encoding : Bool) :
    Except String smt_convt :=
  if !b.boolector then
    .error "Sorry, Boolector support was not built into this version of ESBMC"
  else .ok (create_new_solver "boolector" int_encoding is_cpp)

/-- The array `list_of_solvers` (solve.cpp:113-114). -/
def list_of_solvers : List String :=
  ["z3", "smtlib", "minisat", "boolector", "sword", "stp", "mathsat", "cvc"]

/-- The function `pick_solver` (solve.cpp:116-148); the arguments of each
call stand in the order in which the source writes them. -/
def pick_solver (b : solver_build) (get_bool_option : String → Bool)
    (is_cpp int_encoding : Bool) : Except String smt_convt :=
  let total_solvers := (list_of_solvers.filter get_bool_option).length
  if total_solvers > 1 then .error "Please only specify one solver"
  else if get_bool_option "smtlib" then .ok (create_new_solver "smtlib" int_encoding is_cpp)
  else if get_bool_option "mathsat" then create_mathsat_solver b int_encoding is_cpp
  else if get_bool_option "cvc" then create_cvc_solver b int_encoding is_cpp
  else if get_bool_option "minisat" then create_minisat_solver b int_encoding is_cpp
  else if get_bool_option "boolector" then create_boolector_solver b is_cpp int_encoding
  else create_z3_solver b is_cpp int_encoding

/-- The function `create_solver_factory1` (solve.cpp:150-181); the arguments
of each call stand in the order in which the source writes them. -/
def create_solver_factory1 (b : solver_build) (get_bool_option : String → Bool)
    (solver_name : String) (is_cpp int_encoding : Bool) : Except String smt_convt :=
  if solver_name = "" then pick_solver b get_bool_option is_cpp int_encoding
  else if solver_name = "z3" then create_z3_solver b is_cpp int_encoding
  else if solver_name = "mathsat" then create_mathsat_solver b int_encoding is_cpp
  else if solver_name = "cvc" then create_cvc_solver b int_encoding is_cpp
  else if solver_name = "smtlib" then .ok (create_new_solver "smtlib" int_encoding is_cpp)
  else if get_bool_option "minisat" then create_minisat_solver b int_encoding is_cpp
  else if get_bool_option "boolector" then create_boolector_solver b is_cpp int_encoding
  else .error ("Unrecognized solver " ++ solver_name)

/-- The function `create_solver_factory` (solve.cpp:184-211): the context of
`create_solver_factory1`; the choice of the tuple flattener and
`smt_post_init`, which come after the constructor, are left out. -/
def create_solver_factory (b : solver_build) (get_bool_option : String → Bool)
    (solver_name : String) (is_cpp int_encoding : Bool) : Except String smt_convt :=
  create_solver_factory1 b get_bool_option solver_name is_cpp int_encoding

/-- A build with every solver built in. -/
def sample_solver_build : solver_build :=
  { z3 := true, minisat := true, mathsat := true, usecvc := true, boolector := true }

/-! ## The identifiers `phi_function` has an assignment for -/

/-- Along the run of `steps` from `s`, no `merge_gotos` step joins a pending
state whose guard is not false: at every merge step the pending states
queued under the current pc all have guards that are false. -/
def merges_join_false (ext : collaborators) : goto_symext → List symex_stept → Prop
  | _, [] => True
  | s, .goto old_guard :: rest =>
    ∀ s1 : goto_symext, s.symex_goto ext old_guard = .ok s1 → merges_join_false ext s1 rest
  | s, .merge :: rest =>
    (∀ g ∈ s.pending_states, g.guard.is_false = true) ∧
      merges_join_false ext (s.merge_gotos ext) rest

/-! ## Theorems -/

/-! ### Basic facts -/

/-- After `m[k] = v` the lookup of `k` finds `v`. -/
theorem map_find_map_set_self {κ ν : Type} [DecidableEq κ] (m : List (κ × ν)) (k : κ) (v : ν) :
    map_find (map_set m k v) k = some v := by
  induction m with
  | nil => simp [map_set, map_find]
  | cons kv m ih =>
    obtain ⟨k1, v1⟩ := kv
    by_cases h : k1 = k
    · simp [map_set, map_find, h]
    · simp [map_set, map_find, h, ih]

/-- The update `m[k] = v` leaves the lookup of every other key as it was. -/
theorem map_find_map_set_ne {κ ν : Type} [DecidableEq κ] (m : List (κ × ν)) (k k2 : κ)
    (v : ν) (h : k ≠ k2) : map_find (map_set m k v) k2 = map_find m k2 := by
  induction m with
  | nil => simp [map_set, map_find, h]
  | cons kv m ih =>
    obtain ⟨k1, v1⟩ := kv
    by_cases h1 : k1 = k
    · subst h1
      simp [map_set, map_find, h]
    · by_cases h2 : k1 = k2
      · subst h2
        simp [map_set, map_find, h1]
      · simp [map_set, map_find, h1, h2, ih]

/-- After `add(e)` the conjuncts are all true exactly when they were all true
before and `e` is true. -/
theorem guardt.all_add_list (v : valuation) (e : expr2tc) :
    ∀ l : List expr2tc,
      (guardt.add_list l e).all (fun x => x.eval v) = (l.all (fun x => x.eval v) && e.eval v) := by
  induction e with
  | constant_bool b => intro l; cases b <;> simp [guardt.add_list, expr2tc.eval]
  | and2t a b iha ihb =>
    intro l
    simp [guardt.add_list, iha, ihb, expr2tc.eval, Bool.and_assoc]
  | symbol s => intro l; simp [guardt.add_list, expr2tc.eval]
  | not2t a _ => intro l; simp [guardt.add_list, expr2tc.eval]
  | or2t a b _ _ => intro l; simp [guardt.add_list, expr2tc.eval]
  | implies2t a b _ _ => intro l; simp [guardt.add_list, expr2tc.eval]
  | if2t c a b _ _ _ => intro l; simp [guardt.add_list, expr2tc.eval]
  | other n => intro l; simp [guardt.add_list, expr2tc.eval]

/-- The guard after `add(e)` is the conjunction of the guard before and `e`. -/
theorem guardt.eval_add (v : valuation) (g : guardt) (e : expr2tc) :
    (g.add e).eval v = (g.eval v && e.eval v) := by
  simp [guardt.add, guardt.eval, guardt.all_add_list]

/-! ### Terms and their migration -/

mutual
/-- Structural equality of old terms decides equality. -/
theorem exprt.eq_of_beq : ∀ a b : exprt, exprt.beq a b = true → a = b
  | .constant_bool a, .constant_bool b, h => by simpa [exprt.beq] using h
  | .symbol a, .symbol b, h => by simpa [exprt.beq] using h
  | .not a, .not b, h => by
    simp only [exprt.beq] at h
    rw [exprt.eq_of_beq a b h]
  | .and as, .and bs, h => by
    simp only [exprt.beq] at h
    rw [exprt.eq_of_beq_list as bs h]
  | .or as, .or bs, h => by
    simp only [exprt.beq] at h
    rw [exprt.eq_of_beq_list as bs h]
  | .implies a1 a2, .implies b1 b2, h => by
    simp only [exprt.beq, Bool.and_eq_true] at h
    rw [exprt.eq_of_beq a1 b1 h.1, exprt.eq_of_beq a2 b2 h.2]
  | .ifx a1 a2 a3, .ifx b1 b2 b3, h => by
    simp only [exprt.beq, Bool.and_eq_true] at h
    rw [exprt.eq_of_beq a1 b1 h.1.1, exprt.eq_of_beq a2 b2 h.1.2, exprt.eq_of_beq a3 b3 h.2]
  | .other a, .other b, h => by simpa [exprt.beq] using h
  | .constant_bool _, .symbol _, h | .constant_bool _, .not _, h
  | .constant_bool _, .and _, h | .constant_bool _, .or _, h
  | .constant_bool _, .implies _ _, h | .constant_bool _, .ifx _ _ _, h
  | .constant_bool _, .other _, h => by simp [exprt.beq] at h
  | .symbol _, .constant_bool _, h | .symbol _, .not _, h
  | .symbol _, .and _, h | .symbol _, .or _, h
  | .symbol _, .implies _ _, h | .symbol _, .ifx _ _ _, h
  | .symbol _, .other _, h => by simp [exprt.beq] at h
  | .not _, .constant_bool _, h | .not _, .symbol _, h
  | .not _, .and _, h | .not _, .or _, h
  | .not _, .implies _ _, h | .not _, .ifx _ _ _, h
  | .not _, .other _, h => by simp [exprt.beq] at h
  | .and _, .constant_bool _, h | .and _, .symbol _, h
  | .and _, .not _, h | .and _, .or _, h
  | .and _, .implies _ _, h | .and _, .ifx _ _ _, h
  | .and _, .other _, h => by simp [exprt.beq] at h
  | .or _, .constant_bool _, h | .or _, .symbol _, h
  | .or _, .not _, h | .or _, .and _, h
  | .or _, .implies _ _, h | .or _, .ifx _ _ _, h
  | .or _, .other _, h => by simp [exprt.beq] at h
  | .implies _ _, .constant_bool _, h | .implies _ _, .symbol _, h
  | .implies _ _, .not _, h | .implies _ _, .and _, h
  | .implies _ _, .or _, h | .implies _ _, .ifx _ _ _, h
  | .implies _ _, .other _, h => by simp [exprt.beq] at h
  | .ifx _ _ _, .constant_bool _, h | .ifx _ _ _, .symbol _, h
  | .ifx _ _ _, .not _, h | .ifx _ _ _, .and _, h
  | .ifx _ _ _, .or _, h | .ifx _ _ _, .implies _ _, h
  | .ifx _ _ _, .other _, h => by simp [exprt.beq] at h
  | .other _, .constant_bool _, h | .other _, .symbol _, h
  | .other _, .not _, h | .other _, .and _, h
  | .other _, .or _, h | .other _, .implies _ _, h
  | .other _, .ifx _ _ _, h => by simp [exprt.beq] at h
/-- Structural equality of operand lists decides equality. -/
theorem exprt.eq_of_beq_list : ∀ as bs : List exprt, exprt.beq_list as bs = true → as = bs
  | [], [], _ => rfl
  | a :: as, b :: bs, h => by
    simp only [exprt.beq_list, Bool.and_eq_true] at h
    rw [exprt.eq_of_beq a b h.1, exprt.eq_of_beq_list as bs h.2]
  | [], _ :: _, h => by simp [exprt.beq_list] at h
  | _ :: _, [], h => by simp [exprt.beq_list] at h
end

/-- A left-nested conjunction is true when all its operands are. -/
theorem eval_foldl_and2t (v : valuation) (rest : List expr2tc) :
    ∀ a : expr2tc, (rest.foldl expr2tc.and2t a).eval v =
      (a.eval v && rest.all (fun x => x.eval v)) := by
  induction rest with
  | nil => intro a; simp
  | cons b rest ih => intro a; simp [ih, expr2tc.eval, Bool.and_assoc]

/-- A left-nested disjunction is true when one of its operands is. -/
theorem eval_foldl_or2t (v : valuation) (rest : List expr2tc) :
    ∀ a : expr2tc, (rest.foldl expr2tc.or2t a).eval v =
      (a.eval v || rest.any (fun x => x.eval v)) := by
  induction rest with
  | nil => intro a; simp
  | cons b rest ih => intro a; simp [ih, expr2tc.eval, Bool.or_assoc]

mutual
/-- Migration to the new representation keeps the truth value. -/
theorem eval_migrate_expr (v : valuation) :
    ∀ e : exprt, (migrate_expr e).eval v = exprt.eval v e
  | .constant_bool _ => by simp [migrate_expr, exprt.eval, expr2tc.eval]
  | .symbol _ => by simp [migrate_expr, exprt.eval, expr2tc.eval]
  | .not e => by simp [migrate_expr, exprt.eval, expr2tc.eval, eval_migrate_expr v e]
  | .and ops => by
    rw [migrate_expr, exprt.eval, ← all_migrate_expr_list v ops]
    cases migrate_expr_list ops with
    | nil => simp [splice_expr, true_expr, expr2tc.eval]
    | cons a rest => simp [splice_expr, eval_foldl_and2t]
  | .or ops => by
    rw [migrate_expr, exprt.eval, ← any_migrate_expr_list v ops]
    cases migrate_expr_list ops with
    | nil => simp [splice_expr, false_expr, expr2tc.eval]
    | cons a rest => simp [splice_expr, eval_foldl_or2t]
  | .implies a b => by
    simp [migrate_expr, exprt.eval, expr2tc.eval, eval_migrate_expr v a, eval_migrate_expr v b]
  | .ifx c a b => by
    simp [migrate_expr, exprt.eval, expr2tc.eval, eval_migrate_expr v a, eval_migrate_expr v b,
      eval_migrate_expr v c]
  | .other _ => by simp [migrate_expr, exprt.eval, expr2tc.eval]
/-- Migration keeps the conjunction of an operand list. -/
theorem all_migrate_expr_list (v : valuation) :
    ∀ es : List exprt, (migrate_expr_list es).all (fun x => x.eval v) = exprt.eval_all v es
  | [] => by simp [migrate_expr_list, exprt.eval_all]
  | e :: es => by
    simp [migrate_expr_list, exprt.eval_all, eval_migrate_expr v e, all_migrate_expr_list v es]
/-- Migration keeps the disjunction of an operand list. -/
theorem any_migrate_expr_list (v : valuation) :
    ∀ es : List exprt, (migrate_expr_list es).any (fun x => x.eval v) = exprt.eval_any v es
  | [] => by simp [migrate_expr_list, exprt.eval_any]
  | e :: es => by
    simp [migrate_expr_list, exprt.eval_any, eval_migrate_expr v e, any_migrate_expr_list v es]
end

/-- Migration back to the old representation keeps the truth value. -/
theorem eval_migrate_expr_back (v : valuation) (e : expr2tc) :
    exprt.eval v (migrate_expr_back e) = e.eval v := by
  induction e with
  | constant_bool b => simp [migrate_expr_back, exprt.eval, expr2tc.eval]
  | symbol s => simp [migrate_expr_back, exprt.eval, expr2tc.eval]
  | not2t a ih => simp [migrate_expr_back, exprt.eval, expr2tc.eval, ih]
  | and2t a b iha ihb =>
    simp [migrate_expr_back, exprt.eval, exprt.eval_all, expr2tc.eval, iha, ihb]
  | or2t a b iha ihb =>
    simp [migrate_expr_back, exprt.eval, exprt.eval_any, expr2tc.eval, iha, ihb]
  | implies2t a b iha ihb => simp [migrate_expr_back, exprt.eval, expr2tc.eval, iha, ihb]
  | if2t c a b ihc iha ihb => simp [migrate_expr_back, exprt.eval, expr2tc.eval, iha, ihb, ihc]
  | other n => simp [migrate_expr_back, exprt.eval, expr2tc.eval]

/-- The conjunction of a list of migrated-back terms. -/
theorem eval_all_map_migrate_expr_back (v : valuation) (es : List expr2tc) :
    exprt.eval_all v (es.map migrate_expr_back) = es.all (fun x => x.eval v) := by
  induction es with
  | nil => simp [exprt.eval_all]
  | cons e es ih => simp [exprt.eval_all, eval_migrate_expr_back, ih]

/-- The term `as_expr(it)` is true exactly when every conjunct from `it` on
is. -/
theorem guardt.eval_as_expr (v : valuation) (g : guardt) (it : Nat) :
    exprt.eval v (g.as_expr it) = (g.guard_list.drop it).all (fun x => x.eval v) := by
  unfold guardt.as_expr
  split
  · next h => simp [h, exprt.eval]
  · next e h => simp [h, eval_migrate_expr_back]
  · next es h1 h2 => simp only [exprt.eval, eval_all_map_migrate_expr_back]

/-- The term `make_not` builds is the negation. -/
theorem exprt.eval_make_not (v : valuation) (e : exprt) :
    exprt.eval v e.make_not = !exprt.eval v e := by
  cases e <;> simp [exprt.make_not, exprt.eval]

/-- A term for which `is_true` holds is true. -/
theorem exprt.eval_of_is_true (v : valuation) (e : exprt) (h : e.is_true = true) :
    exprt.eval v e = true := by
  cases e <;> simp_all [exprt.is_true, exprt.eval]

/-- A conjunct list with a constant false in it is false under every
assignment. -/
theorem all_eval_of_forall_guard_is_false (v : valuation) (l : List expr2tc)
    (h : forall_guard_is_false l = true) : l.all (fun x => x.eval v) = false := by
  induction l with
  | nil => simp [forall_guard_is_false] at h
  | cons e l ih =>
    simp only [forall_guard_is_false] at h
    by_cases he : is_false e = true
    · have : e.eval v = false := by
        cases e <;> simp_all [is_false, expr2tc.eval]
      simp [this]
    · simp only [he] at h
      simp [ih (by simpa using h)]

/-- A guard for which `is_false` holds is false under every assignment. -/
theorem eval_of_guard_is_false (v : valuation) (g : guardt) (h : g.is_false = true) :
    g.eval v = false :=
  all_eval_of_forall_guard_is_false v g.guard_list h

/-- Up to the index the common-prefix loop reaches, the two lists agree. -/
theorem guardt.take_common_len (l1 l2 : List expr2tc) :
    l1.take (guardt.common_len l1 l2) = l2.take (guardt.common_len l1 l2) := by
  induction l1 generalizing l2 with
  | nil => cases l2 <;> simp [guardt.common_len]
  | cons a l1 ih =>
    cases l2 with
    | nil => simp [guardt.common_len]
    | cons b l2 =>
      by_cases h : a = b
      · simp [guardt.common_len, h, ih l2]
      · simp [guardt.common_len, h]

/-- The conjunction of a list splits at any index. -/
theorem all_take_drop (v : valuation) (l : List expr2tc) (n : Nat) :
    l.all (fun x => x.eval v) =
      ((l.take n).all (fun x => x.eval v) && (l.drop n).all (fun x => x.eval v)) := by
  rw [← List.all_append, List.take_append_drop]

/-! ### The join of guards -/

/-- When the common-prefix loop consumes the whole second list, the second
list is an initial segment of the first. -/
theorem guardt.common_len_eq_length (l1 l2 : List expr2tc)
    (h : guardt.common_len l1 l2 = l2.length) : ∃ t, l1 = l2 ++ t := by
  induction l1 generalizing l2 with
  | nil =>
    cases l2 with
    | nil => exact ⟨[], rfl⟩
    | cons b l2 => simp [guardt.common_len] at h
  | cons a l1 ih =>
    cases l2 with
    | nil => exact ⟨a :: l1, rfl⟩
    | cons b l2 =>
      by_cases hab : a = b
      · simp only [guardt.common_len, hab, if_true, List.length_cons, Nat.add_right_cancel_iff]
          at h
        obtain ⟨t, ht⟩ := ih l2 h
        exact ⟨t, by rw [hab, ht]; rfl⟩
      · simp [guardt.common_len, hab] at h

/-- The join is the disjunction, except in the one case the early return of
guard.cpp:185 gets wrong: for guards `g1`, `g2` of which the conjunct list of
`g2` is not a proper initial segment of that of `g1` (or one of which is
false), the guard left in `g1` by `g1 |= g2` evaluates to
`eval(g1) ∨ eval(g2)` under every truth assignment. -/
theorem operator_or_assign_eval (v : valuation) (g1 g2 : guardt)
    (h : g1.is_false = false → g2.is_false = false →
      ∀ t, g1.guard_list = g2.guard_list ++ t → t = []) :
    (g1.operator_or_assign g2).eval v = (g1.eval v || g2.eval v) := by
  unfold guardt.operator_or_assign
  by_cases h2 : g2.is_false = true
  · rw [if_pos h2, eval_of_guard_is_false v g2 h2, Bool.or_false]
  rw [if_neg h2]
  by_cases h1 : g1.is_false = true
  · rw [if_pos h1, eval_of_guard_is_false v g1 h1, Bool.false_or]
  rw [if_neg h1]
  by_cases hit : guardt.common_len g1.guard_list g2.guard_list = g2.guard_list.length
  · obtain ⟨t, ht⟩ := guardt.common_len_eq_length _ _ hit
    have ht0 := h (by simpa using h1) (by simpa using h2) t ht
    have hl : g1.guard_list = g2.guard_list := by simpa [ht0] using ht
    simp only [hit, if_true]
    simp [guardt.eval, hl]
  simp only [hit, if_false]
  have e1 := guardt.eval_as_expr v g1 (guardt.common_len g1.guard_list g2.guard_list)
  have e2 := guardt.eval_as_expr v g2 (guardt.common_len g1.guard_list g2.guard_list)
  have s1 := all_take_drop v g1.guard_list (guardt.common_len g1.guard_list g2.guard_list)
  have s2 := all_take_drop v g2.guard_list (guardt.common_len g1.guard_list g2.guard_list)
  rw [← guardt.take_common_len] at s2
  rw [← e1] at s1
  rw [← e2] at s2
  generalize g1.as_expr (guardt.common_len g1.guard_list g2.guard_list) = and_expr1 at *
  generalize g2.as_expr (guardt.common_len g1.guard_list g2.guard_list) = and_expr2 at *
  by_cases hneg : exprt.beq and_expr2.make_not and_expr1 = true
  · have hev := congrArg (exprt.eval v) (exprt.eq_of_beq _ _ hneg)
    rw [exprt.eval_make_not] at hev
    simp only [hneg, Bool.not_true, Bool.false_eq_true, if_false, guardt.eval, s1, s2, ← hev]
    cases exprt.eval v and_expr2 <;> simp
  · simp only [hneg, Bool.not_false, if_true]
    by_cases htrue : (and_expr1.is_true || and_expr2.is_true) = true
    · simp only [htrue, if_true, guardt.eval, s1, s2]
      generalize (g1.guard_list.take (guardt.common_len g1.guard_list g2.guard_list)).all
        (fun x => x.eval v) = P
      rcases (Bool.or_eq_true _ _).mp htrue with ht | ht
      · rw [exprt.eval_of_is_true v _ ht]
        cases P <;> cases exprt.eval v and_expr2 <;> rfl
      · rw [exprt.eval_of_is_true v _ ht]
        cases P <;> cases exprt.eval v and_expr1 <;> rfl
    · simp only [htrue, Bool.false_eq_true, if_false]
      simp [guardt.move, exprt.is_true, migrate_expr, migrate_expr_list, splice_expr,
        expr2tc.eval, eval_migrate_expr, Bool.and_or_distrib_left, guardt.eval, s1, s2]

/-- The common-prefix loop consumes the whole second list when that list is an
initial segment of the first. -/
theorem guardt.common_len_append (l2 t : List expr2tc) :
    guardt.common_len (l2 ++ t) l2 = l2.length := by
  induction l2 with
  | nil => cases t <;> simp [guardt.common_len]
  | cons b l2 ih => simp [guardt.common_len, ih]

/-- What the early return of guard.cpp:185 does in general: when neither
guard is false and the conjunct list of `g2` is an initial segment of that of
`g1`, the join leaves `g1` as it is, tail included. -/
theorem operator_or_assign_of_initial_segment (g1 g2 : guardt) (t : List expr2tc)
    (h1 : g1.is_false = false) (h2 : g2.is_false = false)
    (ht : g1.guard_list = g2.guard_list ++ t) :
    g1.operator_or_assign g2 = g1 := by
  unfold guardt.operator_or_assign
  simp [h1, h2, ht, guardt.common_len_append]

/-- C1 at a failing input: `g1` is `a, b` and `g2` is `a`, a proper prefix of
`g1`. The join returns early and leaves `g1` as it is, so under the
assignment that makes `a` true and `b` false the joined guard is false
although `g1 ∨ g2` is true; `merge_gotos`, merging one pending state with
guard `a` into a state with guard `a, b`, ends with the guard `a, b`. -/
theorem operator_or_assign_keeps_tail_when_second_is_initial_segment :
    guardt.operator_or_assign ⟨[sample_sym "a" 1, sample_sym "b" 1]⟩ ⟨[sample_sym "a" 1]⟩ =
      ⟨[sample_sym "a" 1, sample_sym "b" 1]⟩ ∧
    (guardt.operator_or_assign ⟨[sample_sym "a" 1, sample_sym "b" 1]⟩
      ⟨[sample_sym "a" 1]⟩).eval sample_valuation = false ∧
    (guardt.eval sample_valuation ⟨[sample_sym "a" 1, sample_sym "b" 1]⟩ ||
      guardt.eval sample_valuation ⟨[sample_sym "a" 1]⟩) = true ∧
    (goto_symext.merge_gotos sample_ext
      (sample_symex ⟨false, false, false, false⟩
        (sample_state_with_pending 1 [sample_sym "a" 1, sample_sym "b" 1] []
          [sample_goto_state [sample_sym "a" 1] []]))).cur_state.guard =
      ⟨[sample_sym "a" 1, sample_sym "b" 1]⟩ := by
  refine ⟨by rfl, by rfl, by rfl, by rfl⟩

/-! ### Loop bounds -/

/-- C10: `get_unwind(source, n)` is true exactly when the limit is not 0 and
`n` has reached it, where the limit is the `unwind_set` entry of the loop
number of the instruction when there is one, and `max_unwind` otherwise. A
limit of 0 is never reached, and where a loop has an entry the global maximum
plays no part. -/
theorem get_unwind_iff (ext : collaborators) (s : goto_symext) (source : sourcet) (n : Nat) :
    (s.get_unwind ext source n = true ↔
      (match map_find s.unwind_set (ext.instruction source.pc).loop_number with
       | some L => L ≠ 0 ∧ n ≥ L
       | none => s.max_unwind ≠ 0 ∧ n ≥ s.max_unwind)) ∧
    (map_find s.unwind_set (ext.instruction source.pc).loop_number = some 0 ∨
      (map_find s.unwind_set (ext.instruction source.pc).loop_number = none ∧
        s.max_unwind = 0) → s.get_unwind ext source n = false) ∧
    (∀ (L m : Nat),
      map_find s.unwind_set (ext.instruction source.pc).loop_number = some L →
      goto_symext.get_unwind ext { s with max_unwind := m } source n =
        (L != 0 && decide (n ≥ L))) := by
  refine ⟨?_, ?_, ?_⟩
  · unfold goto_symext.get_unwind map_contains map_at
    cases h : map_find s.unwind_set (ext.instruction source.pc).loop_number <;> simp [h]
  · unfold goto_symext.get_unwind map_contains map_at
    rintro (h | ⟨h, h0⟩) <;> simp [h, *]
  · intro L m h
    unfold goto_symext.get_unwind map_contains map_at
    simp [h]

/-- C7: with base-case enabled, `loop_bound_exceeded` appends exactly one
record, the assumption of the negated condition guarded by the path guard,
and no claim record, whatever the other options are; it then adds the
negated condition to the state guard. -/
theorem loop_bound_exceeded_base_case (ext : collaborators) (s : goto_symext) (c : expr2tc)
    (hb : s.options.base_case = true) :
    (s.loop_bound_exceeded ext c).target = s.target ++
      [.assumption s.cur_state.guard.as_expr2tc
        (s.cur_state.guard.guard_expr (negated_cond c)) s.cur_state.source] ∧
    (∀ g e m src, SSA_stept.assertion g e m src ∉
      (s.loop_bound_exceeded ext c).target.drop s.target.length) ∧
    (s.loop_bound_exceeded ext c).cur_state.guard = s.cur_state.guard.add (negated_cond c) := by
  have h : s.loop_bound_exceeded ext c =
      (s.unwinding_assumption (negated_cond c)).guard_add (negated_cond c) := by
    unfold goto_symext.loop_bound_exceeded
    simp [hb]
  rw [h]
  refine ⟨rfl, ?_, rfl⟩
  intro g e m src
  simp [goto_symext.guard_add, goto_symext.unwinding_assumption]

/-- C7, applied to the sample engine at the back-edge with base-case,
forward-condition and partial-loops all enabled. -/
theorem loop_bound_exceeded_base_case_witness :
    (goto_symext.loop_bound_exceeded sample_ext
        (sample_symex ⟨false, true, true, true⟩ (sample_state 2 [sample_sym "a" 1] []))
        (sample_sym "c" 1)).target =
      [.assumption (sample_sym "a" 1)
        (.implies2t (sample_sym "a" 1) (.not2t (sample_sym "c" 1))) ⟨2⟩] ∧
    (goto_symext.loop_bound_exceeded sample_ext
        (sample_symex ⟨false, true, true, true⟩ (sample_state 2 [sample_sym "a" 1] []))
        (sample_sym "c" 1)).cur_state.guard =
      ⟨[sample_sym "a" 1, .not2t (sample_sym "c" 1)]⟩ :=
  have h := loop_bound_exceeded_base_case sample_ext
    (sample_symex ⟨false, true, true, true⟩ (sample_state 2 [sample_sym "a" 1] []))
    (sample_sym "c" 1) rfl
  ⟨h.1, h.2.2⟩

/-- C8: with forward-condition enabled and base-case disabled,
`loop_bound_exceeded` appends exactly one record, the claim of the negated
condition with the message "unwinding assertion loop" followed by the loop
id, and no assumption; it then adds the negated condition to the state
guard. -/
theorem loop_bound_exceeded_forward_condition (ext : collaborators) (s : goto_symext)
    (c : expr2tc) (hb : s.options.base_case = false)
    (hf : s.options.forward_condition = true) :
    (s.loop_bound_exceeded ext c).target = s.target ++
      [.assertion s.cur_state.guard.as_expr2tc
        (ext.do_simplify (ext.rename s.cur_state (negated_cond c)))
        ("unwinding assertion loop " ++ (ext.instruction s.cur_state.source.pc).loopid)
        s.cur_state.source] ∧
    (∀ g e src, SSA_stept.assumption g e src ∉
      (s.loop_bound_exceeded ext c).target.drop s.target.length) ∧
    (s.loop_bound_exceeded ext c).cur_state.guard = s.cur_state.guard.add (negated_cond c) := by
  have h : s.loop_bound_exceeded ext c =
      (s.claim ext (negated_cond c) ("unwinding assertion loop " ++
        (ext.instruction s.cur_state.source.pc).loopid)).guard_add (negated_cond c) := by
    unfold goto_symext.loop_bound_exceeded
    simp [hb, hf]
  rw [h]
  refine ⟨rfl, ?_, rfl⟩
  intro g e src
  simp [goto_symext.guard_add, goto_symext.claim]

/-- C8, applied to the sample engine at the back-edge of loop 7 with only
forward-condition enabled. -/
theorem loop_bound_exceeded_forward_condition_witness :
    (goto_symext.loop_bound_exceeded sample_ext
        (sample_symex ⟨false, false, false, true⟩ (sample_state 2 [sample_sym "a" 1] []))
        (sample_sym "c" 1)).target =
      [.assertion (sample_sym "a" 1) (.not2t (sample_sym "c" 1))
        "unwinding assertion loop 7" ⟨2⟩] ∧
    (goto_symext.loop_bound_exceeded sample_ext
        (sample_symex ⟨false, false, false, true⟩ (sample_state 2 [sample_sym "a" 1] []))
        (sample_sym "c" 1)).cur_state.guard =
      ⟨[sample_sym "a" 1, .not2t (sample_sym "c" 1)]⟩ :=
  have h := loop_bound_exceeded_forward_condition sample_ext
    (sample_symex ⟨false, false, false, true⟩ (sample_state 2 [sample_sym "a" 1] []))
    (sample_sym "c" 1) rfl rfl
  ⟨h.1, h.2.2⟩

/-- C5 as stated fails: in the default mode with partial-loops enabled,
`loop_bound_exceeded` appends no record at all. -/
theorem loop_bound_exceeded_default_partial_loops_appends_nothing :
    (goto_symext.loop_bound_exceeded sample_ext
        (sample_symex ⟨false, true, false, false⟩ (sample_state 2 [sample_sym "a" 1] []))
        (sample_sym "c" 1)).target = [] ∧
    ¬ ∃ r, (goto_symext.loop_bound_exceeded sample_ext
        (sample_symex ⟨false, true, false, false⟩ (sample_state 2 [sample_sym "a" 1] []))
        (sample_sym "c" 1)).target =
      (sample_symex ⟨false, true, false, false⟩
        (sample_state 2 [sample_sym "a" 1] [])).target ++ [r] := by
  constructor
  · rfl
  · rintro ⟨r, h⟩
    have h2 := congrArg List.length h
    simp [sample_symex, goto_symext.loop_bound_exceeded] at h2

/-- C5, amended: in the default mode (neither base-case nor forward-condition
enabled) with partial-loops disabled, `loop_bound_exceeded` appends exactly
one record, the unwinding claim if unwinding assertions are enabled and the
unwinding assumption under the path guard otherwise; with partial-loops
enabled it appends nothing. -/
theorem loop_bound_exceeded_default (ext : collaborators) (s : goto_symext) (c : expr2tc)
    (hb : s.options.base_case = false) (hf : s.options.forward_condition = false) :
    (s.options.partial_loops = false → s.options.no_unwinding_assertions = false →
      (s.loop_bound_exceeded ext c).target = s.target ++
        [.assertion s.cur_state.guard.as_expr2tc
          (ext.do_simplify (ext.rename s.cur_state (negated_cond c)))
          ("unwinding assertion loop " ++ (ext.instruction s.cur_state.source.pc).loopid)
          s.cur_state.source]) ∧
    (s.options.partial_loops = false → s.options.no_unwinding_assertions = true →
      (s.loop_bound_exceeded ext c).target = s.target ++
        [.assumption s.cur_state.guard.as_expr2tc
          (s.cur_state.guard.guard_expr (negated_cond c)) s.cur_state.source]) ∧
    (s.options.partial_loops = true → (s.loop_bound_exceeded ext c).target = s.target) := by
  refine ⟨?_, ?_, ?_⟩
  · intro hp hn
    unfold goto_symext.loop_bound_exceeded
    simp [hb, hf, hp, hn, goto_symext.guard_add, goto_symext.claim]
  · intro hp hn
    unfold goto_symext.loop_bound_exceeded
    simp [hb, hf, hp, hn, goto_symext.guard_add, goto_symext.unwinding_assumption]
  · intro hp
    unfold goto_symext.loop_bound_exceeded
    simp [hb, hf, hp]

/-- C5 amended, applied to the sample engine in the default mode with
unwinding assertions enabled and partial-loops disabled. -/
theorem loop_bound_exceeded_default_witness :
    (goto_symext.loop_bound_exceeded sample_ext
        (sample_symex ⟨false, false, false, false⟩ (sample_state 2 [sample_sym "a" 1] []))
        (sample_sym "c" 1)).target =
      [.assertion (sample_sym "a" 1) (.not2t (sample_sym "c" 1))
        "unwinding assertion loop 7" ⟨2⟩] :=
  (loop_bound_exceeded_default sample_ext
    (sample_symex ⟨false, false, false, false⟩ (sample_state 2 [sample_sym "a" 1] []))
    (sample_sym "c" 1) rfl rfl).1 rfl rfl

/-- C6 as stated fails: with partial-loops and base-case both enabled,
`loop_bound_exceeded` adds the negated condition to the state guard. -/
theorem loop_bound_exceeded_partial_loops_base_case_changes_guard :
    (goto_symext.loop_bound_exceeded sample_ext
        (sample_symex ⟨false, true, true, false⟩ (sample_state 2 [sample_sym "a" 1] []))
        (sample_sym "c" 1)).cur_state.guard =
      ⟨[sample_sym "a" 1, .not2t (sample_sym "c" 1)]⟩ ∧
    (goto_symext.loop_bound_exceeded sample_ext
        (sample_symex ⟨false, true, true, false⟩ (sample_state 2 [sample_sym "a" 1] []))
        (sample_sym "c" 1)).cur_state.guard ≠
      (sample_symex ⟨false, true, true, false⟩
        (sample_state 2 [sample_sym "a" 1] [])).cur_state.guard := by
  constructor
  · rfl
  · decide

/-- C6, amended: with partial-loops enabled and neither base-case nor
forward-condition enabled, `loop_bound_exceeded` changes nothing, so the
state guard is unchanged; when base-case or forward-condition is enabled the
negated condition is added to the state guard even though partial-loops is
enabled. -/
theorem loop_bound_exceeded_partial_loops (ext : collaborators) (s : goto_symext)
    (c : expr2tc) (hp : s.options.partial_loops = true) :
    (s.options.base_case = false → s.options.forward_condition = false →
      s.loop_bound_exceeded ext c = s) ∧
    (s.options.base_case = true ∨ s.options.forward_condition = true →
      (s.loop_bound_exceeded ext c).cur_state.guard =
        s.cur_state.guard.add (negated_cond c)) := by
  constructor
  · intro hb hf
    unfold goto_symext.loop_bound_exceeded
    simp [hb, hf, hp]
  · intro h
    unfold goto_symext.loop_bound_exceeded
    cases hb : s.options.base_case
    · have hf : s.options.forward_condition = true := by
        rcases h with h | h
        · rw [hb] at h; cases h
        · exact h
      simp [hf, goto_symext.guard_add, goto_symext.claim]
    · simp [goto_symext.guard_add, goto_symext.unwinding_assumption]

/-- C6 amended, applied to the sample engine with only partial-loops
enabled: the guard stays as it is. -/
theorem loop_bound_exceeded_partial_loops_witness :
    (goto_symext.loop_bound_exceeded sample_ext
        (sample_symex ⟨false, true, false, false⟩ (sample_state 2 [sample_sym "a" 1] []))
        (sample_sym "c" 1)).cur_state.guard = ⟨[sample_sym "a" 1]⟩ :=
  congrArg (fun e => e.cur_state.guard)
    ((loop_bound_exceeded_partial_loops sample_ext
      (sample_symex ⟨false, true, false, false⟩ (sample_state 2 [sample_sym "a" 1] []))
      (sample_sym "c" 1) rfl).1 rfl rfl)

/-- C9 as stated fails: with no-unwinding-assertions and forward-condition
both enabled (base-case disabled), `loop_bound_exceeded` appends the
unwinding claim. -/
theorem loop_bound_exceeded_no_unwinding_assertions_forward_condition_claims :
    (goto_symext.loop_bound_exceeded sample_ext
        (sample_symex ⟨true, false, false, true⟩ (sample_state 2 [sample_sym "a" 1] []))
        (sample_sym "c" 1)).target =
      [.assertion (sample_sym "a" 1) (.not2t (sample_sym "c" 1))
        "unwinding assertion loop 7" ⟨2⟩] := by
  rfl

/-- C9, amended: with no-unwinding-assertions enabled, `loop_bound_exceeded`
appends no claim record when base-case is enabled or forward-condition is
disabled; when forward-condition is enabled and base-case is not, it appends
the unwinding claim all the same. -/
theorem loop_bound_exceeded_no_unwinding_assertions (ext : collaborators) (s : goto_symext)
    (c : expr2tc) (hn : s.options.no_unwinding_assertions = true) :
    (s.options.base_case = true ∨ s.options.forward_condition = false →
      ∀ g e m src, SSA_stept.assertion g e m src ∉
        (s.loop_bound_exceeded ext c).target.drop s.target.length) ∧
    (s.options.base_case = false → s.options.forward_condition = true →
      (s.loop_bound_exceeded ext c).target = s.target ++
        [.assertion s.cur_state.guard.as_expr2tc
          (ext.do_simplify (ext.rename s.cur_state (negated_cond c)))
          ("unwinding assertion loop " ++ (ext.instruction s.cur_state.source.pc).loopid)
          s.cur_state.source]) := by
  constructor
  · intro h g e m src
    unfold goto_symext.loop_bound_exceeded
    cases hb : s.options.base_case
    · have hf : s.options.forward_condition = false := by
        rcases h with h | h
        · rw [hb] at h; cases h
        · exact h
      cases hp : s.options.partial_loops <;>
        simp [hf, hn, goto_symext.guard_add, goto_symext.unwinding_assumption]
    · simp [goto_symext.guard_add, goto_symext.unwinding_assumption]
  · intro hb hf
    unfold goto_symext.loop_bound_exceeded
    simp [hb, hf, goto_symext.guard_add, goto_symext.claim]

/-- C9 amended, applied to the sample engine in the default mode with
no-unwinding-assertions enabled: the record appended is not the unwinding
claim. -/
theorem loop_bound_exceeded_no_unwinding_assertions_witness :
    SSA_stept.assertion (sample_sym "a" 1) (.not2t (sample_sym "c" 1))
        "unwinding assertion loop 7" ⟨2⟩ ∉
      (goto_symext.loop_bound_exceeded sample_ext
        (sample_symex ⟨true, false, false, false⟩ (sample_state 2 [sample_sym "a" 1] []))
        (sample_sym "c" 1)).target.drop
      (sample_symex ⟨true, false, false, false⟩
        (sample_state 2 [sample_sym "a" 1] [])).target.length :=
  (loop_bound_exceeded_no_unwinding_assertions sample_ext
    (sample_symex ⟨true, false, false, false⟩ (sample_state 2 [sample_sym "a" 1] []))
    (sample_sym "c" 1) rfl).1 (Or.inr rfl) _ _ _ _

/-! ### Phi functions -/

/-- C3 at a failing input: the current guard is `a` (not false), the pending
guard is false, and `x` has SSA number 5 in the current state and 2 in the
pending state. The right-hand side built by `phi_function` is the name of
`x` in the pending state, `x#2`, and not its name in the current state,
`x#5`. -/
theorem phi_function_pending_false_takes_pending_name :
    goto_symext.phi_rhs
        (sample_symex ⟨false, false, false, false⟩
          (sample_state 1 [sample_sym "a" 1] [(sample_l1 "x", 5)]))
        (sample_goto_state [false_expr] [(sample_l1 "x", 2)]) { name := "x" } =
      sample_sym "x" 2 ∧
    (goto_symext.phi_function sample_ext
        (sample_symex ⟨false, false, false, false⟩
          (sample_state 1 [sample_sym "a" 1] [(sample_l1 "x", 5)]))
        (sample_goto_state [false_expr] [(sample_l1 "x", 2)])).target =
      [.assignment true_expr (sample_sym "x" 6) (.symbol (symbol2t "x")) (sample_sym "x" 2)
        ⟨1⟩ true] ∧
    sample_sym "x" 2 ≠
      .symbol ((sample_state 1 [sample_sym "a" 1] [(sample_l1 "x", 5)]).current_name
        (sample_state 1 [sample_sym "a" 1] [(sample_l1 "x", 5)]).level2 (symbol2t "x")) := by
  refine ⟨by rfl, by rfl, by decide⟩

/-- The first branch of the right-hand side (symex_goto.cpp:231-233): when the
current guard is false, the name in the pending state is taken. -/
theorem phi_rhs_of_current_false (s : goto_symext) (goto_state : goto_statet)
    (symbol : symbolt) (hcur : s.cur_state.guard.is_false = true) :
    s.phi_rhs goto_state symbol =
      .symbol (s.cur_state.current_name goto_state.level2 (symbol2t symbol.name)) := by
  simp [goto_symext.phi_rhs, hcur]

/-- The second branch of the right-hand side (symex_goto.cpp:234-236): when
the pending guard is false and the current guard is not, the name in the
pending state is taken again, as in the first branch. -/
theorem phi_rhs_of_pending_false (s : goto_symext) (goto_state : goto_statet)
    (symbol : symbolt) (hcur : s.cur_state.guard.is_false = false)
    (hpending : goto_state.guard.is_false = true) :
    s.phi_rhs goto_state symbol =
      .symbol (s.cur_state.current_name goto_state.level2 (symbol2t symbol.name)) := by
  simp [goto_symext.phi_rhs, hcur, hpending]

/-- The guards that the fork of `symex_goto` leaves on its two sides, for a
condition that is not the constant true: with `x` the guard literal, the
current state gets `¬x` (simplified) and the snapshot gets `x` on a forward
goto, and the other way round on a backward goto. -/
theorem adjust_guards_not_true (ext : collaborators) (s : goto_symext)
    (new_state : goto_statet) (c : expr2tc) (forward : Bool) (hnt : is_true c = false) :
    ∃ x : expr2tc,
      ((x = c ∧ (s.adjust_guards ext new_state c forward).1.target = s.target) ∨
        (∃ γ : symbol_data, x = .not2t (.symbol γ) ∧ γ.thename = ext.guard_identifier ∧
          (s.adjust_guards ext new_state c forward).1.target = s.target ++
            [.assignment true_expr (.symbol γ) (.symbol γ) (ext.do_simplify (.not2t c))
              s.cur_state.source true])) ∧
      (s.adjust_guards ext new_state c forward).1.cur_state.guard =
        s.cur_state.guard.add (if forward then ext.do_simplify (.not2t x) else x) ∧
      (s.adjust_guards ext new_state c forward).2.guard =
        new_state.guard.add (if forward then x else ext.do_simplify (.not2t x)) ∧
      (s.adjust_guards ext new_state c forward).1.cur_state.source = s.cur_state.source ∧
      (s.adjust_guards ext new_state c forward).1.cur_state.top = s.cur_state.top := by
  by_cases hsym : (is_symbol2t c || is_not_of_symbol c) = true
  · refine ⟨c, Or.inl ⟨rfl, ?_⟩, ?_, ?_, ?_, ?_⟩ <;>
      cases forward <;>
      simp [goto_symext.adjust_guards, hnt, hsym, goto_symext.guard_add]
  · refine ⟨.not2t (.symbol (s.cur_state.assignment ext (symbol2t ext.guard_identifier)
        (ext.do_simplify (.not2t c))).2), Or.inr ⟨_, rfl, ?_, ?_⟩, ?_, ?_, ?_, ?_⟩ <;>
      cases forward <;>
      simp [goto_symext.adjust_guards, hnt, hsym, goto_symext.guard_add,
        goto_symex_statet.assignment, level1t.rename, symbol2t, guardt.as_expr2tc,
        guardt.as_expr, migrate_expr, true_expr]

/-- The fork of `symex_goto` for a condition that is not the constant true:
with `x` the guard literal, the side that continues at the goto target has
the guard `G ∧ x` and the side that continues at pc+1 has `G ∧ ¬x`. -/
theorem fork_not_true (ext : collaborators) (s : goto_symext) (c : expr2tc)
    (goto_target : Nat) (forward : Bool) (hnt : is_true c = false) :
    ∃ x : expr2tc,
      ((x = c ∧ (s.fork ext c goto_target forward).target = s.target) ∨
        (∃ γ : symbol_data, x = .not2t (.symbol γ) ∧ γ.thename = ext.guard_identifier ∧
          (s.fork ext c goto_target forward).target = s.target ++
            [.assignment true_expr (.symbol γ) (.symbol γ) (ext.do_simplify (.not2t c))
              (s.fork ext c goto_target forward).cur_state.source true])) ∧
      (forward = true →
        (s.fork ext c goto_target forward).cur_state.source.pc = s.cur_state.source.pc + 1 ∧
        (s.fork ext c goto_target forward).cur_state.guard =
          s.cur_state.guard.add (ext.do_simplify (.not2t x)) ∧
        (s.fork ext c goto_target forward).last_pending_guard goto_target =
          some (s.cur_state.guard.add x)) ∧
      (forward = false →
        (s.fork ext c goto_target forward).cur_state.source.pc = goto_target ∧
        (s.fork ext c goto_target forward).cur_state.guard = s.cur_state.guard.add x ∧
        (s.fork ext c goto_target forward).last_pending_guard (s.cur_state.source.pc + 1) =
          some (s.cur_state.guard.add (ext.do_simplify (.not2t x)))) := by
  cases forward
  · obtain ⟨x, hx, hg1, hg2, hsrc, _⟩ := adjust_guards_not_true ext (s.set_pc goto_target)
      (goto_statet.of_state (s.set_pc goto_target).cur_state) c false hnt
    have hfork : s.fork ext c goto_target false =
        ((s.set_pc goto_target).adjust_guards ext
          (goto_statet.of_state (s.set_pc goto_target).cur_state) c false).1.push_goto_state
          (s.cur_state.source.pc + 1)
          ((s.set_pc goto_target).adjust_guards ext
            (goto_statet.of_state (s.set_pc goto_target).cur_state) c false).2 := by
      simp [goto_symext.fork]
    rw [hfork]
    generalize (s.set_pc goto_target).adjust_guards ext
      (goto_statet.of_state (s.set_pc goto_target).cur_state) c false = r at hx hg1 hg2 hsrc
    refine ⟨x, ?_, by simp, ?_⟩
    · rcases hx with ⟨h1, h2⟩ | ⟨γ, h1, h2, h3⟩
      · exact Or.inl ⟨h1, h2⟩
      · refine Or.inr ⟨γ, h1, h2, ?_⟩
        simp only [goto_symext.push_goto_state]
        rw [h3, hsrc]
        rfl
    · intro _
      refine ⟨?_, ?_, ?_⟩
      · simp only [goto_symext.push_goto_state]
        rw [hsrc]; rfl
      · simp only [goto_symext.push_goto_state]
        rw [hg1]; rfl
      · simp only [goto_symext.push_goto_state, goto_symext.last_pending_guard,
          map_find_map_set_self]
        simp at hg2
        simp [hg2, goto_statet.of_state, goto_symext.set_pc]
  · obtain ⟨x, hx, hg1, hg2, hsrc, _⟩ := adjust_guards_not_true ext
      (s.set_pc (s.cur_state.source.pc + 1))
      (goto_statet.of_state (s.set_pc (s.cur_state.source.pc + 1)).cur_state) c true hnt
    have hfork : s.fork ext c goto_target true =
        ((s.set_pc (s.cur_state.source.pc + 1)).adjust_guards ext
          (goto_statet.of_state (s.set_pc (s.cur_state.source.pc + 1)).cur_state)
          c true).1.push_goto_state goto_target
          ((s.set_pc (s.cur_state.source.pc + 1)).adjust_guards ext
            (goto_statet.of_state (s.set_pc (s.cur_state.source.pc + 1)).cur_state)
            c true).2 := by
      simp [goto_symext.fork]
    rw [hfork]
    generalize (s.set_pc (s.cur_state.source.pc + 1)).adjust_guards ext
      (goto_statet.of_state (s.set_pc (s.cur_state.source.pc + 1)).cur_state) c true = r
      at hx hg1 hg2 hsrc
    refine ⟨x, ?_, ?_, by simp⟩
    · rcases hx with ⟨h1, h2⟩ | ⟨γ, h1, h2, h3⟩
      · exact Or.inl ⟨h1, h2⟩
      · refine Or.inr ⟨γ, h1, h2, ?_⟩
        simp only [goto_symext.push_goto_state]
        rw [h3, hsrc]
        rfl
    · intro _
      refine ⟨?_, ?_, ?_⟩
      · simp only [goto_symext.push_goto_state]
        rw [hsrc]; rfl
      · simp only [goto_symext.push_goto_state]
        rw [hg1]; rfl
      · simp only [goto_symext.push_goto_state, goto_symext.last_pending_guard,
          map_find_map_set_self]
        simp at hg2
        simp [hg2, goto_statet.of_state, goto_symext.set_pc]

/-- C2: when `symex_goto` forks on a condition `c` (renamed and simplified)
that is neither the constant true nor the constant false, from a state whose
guard `G` is not false, at an instruction with one target and, for a backward
goto, below the unwind bound, it returns a state, and with `x` the guard
literal (`c` itself, or `¬γ` for the helper `γ` whose assignment
`γ := simplify(¬c)` is the one record appended) the side that continues at
the goto target has the guard `G ∧ x` and the side that continues at pc+1 has
`G ∧ simplify(¬x)`. Under a truth assignment that a meaning-preserving
simplifier respects and that satisfies the appended record, the target side
is `G ∧ c`, the other side is `G ∧ ¬c`, the two are mutually exclusive and
their disjunction is `G`. -/
theorem symex_goto_fork_guards (ext : collaborators) (s : goto_symext) (old_guard : expr2tc)
    (goto_target : Nat)
    (hnt : is_true (ext.do_simplify (ext.rename s.cur_state old_guard)) = false)
    (hnf : is_false (ext.do_simplify (ext.rename s.cur_state old_guard)) = false)
    (hG : s.cur_state.guard.is_false = false)
    (htargets : (ext.instruction s.cur_state.source.pc).targets = [goto_target])
    (hbound : ¬ (ext.instruction s.cur_state.source.pc).location_number <
        (ext.instruction goto_target).location_number →
      (s.set_unwind ((map_at s.cur_state.unwind_map s.cur_state.source + 1)
        % 4294967296)).get_unwind ext s.cur_state.source
        ((map_at s.cur_state.unwind_map s.cur_state.source + 1) % 4294967296) = false) :
    ∃ (s' : goto_symext) (x : expr2tc) (target_guard fall_guard : guardt),
      s.symex_goto ext old_guard = .ok s' ∧
      ((x = ext.do_simplify (ext.rename s.cur_state old_guard) ∧ s'.target = s.target) ∨
        (∃ γ : symbol_data, x = .not2t (.symbol γ) ∧ γ.thename = ext.guard_identifier ∧
          s'.target = s.target ++
            [.assignment true_expr (.symbol γ) (.symbol γ)
              (ext.do_simplify (.not2t (ext.do_simplify (ext.rename s.cur_state old_guard))))
              s'.cur_state.source true])) ∧
      target_guard = s.cur_state.guard.add x ∧
      fall_guard = s.cur_state.guard.add (ext.do_simplify (.not2t x)) ∧
      ((ext.instruction s.cur_state.source.pc).location_number <
          (ext.instruction goto_target).location_number →
        s'.cur_state.source.pc = s.cur_state.source.pc + 1 ∧
        s'.cur_state.guard = fall_guard ∧
        s'.last_pending_guard goto_target = some target_guard) ∧
      (¬ (ext.instruction s.cur_state.source.pc).location_number <
          (ext.instruction goto_target).location_number →
        s'.cur_state.source.pc = goto_target ∧
        s'.cur_state.guard = target_guard ∧
        s'.last_pending_guard (s.cur_state.source.pc + 1) = some fall_guard) ∧
      ∀ v : valuation, (∀ e, (ext.do_simplify e).eval v = e.eval v) →
        (∀ r ∈ s'.target.drop s.target.length, r.holds v = true) →
        target_guard.eval v = (s.cur_state.guard.eval v &&
          (ext.do_simplify (ext.rename s.cur_state old_guard)).eval v) ∧
        fall_guard.eval v = (s.cur_state.guard.eval v &&
          !(ext.do_simplify (ext.rename s.cur_state old_guard)).eval v) ∧
        (target_guard.eval v && fall_guard.eval v) = false ∧
        (target_guard.eval v || fall_guard.eval v) = s.cur_state.guard.eval v := by
  -- the semantic part, from the shape of the literal and of the sink
  have sem : ∀ (s' : goto_symext) (x : expr2tc),
      ((x = ext.do_simplify (ext.rename s.cur_state old_guard) ∧ s'.target = s.target) ∨
        (∃ γ : symbol_data, x = .not2t (.symbol γ) ∧ γ.thename = ext.guard_identifier ∧
          s'.target = s.target ++
            [.assignment true_expr (.symbol γ) (.symbol γ)
              (ext.do_simplify (.not2t (ext.do_simplify (ext.rename s.cur_state old_guard))))
              s'.cur_state.source true])) →
      ∀ v : valuation, (∀ e, (ext.do_simplify e).eval v = e.eval v) →
        (∀ r ∈ s'.target.drop s.target.length, r.holds v = true) →
        (s.cur_state.guard.add x).eval v = (s.cur_state.guard.eval v &&
          (ext.do_simplify (ext.rename s.cur_state old_guard)).eval v) ∧
        (s.cur_state.guard.add (ext.do_simplify (.not2t x))).eval v =
          (s.cur_state.guard.eval v &&
            !(ext.do_simplify (ext.rename s.cur_state old_guard)).eval v) ∧
        ((s.cur_state.guard.add x).eval v &&
          (s.cur_state.guard.add (ext.do_simplify (.not2t x))).eval v) = false ∧
        ((s.cur_state.guard.add x).eval v ||
          (s.cur_state.guard.add (ext.do_simplify (.not2t x))).eval v) =
            s.cur_state.guard.eval v := by
    intro s' x hx v hsimp hdef
    have hxc : x.eval v = (ext.do_simplify (ext.rename s.cur_state old_guard)).eval v := by
      rcases hx with ⟨h1, _⟩ | ⟨γ, h1, _, h3⟩
      · rw [h1]
      · have := hdef (.assignment true_expr (.symbol γ) (.symbol γ)
          (ext.do_simplify (.not2t (ext.do_simplify (ext.rename s.cur_state old_guard))))
          s'.cur_state.source true) (by rw [h3]; simp)
        simp [SSA_stept.holds, true_expr, expr2tc.eval, hsimp] at this
        simp [h1, expr2tc.eval, this, hsimp]
    simp only [guardt.eval_add, hsimp, expr2tc.eval, hxc]
    cases s.cur_state.guard.eval v <;>
      cases (ext.rename s.cur_state old_guard).eval v <;> simp
  by_cases hfw : (ext.instruction s.cur_state.source.pc).location_number <
      (ext.instruction goto_target).location_number
  · obtain ⟨x, hx, hf, _⟩ := fork_not_true ext s
      (ext.do_simplify (ext.rename s.cur_state old_guard)) goto_target true hnt
    have hrun : s.symex_goto ext old_guard =
        .ok (s.fork ext (ext.do_simplify (ext.rename s.cur_state old_guard))
          goto_target true) := by
      simp [goto_symext.symex_goto, hnf, hG, htargets, hfw]
    refine ⟨_, x, _, _, hrun, hx, rfl, rfl, fun _ => hf rfl, fun h => absurd hfw h,
      sem _ x hx⟩
  · have hb := hbound hfw
    obtain ⟨x, hx, _, hf⟩ := fork_not_true ext
      (s.set_unwind ((map_at s.cur_state.unwind_map s.cur_state.source + 1) % 4294967296))
      (ext.do_simplify (ext.rename s.cur_state old_guard)) goto_target false hnt
    have hrun : s.symex_goto ext old_guard =
        .ok ((s.set_unwind ((map_at s.cur_state.unwind_map s.cur_state.source + 1)
          % 4294967296)).fork ext (ext.do_simplify (ext.rename s.cur_state old_guard))
          goto_target false) := by
      have hb2 : (s.set_unwind ((map_at s.cur_state.unwind_map s.cur_state.source + 1)
          % 4294967296)).get_unwind ext (s.set_unwind
            ((map_at s.cur_state.unwind_map s.cur_state.source + 1)
              % 4294967296)).cur_state.source
          ((map_at s.cur_state.unwind_map s.cur_state.source + 1) % 4294967296) = false := hb
      simp [goto_symext.symex_goto, hnf, hG, htargets, hfw, hb2, hnt]
    refine ⟨_, x, _, _, hrun, hx, rfl, rfl, fun h => absurd h hfw, fun _ => hf rfl,
      sem _ x hx⟩

/-- C2, applied to the sample engine at the forward goto of instruction 0
with guard `a` and the condition `c ∨ d`: the run returns a state at pc 1,
the snapshot queued under the target 2 carries the target-side guard, and
under every truth assignment that satisfies the appended record the target
side is `a ∧ (c ∨ d)` and the other side is `a ∧ ¬(c ∨ d)`. -/
theorem symex_goto_fork_guards_witness :
    ∃ (s' : goto_symext) (target_guard fall_guard : guardt),
      goto_symext.symex_goto sample_ext
        (sample_symex ⟨false, false, false, false⟩ (sample_state 0 [sample_sym "a" 1] []))
        (.or2t (sample_sym "c" 1) (sample_sym "d" 1)) = .ok s' ∧
      s'.cur_state.source.pc = 1 ∧
      s'.cur_state.guard = fall_guard ∧
      s'.last_pending_guard 2 = some target_guard ∧
      ∀ v : valuation, (∀ r ∈ s'.target.drop 0, r.holds v = true) →
        target_guard.eval v = (guardt.eval v ⟨[sample_sym "a" 1]⟩ &&
          (expr2tc.or2t (sample_sym "c" 1) (sample_sym "d" 1)).eval v) ∧
        fall_guard.eval v = (guardt.eval v ⟨[sample_sym "a" 1]⟩ &&
          !(expr2tc.or2t (sample_sym "c" 1) (sample_sym "d" 1)).eval v) := by
  obtain ⟨s', x, tg, fg, hrun, _, _, _, hfwd, _, hsem⟩ :=
    symex_goto_fork_guards sample_ext
      (sample_symex ⟨false, false, false, false⟩ (sample_state 0 [sample_sym "a" 1] []))
      (.or2t (sample_sym "c" 1) (sample_sym "d" 1)) 2 rfl rfl rfl rfl
      (fun h => absurd (by decide) h)
  exact ⟨s', tg, fg, hrun, (hfwd (by decide)).1, (hfwd (by decide)).2.1,
    (hfwd (by decide)).2.2,
    fun v hdef => ⟨(hsem v (fun _ => rfl) hdef).1, (hsem v (fun _ => rfl) hdef).2.1⟩⟩

/-! ### Guards: add, is_false, as_expr, difference and the laws of the join -/

/-- What `add` appends is the sequence of conjuncts of the added term. -/
theorem add_list_eq_append (e : expr2tc) :
    ∀ l : List expr2tc, guardt.add_list l e = l ++ spec_conjuncts e := by
  induction e with
  | constant_bool b => intro l; cases b <;> simp [guardt.add_list, spec_conjuncts]
  | and2t a b iha ihb => intro l; simp [guardt.add_list, spec_conjuncts, iha, ihb]
  | symbol s => intro l; simp [guardt.add_list, spec_conjuncts]
  | not2t a _ => intro l; simp [guardt.add_list, spec_conjuncts]
  | or2t a b _ _ => intro l; simp [guardt.add_list, spec_conjuncts]
  | implies2t a b _ _ => intro l; simp [guardt.add_list, spec_conjuncts]
  | if2t c a b _ _ _ => intro l; simp [guardt.add_list, spec_conjuncts]
  | other n => intro l; simp [guardt.add_list, spec_conjuncts]

mutual
/-- What `add` appends for an old term is the sequence of its conjuncts,
migrated. -/
theorem add_exprt_list_eq_append :
    ∀ (e : exprt) (l : List expr2tc),
      guardt.add_exprt_list l e = l ++ (spec_conjuncts_exprt e).map migrate_expr
  | .and ops, l => by
    rw [guardt.add_exprt_list, spec_conjuncts_exprt, add_operands_eq_append ops l]
  | .constant_bool true, l => by simp [guardt.add_exprt_list, spec_conjuncts_exprt]
  | .constant_bool false, l => by simp [guardt.add_exprt_list, spec_conjuncts_exprt]
  | .symbol _, l => by simp [guardt.add_exprt_list, spec_conjuncts_exprt]
  | .not _, l => by simp [guardt.add_exprt_list, spec_conjuncts_exprt]
  | .or _, l => by simp [guardt.add_exprt_list, spec_conjuncts_exprt]
  | .implies _ _, l => by simp [guardt.add_exprt_list, spec_conjuncts_exprt]
  | .ifx _ _ _, l => by simp [guardt.add_exprt_list, spec_conjuncts_exprt]
  | .other _, l => by simp [guardt.add_exprt_list, spec_conjuncts_exprt]
/-- What the loop over the operands appends is the sequence of the conjuncts
of all operands, migrated. -/
theorem add_operands_eq_append :
    ∀ (es : List exprt) (l : List expr2tc),
      guardt.add_operands l es = l ++ (spec_conjuncts_operands es).map migrate_expr
  | [], l => by simp [guardt.add_operands, spec_conjuncts_operands]
  | e :: es, l => by
    rw [guardt.add_operands, add_exprt_list_eq_append e l,
      add_operands_eq_append es _, spec_conjuncts_operands]
    simp
end

/-- C15: for every guard `g`, `add(e)` keeps the conjuncts of `g` as they are
and in order and appends exactly the sequence obtained from `e` by splitting
conjunctions recursively (first operand before second) and dropping the
leaves that are the constant true, for the `expr2tc` overload and, with each
leaf migrated, for the `exprt` overload. So `add(true)` leaves `g` unchanged,
and adding a term that is neither a conjunction nor the constant true
appends that term alone. -/
theorem add_appends_conjuncts (g : guardt) :
    (∀ e : expr2tc, (g.add e).guard_list = g.guard_list ++ spec_conjuncts e) ∧
    (∀ e : exprt, (g.add_exprt e).guard_list =
      g.guard_list ++ (spec_conjuncts_exprt e).map migrate_expr) ∧
    g.add true_expr = g ∧
    g.add_exprt (.constant_bool true) = g ∧
    (∀ e : expr2tc, (∀ a b, e ≠ .and2t a b) → e ≠ true_expr →
      (g.add e).guard_list = g.guard_list ++ [e]) ∧
    (∀ e : exprt, (∀ ops, e ≠ .and ops) → e ≠ .constant_bool true →
      (g.add_exprt e).guard_list = g.guard_list ++ [migrate_expr e]) := by
  refine ⟨fun e => add_list_eq_append e _, fun e => add_exprt_list_eq_append e _, ?_, ?_,
    ?_, ?_⟩
  · simp [guardt.add, guardt.add_list, true_expr]
  · simp [guardt.add_exprt, guardt.add_exprt_list]
  · intro e hand htrue
    rw [guardt.add, add_list_eq_append]
    cases e with
    | and2t a b => exact absurd rfl (hand a b)
    | constant_bool b =>
      cases b
      · simp [spec_conjuncts]
      · exact absurd rfl htrue
    | symbol s => simp [spec_conjuncts]
    | not2t a => simp [spec_conjuncts]
    | or2t a b => simp [spec_conjuncts]
    | implies2t a b => simp [spec_conjuncts]
    | if2t c a b => simp [spec_conjuncts]
    | other n => simp [spec_conjuncts]
  · intro e hand htrue
    rw [guardt.add_exprt, add_exprt_list_eq_append]
    cases e with
    | and ops => exact absurd rfl (hand ops)
    | constant_bool b =>
      cases b
      · simp [spec_conjuncts_exprt]
      · exact absurd rfl htrue
    | symbol s => simp [spec_conjuncts_exprt]
    | not a => simp [spec_conjuncts_exprt]
    | or ops => simp [spec_conjuncts_exprt]
    | implies a b => simp [spec_conjuncts_exprt]
    | ifx c a b => simp [spec_conjuncts_exprt]
    | other n => simp [spec_conjuncts_exprt]

/-- The test `is_false` on a term holds for the constant false alone. -/
theorem is_false_iff_eq_false_expr (e : expr2tc) : is_false e = true ↔ e = false_expr := by
  cases e <;> simp [is_false, false_expr]

/-- The loop of `guardt::is_false` finds a conjunct exactly when the constant
false is in the list. -/
theorem forall_guard_is_false_iff_mem (l : List expr2tc) :
    forall_guard_is_false l = true ↔ false_expr ∈ l := by
  induction l with
  | nil => simp [forall_guard_is_false]
  | cons e l ih =>
    by_cases he : is_false e = true
    · have := (is_false_iff_eq_false_expr e).mp he
      simp [forall_guard_is_false, he, this.symm]
    · have hne : ¬ e = false_expr := fun h => he ((is_false_iff_eq_false_expr e).mpr h)
      have hne2 : ¬ false_expr = e := fun h => hne h.symm
      simp [forall_guard_is_false, he, ih, hne2]

/-- The conjunct list after a sequence of `add` calls: the list before,
followed by the conjuncts of the added terms in the order of the calls. -/
theorem foldl_add_guard_list (es : List expr2tc) :
    ∀ g : guardt, (es.foldl guardt.add g).guard_list =
      g.guard_list ++ (es.map spec_conjuncts).flatten := by
  induction es with
  | nil => intro g; simp
  | cons e es ih =>
    intro g
    rw [List.foldl_cons, ih]
    simp [guardt.add, add_list_eq_append]

/-- C14: starting from the empty guard, after any sequence of `add` calls
`is_false()` is true exactly when the constant false occurs among the added
terms once every added conjunction has been split recursively into its
conjuncts, that is, exactly when some stored conjunct is the constant
false. -/
theorem is_false_after_adds (es : List expr2tc) :
    ((es.foldl guardt.add { guard_list := [] }).is_false = true ↔
      ∃ e ∈ es, false_expr ∈ spec_conjuncts e) ∧
    ((es.foldl guardt.add { guard_list := [] }).is_false = true ↔
      false_expr ∈ (es.foldl guardt.add { guard_list := [] }).guard_list) := by
  constructor
  · rw [guardt.is_false, forall_guard_is_false_iff_mem, foldl_add_guard_list]
    simp only [List.nil_append, List.mem_flatten, List.mem_map]
    constructor
    · rintro ⟨l, ⟨e, he, rfl⟩, hl⟩
      exact ⟨e, he, hl⟩
    · rintro ⟨e, he, hl⟩
      exact ⟨_, ⟨e, he, rfl⟩, hl⟩
  · rw [guardt.is_false, forall_guard_is_false_iff_mem]

/-- C16: `as_expr()` of the empty guard is the constant true, of a guard with
one conjunct it is that conjunct itself, and of a guard with two or more
conjuncts it is a single `and` node whose operands are the conjuncts in list
order; so under every truth assignment it evaluates to the conjunction of
all conjuncts. -/
theorem as_expr_shape :
    guardt.as_expr { guard_list := [] } 0 = .constant_bool true ∧
    (∀ e : expr2tc, guardt.as_expr { guard_list := [e] } 0 = migrate_expr_back e) ∧
    (∀ (e1 e2 : expr2tc) (es : List expr2tc),
      guardt.as_expr { guard_list := e1 :: e2 :: es } 0 =
        .and ((e1 :: e2 :: es).map migrate_expr_back)) ∧
    (∀ (g : guardt) (v : valuation), exprt.eval v (g.as_expr 0) = g.eval v) := by
  refine ⟨rfl, fun _ => rfl, fun _ _ _ => rfl, ?_⟩
  intro g v
  rw [guardt.eval_as_expr]
  simp [guardt.eval]

/-- The loop of `operator-=` drops exactly as many conjuncts as the
common-prefix loop counts. -/
theorem sub_list_eq_drop (l1 l2 : List expr2tc) :
    guardt.sub_list l1 l2 = l1.drop (guardt.common_len l1 l2) := by
  induction l1 generalizing l2 with
  | nil => cases l2 <;> simp [guardt.sub_list, guardt.common_len]
  | cons a l1 ih =>
    cases l2 with
    | nil => simp [guardt.sub_list, guardt.common_len]
    | cons b l2 =>
      by_cases h : a = b
      · simp [guardt.sub_list, guardt.common_len, h, ih l2]
      · simp [guardt.sub_list, guardt.common_len, h]

/-- Where the common-prefix loop stops, the two lists do not go on with the
same conjunct. -/
theorem head_drop_common_len (l1 l2 : List expr2tc) (a b : expr2tc)
    (h1 : (l1.drop (guardt.common_len l1 l2)).head? = some a)
    (h2 : (l2.drop (guardt.common_len l1 l2)).head? = some b) : a ≠ b := by
  induction l1 generalizing l2 with
  | nil => simp at h1
  | cons x l1 ih =>
    cases l2 with
    | nil => simp at h2
    | cons y l2 =>
      by_cases h : x = y
      · simp only [guardt.common_len, h, if_true, List.drop_succ_cons] at h1 h2
        exact ih l2 h1 h2
      · simp only [guardt.common_len, h, if_false, List.drop_zero, List.head?_cons,
          Option.some.injEq] at h1 h2
        rw [← h1, ← h2]
        exact h

/-- C17: `g1 -= g2` removes from the front of `g1` exactly the longest common
prefix `p` of the two conjunct lists (and returns only the new `g1`, `g2`
being read alone): `g1` is `p` followed by the result, `g2` starts with `p`,
and the result and the rest of `g2` do not start with the same conjunct; `p`
and the result together are equivalent to the original `g1`, and `g -= g` is
the empty guard. -/
theorem operator_sub_assign_strips_common_part (g1 g2 : guardt) :
    (∃ p t2 : List expr2tc,
      g1.guard_list = p ++ (g1.operator_sub_assign g2).guard_list ∧
      g2.guard_list = p ++ t2 ∧
      (∀ a b, (g1.operator_sub_assign g2).guard_list.head? = some a → t2.head? = some b →
        a ≠ b) ∧
      ∀ v : valuation, g1.eval v =
        (p.all (fun e => e.eval v) && (g1.operator_sub_assign g2).eval v)) ∧
    g1.operator_sub_assign g1 = { guard_list := [] } := by
  constructor
  · refine ⟨g1.guard_list.take (guardt.common_len g1.guard_list g2.guard_list),
      g2.guard_list.drop (guardt.common_len g1.guard_list g2.guard_list), ?_, ?_, ?_, ?_⟩
    · simp [guardt.operator_sub_assign, sub_list_eq_drop]
    · rw [guardt.take_common_len, List.take_append_drop]
    · intro a b ha hb
      simp only [guardt.operator_sub_assign, sub_list_eq_drop] at ha
      exact head_drop_common_len _ _ a b ha hb
    · intro v
      simp only [guardt.operator_sub_assign, sub_list_eq_drop, guardt.eval]
      exact all_take_drop v _ _
  · have h := guardt.common_len_append g1.guard_list []
    simp only [List.append_nil] at h
    simp [guardt.operator_sub_assign, sub_list_eq_drop, h]

/-- C18: the join is idempotent: after `g1 |= g2` with `g1` and `g2` both
equal to `g`, the conjunct list of `g1` is that of `g`. -/
theorem operator_or_assign_self (g : guardt) : g.operator_or_assign g = g := by
  have h := guardt.common_len_append g.guard_list []
  simp only [List.append_nil] at h
  unfold guardt.operator_or_assign
  by_cases hf : g.is_false = true
  · simp [hf]
  · simp [hf, h]

/-- C19 as stated fails: `f` with the single conjunct false and `g` with the
conjuncts `a`, false are both false, and `f |= g` leaves `f` as it is, so its
conjunct list is not that of `g`. -/
theorem operator_or_assign_false_false_keeps_first :
    guardt.is_false { guard_list := [false_expr] } = true ∧
    guardt.operator_or_assign { guard_list := [false_expr] }
        { guard_list := [sample_sym "a" 1, false_expr] } =
      { guard_list := [false_expr] } ∧
    (guardt.operator_or_assign { guard_list := [false_expr] }
        { guard_list := [sample_sym "a" 1, false_expr] }).guard_list ≠
      [sample_sym "a" 1, false_expr] := by
  refine ⟨by rfl, by rfl, by decide⟩

/-- C19, amended: for every guard `g` and every guard `f` for which
`is_false()` holds, `g |= f` leaves `g` unchanged, and `f |= g` makes the
conjunct list of `f` equal to that of `g` when `g` is not false; when `g` is
false as well, `f |= g` leaves `f` unchanged. -/
theorem operator_or_assign_false (g f : guardt) (hf : f.is_false = true) :
    g.operator_or_assign f = g ∧
    (g.is_false = false → (f.operator_or_assign g).guard_list = g.guard_list) ∧
    (g.is_false = true → f.operator_or_assign g = f) := by
  refine ⟨?_, ?_, ?_⟩
  · simp [guardt.operator_or_assign, hf]
  · intro hg
    simp [guardt.operator_or_assign, hf, hg]
  · intro hg
    simp [guardt.operator_or_assign, hg]

/-- C19 amended, applied to the false guard `false` and the guard `a, b`. -/
theorem operator_or_assign_false_witness :
    guardt.operator_or_assign { guard_list := [sample_sym "a" 1, sample_sym "b" 1] }
        { guard_list := [false_expr] } =
      { guard_list := [sample_sym "a" 1, sample_sym "b" 1] } ∧
    (guardt.operator_or_assign { guard_list := [false_expr] }
        { guard_list := [sample_sym "a" 1, sample_sym "b" 1] }).guard_list =
      [sample_sym "a" 1, sample_sym "b" 1] :=
  have h := operator_or_assign_false { guard_list := [sample_sym "a" 1, sample_sym "b" 1] }
    { guard_list := [false_expr] } rfl
  ⟨h.1, h.2.1 rfl⟩

/-! ### The goto instruction: targets and the unwind counter -/

/-- C11 as stated fails: at a goto with two targets, from a state whose guard
is false, `symex_goto` raises no error; it skips the instruction, the state
it returns is at pc+1. -/
theorem symex_goto_two_targets_false_guard_is_skipped :
    (sample_ext_two_targets.instruction 0).targets.length = 2 ∧
    goto_symext.symex_goto sample_ext_two_targets
        (sample_symex ⟨false, false, false, false⟩ (sample_state 0 [false_expr] []))
        (sample_sym "c" 1) =
      .ok ((goto_symext.set_unwind
        (sample_symex ⟨false, false, false, false⟩ (sample_state 0 [false_expr] [])) 0).set_pc
        1) := by
  refine ⟨by rfl, by rfl⟩

/-- C11, amended: for every goto instruction with more than one target,
`symex_goto` fails with the error "no support for non-deterministic gotos"
from every state whose guard is not false when the renamed and simplified
condition is not the constant false; when the condition is the constant
false or the state guard is false, the instruction is skipped: the counter
of the source is reset and pc advances by one. -/
theorem symex_goto_multiple_targets (ext : collaborators) (s : goto_symext)
    (old_guard : expr2tc)
    (hmulti : 1 < (ext.instruction s.cur_state.source.pc).targets.length) :
    (is_false (ext.do_simplify (ext.rename s.cur_state old_guard)) = false →
      s.cur_state.guard.is_false = false →
      s.symex_goto ext old_guard = .error "no support for non-deterministic gotos") ∧
    (is_false (ext.do_simplify (ext.rename s.cur_state old_guard)) = true ∨
        s.cur_state.guard.is_false = true →
      s.symex_goto ext old_guard =
        .ok ((s.set_unwind 0).set_pc (s.cur_state.source.pc + 1))) := by
  constructor
  · intro hc hg
    have hne : (ext.instruction s.cur_state.source.pc).targets ≠ [] := by
      intro h; rw [h] at hmulti; simp at hmulti
    have hlen : ¬ (ext.instruction s.cur_state.source.pc).targets.length = 1 := by omega
    simp [goto_symext.symex_goto, hc, hg, hne, hlen]
  · intro h
    have : (is_false (ext.do_simplify (ext.rename s.cur_state old_guard)) ||
        s.cur_state.guard.is_false) = true := by
      rcases h with h | h <;> simp [h]
    simp [goto_symext.symex_goto, this]

/-- C11 amended, applied to the two-target goto from a state with guard `a`
and the condition `c`: the run fails with the error. -/
theorem symex_goto_multiple_targets_witness :
    goto_symext.symex_goto sample_ext_two_targets
        (sample_symex ⟨false, false, false, false⟩ (sample_state 0 [sample_sym "a" 1] []))
        (sample_sym "c" 1) =
      .error "no support for non-deterministic gotos" :=
  (symex_goto_multiple_targets sample_ext_two_targets
    (sample_symex ⟨false, false, false, false⟩ (sample_state 0 [sample_sym "a" 1] []))
    (sample_sym "c" 1) (by decide)).1 rfl rfl

/-- After `m[k] = v` the read `m[k]` gives `v`. -/
theorem map_at_map_set_self {κ : Type} [DecidableEq κ] (m : List (κ × Nat)) (k : κ) (v : Nat) :
    map_at (map_set m k v) k = v := by
  simp [map_at, map_find_map_set_self]

/-- The function `loop_bound_exceeded` leaves the unwind map and the source
of the current state as they are. -/
theorem loop_bound_exceeded_unwind_map (ext : collaborators) (s : goto_symext) (c : expr2tc) :
    (s.loop_bound_exceeded ext c).cur_state.unwind_map = s.cur_state.unwind_map ∧
    (s.loop_bound_exceeded ext c).cur_state.source = s.cur_state.source := by
  unfold goto_symext.loop_bound_exceeded
  cases s.options.base_case <;> cases s.options.forward_condition <;>
    cases s.options.partial_loops <;> cases s.options.no_unwinding_assertions <;>
    simp [goto_symext.guard_add, goto_symext.claim, goto_symext.unwinding_assumption]

/-- The guard adjustment of the fork leaves the unwind map as it is. -/
theorem adjust_guards_unwind_map (ext : collaborators) (s : goto_symext)
    (new_state : goto_statet) (c : expr2tc) (forward : Bool) :
    (s.adjust_guards ext new_state c forward).1.cur_state.unwind_map =
      s.cur_state.unwind_map := by
  unfold goto_symext.adjust_guards
  cases is_true c <;> cases (is_symbol2t c || is_not_of_symbol c) <;> cases forward <;>
    simp [goto_symext.guard_add, goto_symex_statet.assignment]

/-- The fork leaves the unwind map as it is. -/
theorem fork_unwind_map (ext : collaborators) (s : goto_symext) (c : expr2tc)
    (goto_target : Nat) (forward : Bool) :
    (s.fork ext c goto_target forward).cur_state.unwind_map = s.cur_state.unwind_map := by
  simp only [goto_symext.fork, goto_symext.push_goto_state]
  rw [adjust_guards_unwind_map]
  rfl

/-- C13 as stated fails: with no unwinding limit and the counter of the
back-edge at 4294967295, a backward goto below the bound, taken on the
condition `c` from the guard `a`, leaves the counter at 0: the increment of
the `unsigned` wraps, the counter is neither one more than before nor
unchanged, and it has decreased although no reset branch was taken (the
state went on to the goto target with the guard `a, c`). -/
theorem symex_goto_counter_wraps :
    map_at sample_symex_counter_max.cur_state.unwind_map ⟨2⟩ = 4294967295 ∧
    ∃ s' : goto_symext,
      goto_symext.symex_goto sample_ext sample_symex_counter_max (sample_sym "c" 1) = .ok s' ∧
      map_at s'.cur_state.unwind_map ⟨2⟩ = 0 ∧
      s'.cur_state.source.pc = 0 ∧
      s'.cur_state.guard = ⟨[sample_sym "a" 1, sample_sym "c" 1]⟩ := by
  refine ⟨by rfl, _, rfl, by rfl, by rfl, by rfl⟩

/-- C13, amended: `symex_goto` changes no `unwind_map` entry other than the
one of the current source, and that entry is reset to 0 (condition false,
guard false, or bound reached on a backward goto), left unchanged with the
whole map (forward goto with a non-false condition and guard), or
incremented by one modulo 2^32 (backward goto below the bound; the counter is
an `unsigned`); so the entry afterwards is 0, the old value, or the old value
plus one whenever the old value is below 2^32 - 1. -/
theorem symex_goto_unwind_map (ext : collaborators) (s s' : goto_symext)
    (old_guard : expr2tc) (hrun : s.symex_goto ext old_guard = .ok s') :
    (∀ k, k ≠ s.cur_state.source →
      map_find s'.cur_state.unwind_map k = map_find s.cur_state.unwind_map k) ∧
    (is_false (ext.do_simplify (ext.rename s.cur_state old_guard)) = true ∨
        s.cur_state.guard.is_false = true →
      map_at s'.cur_state.unwind_map s.cur_state.source = 0) ∧
    (is_false (ext.do_simplify (ext.rename s.cur_state old_guard)) = false →
      s.cur_state.guard.is_false = false →
      ((ext.instruction s.cur_state.source.pc).location_number <
          (ext.instruction ((ext.instruction s.cur_state.source.pc).targets.headD
            0)).location_number →
        s'.cur_state.unwind_map = s.cur_state.unwind_map) ∧
      (¬ (ext.instruction s.cur_state.source.pc).location_number <
          (ext.instruction ((ext.instruction s.cur_state.source.pc).targets.headD
            0)).location_number →
        ((s.set_unwind ((map_at s.cur_state.unwind_map s.cur_state.source + 1)
            % 4294967296)).get_unwind ext s.cur_state.source
            ((map_at s.cur_state.unwind_map s.cur_state.source + 1) % 4294967296) = true →
          map_at s'.cur_state.unwind_map s.cur_state.source = 0) ∧
        ((s.set_unwind ((map_at s.cur_state.unwind_map s.cur_state.source + 1)
            % 4294967296)).get_unwind ext s.cur_state.source
            ((map_at s.cur_state.unwind_map s.cur_state.source + 1) % 4294967296) = false →
          map_at s'.cur_state.unwind_map s.cur_state.source =
            (map_at s.cur_state.unwind_map s.cur_state.source + 1) % 4294967296))) ∧
    (map_at s.cur_state.unwind_map s.cur_state.source + 1 < 4294967296 →
      map_at s'.cur_state.unwind_map s.cur_state.source = 0 ∨
      map_at s'.cur_state.unwind_map s.cur_state.source =
        map_at s.cur_state.unwind_map s.cur_state.source ∨
      map_at s'.cur_state.unwind_map s.cur_state.source =
        map_at s.cur_state.unwind_map s.cur_state.source + 1) := by
  -- the state returned, branch by branch
  have key : (s' = (s.set_unwind 0).set_pc (s.cur_state.source.pc + 1) ∧
        ((is_false (ext.do_simplify (ext.rename s.cur_state old_guard)) ||
          s.cur_state.guard.is_false) = true)) ∨
      ((is_false (ext.do_simplify (ext.rename s.cur_state old_guard)) ||
          s.cur_state.guard.is_false) = false ∧
        (((ext.instruction s.cur_state.source.pc).location_number <
            (ext.instruction ((ext.instruction s.cur_state.source.pc).targets.headD
              0)).location_number ∧
          s'.cur_state.unwind_map = s.cur_state.unwind_map) ∨
        (¬ (ext.instruction s.cur_state.source.pc).location_number <
            (ext.instruction ((ext.instruction s.cur_state.source.pc).targets.headD
              0)).location_number ∧
          (((s.set_unwind ((map_at s.cur_state.unwind_map s.cur_state.source + 1)
              % 4294967296)).get_unwind ext s.cur_state.source
              ((map_at s.cur_state.unwind_map s.cur_state.source + 1) % 4294967296) = true ∧
            s'.cur_state.unwind_map = map_set (map_set s.cur_state.unwind_map
              s.cur_state.source ((map_at s.cur_state.unwind_map s.cur_state.source + 1)
                % 4294967296)) s.cur_state.source 0) ∨
          ((s.set_unwind ((map_at s.cur_state.unwind_map s.cur_state.source + 1)
              % 4294967296)).get_unwind ext s.cur_state.source
              ((map_at s.cur_state.unwind_map s.cur_state.source + 1) % 4294967296) = false ∧
            s'.cur_state.unwind_map = map_set s.cur_state.unwind_map
              s.cur_state.source ((map_at s.cur_state.unwind_map s.cur_state.source + 1)
                % 4294967296)))))) := by
    unfold goto_symext.symex_goto at hrun
    by_cases h0 : (is_false (ext.do_simplify (ext.rename s.cur_state old_guard)) ||
        s.cur_state.guard.is_false) = true
    · left
      simp only [h0, if_true] at hrun
      exact ⟨(Except.ok.inj hrun).symm, h0⟩
    · right
      have h0f : (is_false (ext.do_simplify (ext.rename s.cur_state old_guard)) ||
          s.cur_state.guard.is_false) = false := by simpa using h0
      refine ⟨h0f, ?_⟩
      simp only [h0f, Bool.false_eq_true, if_false] at hrun
      by_cases he : (ext.instruction s.cur_state.source.pc).targets.isEmpty = true
      · simp [he] at hrun
      simp only [he, if_false] at hrun
      by_cases hl : ((ext.instruction s.cur_state.source.pc).targets.length != 1) = true
      · simp [hl] at hrun
      simp only [hl, if_false] at hrun
      by_cases hfw : (ext.instruction s.cur_state.source.pc).location_number <
          (ext.instruction ((ext.instruction s.cur_state.source.pc).targets.headD
            0)).location_number
      · left
        simp only [hfw, decide_True, Bool.not_true, Bool.false_eq_true, if_false] at hrun
        refine ⟨hfw, ?_⟩
        rw [← Except.ok.inj hrun, fork_unwind_map]
      · right
        simp only [hfw, decide_False, Bool.not_false, if_true] at hrun
        refine ⟨hfw, ?_⟩
        by_cases hb : (s.set_unwind ((map_at s.cur_state.unwind_map s.cur_state.source + 1)
            % 4294967296)).get_unwind ext s.cur_state.source
            ((map_at s.cur_state.unwind_map s.cur_state.source + 1) % 4294967296) = true
        · left
          refine ⟨hb, ?_⟩
          have hb2 : (s.set_unwind ((map_at s.cur_state.unwind_map s.cur_state.source + 1)
              % 4294967296)).get_unwind ext (s.set_unwind
                ((map_at s.cur_state.unwind_map s.cur_state.source + 1)
                  % 4294967296)).cur_state.source
              ((map_at s.cur_state.unwind_map s.cur_state.source + 1) % 4294967296) = true :=
            hb
          simp only [hb2, if_true] at hrun
          rw [← Except.ok.inj hrun]
          simp only [goto_symext.set_pc, goto_symext.set_unwind]
          rw [(loop_bound_exceeded_unwind_map ext _ _).1,
            (loop_bound_exceeded_unwind_map ext _ _).2]
        · right
          have hbf : (s.set_unwind ((map_at s.cur_state.unwind_map s.cur_state.source + 1)
              % 4294967296)).get_unwind ext s.cur_state.source
              ((map_at s.cur_state.unwind_map s.cur_state.source + 1) % 4294967296) = false := by
            simpa using hb
          refine ⟨hbf, ?_⟩
          have hb2 : (s.set_unwind ((map_at s.cur_state.unwind_map s.cur_state.source + 1)
              % 4294967296)).get_unwind ext (s.set_unwind
                ((map_at s.cur_state.unwind_map s.cur_state.source + 1)
                  % 4294967296)).cur_state.source
              ((map_at s.cur_state.unwind_map s.cur_state.source + 1) % 4294967296) = false :=
            hbf
          simp only [hb2, Bool.false_eq_true, if_false] at hrun
          by_cases ht : is_true (ext.do_simplify (ext.rename s.cur_state old_guard)) = true
          · simp only [ht, if_true] at hrun
            rw [← Except.ok.inj hrun]
            rfl
          · simp only [ht, if_false] at hrun
            rw [← Except.ok.inj hrun, fork_unwind_map]
            rfl
  have hor : ∀ a b : Bool, (a || b) = false → a = false ∧ b = false := by
    intro a b h; cases a <;> cases b <;> simp_all
  rcases key with ⟨hs, h0⟩ | ⟨h0, ⟨hfw, hm⟩ | ⟨hfw, ⟨hb, hm⟩ | ⟨hb, hm⟩⟩⟩
  · -- condition false or guard false: reset
    have hm : s'.cur_state.unwind_map =
        map_set s.cur_state.unwind_map s.cur_state.source 0 := by rw [hs]; rfl
    refine ⟨?_, ?_, ?_, ?_⟩
    · intro k hk
      rw [hm, map_find_map_set_ne _ _ _ _ (Ne.symm hk)]
    · intro _
      rw [hm, map_at_map_set_self]
    · intro hc hg
      rw [hc, hg] at h0
      simp at h0
    · intro _
      left
      rw [hm, map_at_map_set_self]
  · -- forward: the map is as before
    refine ⟨?_, ?_, ?_, ?_⟩
    · intro k _
      rw [hm]
    · intro h
      rcases h with h | h <;> simp [h] at h0
    · intro _ _
      exact ⟨fun _ => hm, fun h => absurd hfw h⟩
    · intro _
      right; left
      rw [hm]
  · -- backward, bound reached: reset
    refine ⟨?_, ?_, ?_, ?_⟩
    · intro k hk
      rw [hm, map_find_map_set_ne _ _ _ _ (Ne.symm hk),
        map_find_map_set_ne _ _ _ _ (Ne.symm hk)]
    · intro _
      rw [hm, map_at_map_set_self]
    · intro _ _
      refine ⟨fun h => absurd h hfw, fun _ => ⟨fun _ => ?_, fun h => ?_⟩⟩
      · rw [hm, map_at_map_set_self]
      · rw [hb] at h
        cases h
    · intro _
      left
      rw [hm, map_at_map_set_self]
  · -- backward, below the bound: incremented
    refine ⟨?_, ?_, ?_, ?_⟩
    · intro k hk
      rw [hm, map_find_map_set_ne _ _ _ _ (Ne.symm hk)]
    · intro h
      rcases h with h | h <;> simp [h] at h0
    · intro _ _
      refine ⟨fun h => absurd h hfw, fun _ => ⟨fun h => ?_, fun _ => ?_⟩⟩
      · rw [hb] at h
        cases h
      · rw [hm, map_at_map_set_self]
    · intro hlt
      right; right
      rw [hm, map_at_map_set_self, Nat.mod_eq_of_lt hlt]

/-- C13 amended, applied to the sample engine at the back-edge of
instruction 2 with an empty unwind map, the guard `a` and the condition `c`:
the run goes on to the goto target and the counter of the back-edge is 1. -/
theorem symex_goto_unwind_map_witness :
    goto_symext.symex_goto sample_ext
        (sample_symex ⟨false, false, false, false⟩ (sample_state 2 [sample_sym "a" 1] []))
        (sample_sym "c" 1) =
      .ok (goto_symext.fork sample_ext
        (goto_symext.set_unwind
          (sample_symex ⟨false, false, false, false⟩ (sample_state 2 [sample_sym "a" 1] []))
          1)
        (sample_sym "c" 1) 0 false) ∧
    map_at (goto_symext.fork sample_ext
        (goto_symext.set_unwind
          (sample_symex ⟨false, false, false, false⟩ (sample_state 2 [sample_sym "a" 1] []))
          1)
        (sample_sym "c" 1) 0 false).cur_state.unwind_map ⟨2⟩ = 1 :=
  ⟨rfl,
    (((symex_goto_unwind_map sample_ext
      (sample_symex ⟨false, false, false, false⟩ (sample_state 2 [sample_sym "a" 1] []))
      _ (sample_sym "c" 1) rfl).2.2.1 rfl rfl).2 (by decide)).2 rfl⟩

/-! ### Hashes and structural equality -/

/-- Nothing is cached in the node of a fresh cache. -/
theorem crc_val_fresh : crc_cache.fresh.crc_val = 0 := rfl

/-- The operands of a fresh cache are fresh. -/
theorem operand_fresh (i : Nat) : crc_cache.fresh.operand i = crc_cache.fresh := by
  simp [crc_cache.fresh, crc_cache.operand]

/-- With coherent caches `do_crc` leaves in a node the value it computes from
nothing cached. -/
theorem do_crc_of_coherent (p : crc_functions) (t : expr2tc) :
    ∀ c : crc_cache, crc_cache.coherent p t c = true →
      do_crc p t c = do_crc p t crc_cache.fresh := by
  induction t with
  | constant_bool b =>
    intro c h
    by_cases h0 : c.crc_val = 0
    · simp only [do_crc, h0, crc_val_fresh, ne_eq, not_true_eq_false, if_false]
    · simp only [crc_cache.coherent, Bool.or_eq_true, beq_iff_eq] at h
      rcases h with h | h
      · exact absurd h h0
      · rw [← h]; simp [do_crc, h0]
  | symbol s =>
    intro c h
    by_cases h0 : c.crc_val = 0
    · simp only [do_crc, h0, crc_val_fresh, ne_eq, not_true_eq_false, if_false]
    · simp only [crc_cache.coherent, Bool.or_eq_true, beq_iff_eq] at h
      rcases h with h | h
      · exact absurd h h0
      · rw [← h]; simp [do_crc, h0]
  | other n =>
    intro c h
    by_cases h0 : c.crc_val = 0
    · simp only [do_crc, h0, crc_val_fresh, ne_eq, not_true_eq_false, if_false]
    · simp only [crc_cache.coherent, Bool.or_eq_true, beq_iff_eq] at h
      rcases h with h | h
      · exact absurd h h0
      · rw [← h]; simp [do_crc, h0]
  | not2t a iha =>
    intro c h
    simp only [crc_cache.coherent, Bool.and_eq_true, Bool.or_eq_true, beq_iff_eq] at h
    by_cases h0 : c.crc_val = 0
    · simp only [do_crc, h0, crc_val_fresh, operand_fresh, ne_eq, not_true_eq_false,
        if_false, iha _ h.2]
    · rcases h.1 with h1 | h1
      · exact absurd h1 h0
      · rw [← h1]; simp [do_crc, h0]
  | and2t a b iha ihb =>
    intro c h
    simp only [crc_cache.coherent, Bool.and_eq_true, Bool.or_eq_true, beq_iff_eq] at h
    by_cases h0 : c.crc_val = 0
    · simp only [do_crc, h0, crc_val_fresh, operand_fresh, ne_eq, not_true_eq_false,
        if_false, iha _ h.1.2, ihb _ h.2]
    · rcases h.1.1 with h1 | h1
      · exact absurd h1 h0
      · rw [← h1]; simp [do_crc, h0]
  | or2t a b iha ihb =>
    intro c h
    simp only [crc_cache.coherent, Bool.and_eq_true, Bool.or_eq_true, beq_iff_eq] at h
    by_cases h0 : c.crc_val = 0
    · simp only [do_crc, h0, crc_val_fresh, operand_fresh, ne_eq, not_true_eq_false,
        if_false, iha _ h.1.2, ihb _ h.2]
    · rcases h.1.1 with h1 | h1
      · exact absurd h1 h0
      · rw [← h1]; simp [do_crc, h0]
  | implies2t a b iha ihb =>
    intro c h
    simp only [crc_cache.coherent, Bool.and_eq_true, Bool.or_eq_true, beq_iff_eq] at h
    by_cases h0 : c.crc_val = 0
    · simp only [do_crc, h0, crc_val_fresh, operand_fresh, ne_eq, not_true_eq_false,
        if_false, iha _ h.1.2, ihb _ h.2]
    · rcases h.1.1 with h1 | h1
      · exact absurd h1 h0
      · rw [← h1]; simp [do_crc, h0]
  | if2t x a b ihx iha ihb =>
    intro c h
    simp only [crc_cache.coherent, Bool.and_eq_true, Bool.or_eq_true, beq_iff_eq] at h
    by_cases h0 : c.crc_val = 0
    · simp only [do_crc, h0, crc_val_fresh, operand_fresh, ne_eq, not_true_eq_false,
        if_false, ihx _ h.1.1.2, iha _ h.1.2, ihb _ h.2]
    · rcases h.1.1.1 with h1 | h1
      · exact absurd h1 h0
      · rw [← h1]; simp [do_crc, h0]

/-- A term with nothing cached has coherent caches. -/
theorem coherent_fresh (p : crc_functions) (t : expr2tc) :
    crc_cache.coherent p t crc_cache.fresh = true := by
  induction t with
  | constant_bool b => simp [crc_cache.coherent, crc_val_fresh]
  | symbol s => simp [crc_cache.coherent, crc_val_fresh]
  | other n => simp [crc_cache.coherent, crc_val_fresh]
  | not2t a iha => simp [crc_cache.coherent, crc_val_fresh, operand_fresh, iha]
  | and2t a b iha ihb => simp [crc_cache.coherent, crc_val_fresh, operand_fresh, iha, ihb]
  | or2t a b iha ihb => simp [crc_cache.coherent, crc_val_fresh, operand_fresh, iha, ihb]
  | implies2t a b iha ihb =>
    simp [crc_cache.coherent, crc_val_fresh, operand_fresh, iha, ihb]
  | if2t x a b ihx iha ihb =>
    simp [crc_cache.coherent, crc_val_fresh, operand_fresh, ihx, iha, ihb]

/-- The member `crc_val` of a node built with a value. -/
theorem crc_val_node (v : Nat) (ops : List crc_cache) : (crc_cache.node v ops).crc_val = v :=
  rfl

/-- The operand caches of a node built with a list of caches. -/
theorem operand_node (v : Nat) (ops : List crc_cache) (i : Nat) :
    (crc_cache.node v ops).operand i = ops.getD i (.node 0 []) := rfl

/-- The caches `do_crc` leaves are coherent when the caches it found were. -/
theorem coherent_do_crc_store (p : crc_functions) (t : expr2tc) :
    ∀ c : crc_cache, crc_cache.coherent p t c = true →
      crc_cache.coherent p t (do_crc_store p t c) = true := by
  induction t with
  | constant_bool b =>
    intro c h
    by_cases h0 : c.crc_val = 0
    · have := do_crc_of_coherent p _ c h
      simp only [do_crc_store, h0, ne_eq, not_true_eq_false, if_false, crc_cache.coherent,
        crc_val_node, this]
      simp
    · simp only [do_crc_store, h0, ne_eq, not_false_eq_true, if_true, h]
  | symbol s =>
    intro c h
    by_cases h0 : c.crc_val = 0
    · have := do_crc_of_coherent p _ c h
      simp only [do_crc_store, h0, ne_eq, not_true_eq_false, if_false, crc_cache.coherent,
        crc_val_node, this]
      simp
    · simp only [do_crc_store, h0, ne_eq, not_false_eq_true, if_true, h]
  | other n =>
    intro c h
    by_cases h0 : c.crc_val = 0
    · have := do_crc_of_coherent p _ c h
      simp only [do_crc_store, h0, ne_eq, not_true_eq_false, if_false, crc_cache.coherent,
        crc_val_node, this]
      simp
    · simp only [do_crc_store, h0, ne_eq, not_false_eq_true, if_true, h]
  | not2t a iha =>
    intro c h
    by_cases h0 : c.crc_val = 0
    · have := do_crc_of_coherent p _ c h
      simp only [crc_cache.coherent, Bool.and_eq_true] at h
      simp only [do_crc_store, h0, ne_eq, not_true_eq_false, if_false, crc_cache.coherent,
        crc_val_node, operand_node, this]
      simp [iha _ h.2]
    · simp only [do_crc_store, h0, ne_eq, not_false_eq_true, if_true, h]
  | and2t a b iha ihb =>
    intro c h
    by_cases h0 : c.crc_val = 0
    · have := do_crc_of_coherent p _ c h
      simp only [crc_cache.coherent, Bool.and_eq_true] at h
      simp only [do_crc_store, h0, ne_eq, not_true_eq_false, if_false, crc_cache.coherent,
        crc_val_node, operand_node, this]
      simp [iha _ h.1.2, ihb _ h.2]
    · simp only [do_crc_store, h0, ne_eq, not_false_eq_true, if_true, h]
  | or2t a b iha ihb =>
    intro c h
    by_cases h0 : c.crc_val = 0
    · have := do_crc_of_coherent p _ c h
      simp only [crc_cache.coherent, Bool.and_eq_true] at h
      simp only [do_crc_store, h0, ne_eq, not_true_eq_false, if_false, crc_cache.coherent,
        crc_val_node, operand_node, this]
      simp [iha _ h.1.2, ihb _ h.2]
    · simp only [do_crc_store, h0, ne_eq, not_false_eq_true, if_true, h]
  | implies2t a b iha ihb =>
    intro c h
    by_cases h0 : c.crc_val = 0
    · have := do_crc_of_coherent p _ c h
      simp only [crc_cache.coherent, Bool.and_eq_true] at h
      simp only [do_crc_store, h0, ne_eq, not_true_eq_false, if_false, crc_cache.coherent,
        crc_val_node, operand_node, this]
      simp [iha _ h.1.2, ihb _ h.2]
    · simp only [do_crc_store, h0, ne_eq, not_false_eq_true, if_true, h]
  | if2t x a b ihx iha ihb =>
    intro c h
    by_cases h0 : c.crc_val = 0
    · have := do_crc_of_coherent p _ c h
      simp only [crc_cache.coherent, Bool.and_eq_true] at h
      simp only [do_crc_store, h0, ne_eq, not_true_eq_false, if_false, crc_cache.coherent,
        crc_val_node, operand_node, this]
      simp [ihx _ h.1.1.2, iha _ h.1.2, ihb _ h.2]
    · simp only [do_crc_store, h0, ne_eq, not_false_eq_true, if_true, h]

/-- C20 as stated fails: the handles `a` and `b` both point to the term
`¬yy`; nothing is cached in `b`, and the node of `a` carries 359, the hash
that was cached for the term `¬x` (the cache of its operand is empty). The
two handles are equal under `operator==`, yet `a.crc()` returns the cached
359 and `b.crc()` computes 360. -/
theorem crc_differs_with_stale_cache :
    irep_container.crc sample_crc_functions
      { term := .not2t (sample_sym "x" 1), cache := crc_cache.fresh } = 359 ∧
    irep_container.operator_eq
      { term := .not2t (sample_sym "yy" 1), cache := .node 359 [.node 0 []] }
      { term := .not2t (sample_sym "yy" 1), cache := crc_cache.fresh } = true ∧
    irep_container.crc sample_crc_functions
      { term := .not2t (sample_sym "yy" 1), cache := .node 359 [.node 0 []] } = 359 ∧
    irep_container.crc sample_crc_functions
      { term := .not2t (sample_sym "yy" 1), cache := crc_cache.fresh } = 360 := by
  refine ⟨by rfl, by rfl, by rfl, by rfl⟩

/-- C20, amended: for all handles `a` and `b` in whose nodes every cached
value is the hash of its node, if `a == b` then `a.crc() == b.crc()`,
whichever of their nodes have a hash cached. Such are the caches of newly
built terms (nothing cached), and `crc()` itself keeps them so and returns
the same value when called again. -/
theorem crc_eq_of_operator_eq (p : crc_functions) (a b : irep_container)
    (heq : a.operator_eq b = true)
    (ha : crc_cache.coherent p a.term a.cache = true)
    (hb : crc_cache.coherent p b.term b.cache = true) :
    a.crc p = b.crc p ∧
    crc_cache.coherent p a.term (a.after_crc p).cache = true ∧
    (a.after_crc p).crc p = a.crc p ∧
    crc_cache.coherent p a.term crc_cache.fresh = true := by
  have hval : ∀ h : irep_container, crc_cache.coherent p h.term h.cache = true →
      h.crc p = do_crc p h.term crc_cache.fresh % 4294967296 := by
    intro h hc
    have h1 := do_crc_of_coherent p h.term h.cache hc
    unfold irep_container.crc
    by_cases h0 : h.cache.crc_val = 0
    · simp only [h0, ne_eq, not_true_eq_false, if_false, h1]
    · have h2 : do_crc p h.term h.cache = h.cache.crc_val := by
        cases h.term <;> simp [do_crc, h0]
      simp only [h0, ne_eq, not_false_eq_true, if_true, ← h1, h2]
  have hterm : a.term = b.term := by
    simpa [irep_container.operator_eq] using heq
  have hafter : crc_cache.coherent p a.term (a.after_crc p).cache = true := by
    unfold irep_container.after_crc
    by_cases h0 : a.cache.crc_val = 0
    · simp only [h0, ne_eq, not_true_eq_false, if_false]
      exact coherent_do_crc_store p a.term a.cache ha
    · simp only [h0, ne_eq, not_false_eq_true, if_true]
      exact ha
  refine ⟨?_, hafter, ?_, coherent_fresh p a.term⟩
  · rw [hval a ha, hval b hb, hterm]
  · rw [hval a ha, hval (a.after_crc p) hafter]
    rfl

/-- C20 amended, applied to two handles of the term `¬yy`: in the first the
hash 360 of the term is cached, in the second only the hash 12 of the
operand; both return 360. -/
theorem crc_eq_of_operator_eq_witness :
    irep_container.crc sample_crc_functions
        { term := .not2t (sample_sym "yy" 1), cache := .node 360 [.node 0 []] } =
      irep_container.crc sample_crc_functions
        { term := .not2t (sample_sym "yy" 1), cache := .node 0 [.node 12 []] } :=
  (crc_eq_of_operator_eq sample_crc_functions
    { term := .not2t (sample_sym "yy" 1), cache := .node 360 [.node 0 []] }
    { term := .not2t (sample_sym "yy" 1), cache := .node 0 [.node 12 []] }
    rfl rfl rfl).1

/-! ### Freshness of the names recorded in the sink -/

/-- The constant true is not the constant false. -/
theorem is_false_of_is_true (c : expr2tc) (h : is_true c = true) : is_false c = false := by
  cases c <;> simp_all [is_true, is_false]

/-- The shortcut of `symex_goto` (symex_goto.cpp:28-37): on a false condition
or a false state guard the counter of the source is reset and pc moves on. -/
theorem symex_goto_skip_eq (ext : collaborators) (s : goto_symext) (old_guard : expr2tc)
    (h : is_false (ext.do_simplify (ext.rename s.cur_state old_guard)) = true ∨
      s.cur_state.guard.is_false = true) :
    s.symex_goto ext old_guard = .ok ((s.set_unwind 0).set_pc (s.cur_state.source.pc + 1)) := by
  have h0 : (is_false (ext.do_simplify (ext.rename s.cur_state old_guard)) ||
      s.cur_state.guard.is_false) = true := by simpa using h
  simp only [goto_symext.symex_goto, h0, if_true]

/-- The forward branch of `symex_goto` (symex_goto.cpp:76-95): the state
forks. -/
theorem symex_goto_forward_eq (ext : collaborators) (s : goto_symext) (old_guard : expr2tc)
    (goto_target : Nat)
    (hnf : is_false (ext.do_simplify (ext.rename s.cur_state old_guard)) = false)
    (hG : s.cur_state.guard.is_false = false)
    (htargets : (ext.instruction s.cur_state.source.pc).targets = [goto_target])
    (hfw : (ext.instruction s.cur_state.source.pc).location_number <
      (ext.instruction goto_target).location_number) :
    s.symex_goto ext old_guard =
      .ok (s.fork ext (ext.do_simplify (ext.rename s.cur_state old_guard)) goto_target true) := by
  simp [goto_symext.symex_goto, hnf, hG, htargets, hfw]

/-- The backward branch of `symex_goto` (symex_goto.cpp:52-74) with `u` the
incremented counter: at the bound the condition goes to
`loop_bound_exceeded`, the counter is reset and pc moves on; below the bound
a true condition jumps to the target and any other condition forks. -/
theorem symex_goto_backward_eq (ext : collaborators) (s : goto_symext) (old_guard : expr2tc)
    (goto_target : Nat)
    (hnf : is_false (ext.do_simplify (ext.rename s.cur_state old_guard)) = false)
    (hG : s.cur_state.guard.is_false = false)
    (htargets : (ext.instruction s.cur_state.source.pc).targets = [goto_target])
    (hbw : ¬ (ext.instruction s.cur_state.source.pc).location_number <
      (ext.instruction goto_target).location_number) :
    s.symex_goto ext old_guard =
      .ok (if (s.set_unwind ((map_at s.cur_state.unwind_map s.cur_state.source + 1)
              % 4294967296)).get_unwind ext s.cur_state.source
              ((map_at s.cur_state.unwind_map s.cur_state.source + 1) % 4294967296) then
          ((((s.set_unwind ((map_at s.cur_state.unwind_map s.cur_state.source + 1)
              % 4294967296)).loop_bound_exceeded ext
              (ext.do_simplify (ext.rename s.cur_state old_guard))).set_unwind 0).set_pc
            (s.cur_state.source.pc + 1))
        else if is_true (ext.do_simplify (ext.rename s.cur_state old_guard)) then
          (s.set_unwind ((map_at s.cur_state.unwind_map s.cur_state.source + 1)
            % 4294967296)).set_pc goto_target
        else
          (s.set_unwind ((map_at s.cur_state.unwind_map s.cur_state.source + 1)
            % 4294967296)).fork ext (ext.do_simplify (ext.rename s.cur_state old_guard))
            goto_target false) := by
  have hsrc : ∀ n, (s.set_unwind n).cur_state.source = s.cur_state.source := fun _ => rfl
  have hlb := (loop_bound_exceeded_unwind_map ext
    (s.set_unwind ((map_at s.cur_state.unwind_map s.cur_state.source + 1) % 4294967296))
    (ext.do_simplify (ext.rename s.cur_state old_guard))).2
  have hd : decide ((ext.instruction s.cur_state.source.pc).location_number <
      (ext.instruction goto_target).location_number) = false := by simp [hbw]
  simp only [goto_symext.symex_goto, hnf, hG, htargets, hsrc, hlb, hd]
  by_cases hb : (s.set_unwind ((map_at s.cur_state.unwind_map s.cur_state.source + 1)
      % 4294967296)).get_unwind ext s.cur_state.source
      ((map_at s.cur_state.unwind_map s.cur_state.source + 1) % 4294967296) = true
  · simp [hb, hbw, hlb, hsrc]
  · by_cases ht : is_true (ext.do_simplify (ext.rename s.cur_state old_guard)) = true
    · simp [hb, ht, hbw]
    · simp [hb, ht, hbw]

/-- C26: if the renamed and simplified condition is the constant false, or
the state guard is false, `symex_goto` returns a state in which pc is one
more than before and the counter of the source is 0, and nothing else has
changed: the other entries of the unwind map, the queued goto-states, the
guard, the sink and every other member are the ones from before. -/
theorem symex_goto_false_shortcut_frame (ext : collaborators) (s : goto_symext)
    (old_guard : expr2tc)
    (h : is_false (ext.do_simplify (ext.rename s.cur_state old_guard)) = true ∨
      s.cur_state.guard.is_false = true) :
    ∃ s' : goto_symext,
      s.symex_goto ext old_guard = .ok s' ∧
      s'.cur_state.source.pc = s.cur_state.source.pc + 1 ∧
      map_at s'.cur_state.unwind_map s.cur_state.source = 0 ∧
      (∀ k, k ≠ s.cur_state.source →
        map_find s'.cur_state.unwind_map k = map_find s.cur_state.unwind_map k) ∧
      s' = { s with cur_state := { s.cur_state with
              source := { pc := s.cur_state.source.pc + 1 },
              unwind_map := s'.cur_state.unwind_map } } ∧
      s'.cur_state.top.goto_state_map = s.cur_state.top.goto_state_map ∧
      s'.cur_state.guard = s.cur_state.guard ∧
      s'.target = s.target := by
  refine ⟨_, symex_goto_skip_eq ext s old_guard h, rfl, ?_, ?_, rfl, rfl, rfl, rfl⟩
  · exact map_at_map_set_self _ _ _
  · intro k hk
    exact map_find_map_set_ne _ _ _ _ (fun e => hk e.symm)

/-- C26, applied to the sample engine at instruction 0 with the guard
`false`, the counter of the source at 2 and the condition `c`: the run
returns the state at pc 1 with the counter at 0, the same guard, nothing
queued and nothing in the sink. -/
theorem symex_goto_false_shortcut_frame_witness :
    ∃ s' : goto_symext,
      goto_symext.symex_goto sample_ext
        (sample_symex ⟨false, false, false, false⟩
          { sample_state 0 [false_expr] [] with unwind_map := [(⟨0⟩, 2)] })
        (sample_sym "c" 1) = .ok s' ∧
      s'.cur_state.source.pc = 1 ∧
      map_at s'.cur_state.unwind_map ⟨0⟩ = 0 ∧
      s'.cur_state.top.goto_state_map = [] ∧
      s'.cur_state.guard = ⟨[false_expr]⟩ ∧
      s'.target = [] := by
  obtain ⟨s', h1, h2, h3, _, _, h6, h7, h8⟩ :=
    symex_goto_false_shortcut_frame sample_ext
      (sample_symex ⟨false, false, false, false⟩
        { sample_state 0 [false_expr] [] with unwind_map := [(⟨0⟩, 2)] })
      (sample_sym "c" 1) (Or.inr rfl)
  exact ⟨s', h1, h2, h3, h6, h7, h8⟩

/-- C28: for a forward goto with one target whose condition simplifies to
the constant true, taken from a state whose guard is not false, `symex_goto`
returns a state in which the list queued under the target is the one from
before with the snapshot of the pre-branch state (and so its guard) at the
end, the guard of the current state answers true to `is_false`, and the sink
is as before. -/
theorem symex_goto_forward_true (ext : collaborators) (s : goto_symext) (old_guard : expr2tc)
    (goto_target : Nat)
    (hc : is_true (ext.do_simplify (ext.rename s.cur_state old_guard)) = true)
    (hG : s.cur_state.guard.is_false = false)
    (htargets : (ext.instruction s.cur_state.source.pc).targets = [goto_target])
    (hfw : (ext.instruction s.cur_state.source.pc).location_number <
      (ext.instruction goto_target).location_number) :
    ∃ s' : goto_symext,
      s.symex_goto ext old_guard = .ok s' ∧
      map_find s'.cur_state.top.goto_state_map goto_target =
        some ((map_find s.cur_state.top.goto_state_map goto_target).getD [] ++
          [goto_statet.of_state s.cur_state]) ∧
      s'.last_pending_guard goto_target = some s.cur_state.guard ∧
      s'.cur_state.guard.is_false = true ∧
      s'.cur_state.source.pc = s.cur_state.source.pc + 1 ∧
      s'.target = s.target := by
  refine ⟨_, symex_goto_forward_eq ext s old_guard goto_target
    (is_false_of_is_true _ hc) hG htargets hfw, ?_, ?_, ?_, ?_, ?_⟩
  · simp [goto_symext.fork, goto_symext.adjust_guards, hc, goto_symext.push_goto_state,
      map_find_map_set_self, goto_symext.set_pc, goto_statet.of_state]
  · simp [goto_symext.fork, goto_symext.adjust_guards, hc, goto_symext.push_goto_state,
      map_find_map_set_self, goto_symext.set_pc, goto_statet.of_state,
      goto_symext.last_pending_guard]
  · simp [goto_symext.fork, goto_symext.adjust_guards, hc, goto_symext.push_goto_state,
      goto_symext.set_pc, guardt.make_false, guardt.is_false, forall_guard_is_false,
      false_expr, is_false]
  · simp [goto_symext.fork, goto_symext.adjust_guards, hc, goto_symext.push_goto_state,
      goto_symext.set_pc]
  · simp [goto_symext.fork, goto_symext.adjust_guards, hc, goto_symext.push_goto_state,
      goto_symext.set_pc]

/-- C28, applied to the sample engine at the forward goto of instruction 0
with the guard `a` and the condition `true`: the state queued under the
target 2 has the guard `a`, the guard of the current state is false, and the
sink is empty. -/
theorem symex_goto_forward_true_witness :
    ∃ s' : goto_symext,
      goto_symext.symex_goto sample_ext
        (sample_symex ⟨false, false, false, false⟩ (sample_state 0 [sample_sym "a" 1] []))
        true_expr = .ok s' ∧
      s'.last_pending_guard 2 = some ⟨[sample_sym "a" 1]⟩ ∧
      s'.cur_state.guard.is_false = true ∧
      s'.target = [] := by
  obtain ⟨s', h1, _, h3, h4, _, h6⟩ :=
    symex_goto_forward_true sample_ext
      (sample_symex ⟨false, false, false, false⟩ (sample_state 0 [sample_sym "a" 1] []))
      true_expr 2 rfl rfl rfl (by decide)
  exact ⟨s', h1, h3, h4, h6⟩

/-- C29 as stated fails: with no unwinding limit and the counter of the
back-edge at 4294967295, a backward goto on the condition `true`, taken from
the guard `a` and below the bound (there is none), jumps to the target 0 and
leaves the counter at 0, not at one more than before: the increment of the
`unsigned` wraps. -/
theorem symex_goto_backward_true_counter_wraps :
    map_at sample_symex_counter_max.cur_state.unwind_map ⟨2⟩ = 4294967295 ∧
    sample_symex_counter_max.get_unwind sample_ext ⟨2⟩ (4294967295 + 1) = false ∧
    ∃ s' : goto_symext,
      goto_symext.symex_goto sample_ext sample_symex_counter_max true_expr = .ok s' ∧
      s'.cur_state.source.pc = 0 ∧
      map_at s'.cur_state.unwind_map ⟨2⟩ = 0 ∧
      map_at s'.cur_state.unwind_map ⟨2⟩ ≠
        map_at sample_symex_counter_max.cur_state.unwind_map ⟨2⟩ + 1 := by
  refine ⟨by rfl, by rfl, _, rfl, by rfl, by rfl, by decide⟩

/-- C29, amended: for a backward goto with one target whose condition
simplifies to the constant true, with a non-false guard and below the unwind
bound, `symex_goto` returns a state in which pc is the goto target and the
counter of the source is the old one plus one modulo 2^32 (the counter is an
`unsigned`), which is the old one plus one whenever the old one is below
2^32 - 1; nothing else has changed: the other entries of the unwind map, the
queued goto-states, the guard, the sink and every other member are the ones
from before. -/
theorem symex_goto_backward_true (ext : collaborators) (s : goto_symext) (old_guard : expr2tc)
    (goto_target : Nat)
    (hc : is_true (ext.do_simplify (ext.rename s.cur_state old_guard)) = true)
    (hG : s.cur_state.guard.is_false = false)
    (htargets : (ext.instruction s.cur_state.source.pc).targets = [goto_target])
    (hbw : ¬ (ext.instruction s.cur_state.source.pc).location_number <
      (ext.instruction goto_target).location_number)
    (hbelow : (s.set_unwind ((map_at s.cur_state.unwind_map s.cur_state.source + 1)
        % 4294967296)).get_unwind ext s.cur_state.source
        ((map_at s.cur_state.unwind_map s.cur_state.source + 1) % 4294967296) = false) :
    ∃ s' : goto_symext,
      s.symex_goto ext old_guard = .ok s' ∧
      s'.cur_state.source.pc = goto_target ∧
      map_at s'.cur_state.unwind_map s.cur_state.source =
        (map_at s.cur_state.unwind_map s.cur_state.source + 1) % 4294967296 ∧
      (map_at s.cur_state.unwind_map s.cur_state.source < 4294967295 →
        map_at s'.cur_state.unwind_map s.cur_state.source =
          map_at s.cur_state.unwind_map s.cur_state.source + 1) ∧
      (∀ k, k ≠ s.cur_state.source →
        map_find s'.cur_state.unwind_map k = map_find s.cur_state.unwind_map k) ∧
      s' = { s with cur_state := { s.cur_state with
              source := { pc := goto_target },
              unwind_map := s'.cur_state.unwind_map } } ∧
      s'.cur_state.top.goto_state_map = s.cur_state.top.goto_state_map ∧
      s'.cur_state.guard = s.cur_state.guard ∧
      s'.target = s.target := by
  have hrun := symex_goto_backward_eq ext s old_guard goto_target
    (is_false_of_is_true _ hc) hG htargets hbw
  rw [hbelow] at hrun
  simp only [hc, if_true, Bool.false_eq_true, if_false] at hrun
  refine ⟨_, hrun, rfl, ?_, ?_, ?_, rfl, rfl, rfl, rfl⟩
  · exact map_at_map_set_self _ _ _
  · intro hlt
    have hmod : (map_at s.cur_state.unwind_map s.cur_state.source + 1) % 4294967296 =
        map_at s.cur_state.unwind_map s.cur_state.source + 1 :=
      Nat.mod_eq_of_lt (by omega)
    have : map_at ((s.set_unwind ((map_at s.cur_state.unwind_map s.cur_state.source + 1)
        % 4294967296)).set_pc goto_target).cur_state.unwind_map s.cur_state.source =
        (map_at s.cur_state.unwind_map s.cur_state.source + 1) % 4294967296 :=
      map_at_map_set_self _ _ _
    rw [this, hmod]
  · intro k hk
    exact map_find_map_set_ne _ _ _ _ (fun e => hk e.symm)

/-- C29, amended, applied to the sample engine at the back-edge of
instruction 2 with the guard `a`, the counter at 0 and the condition `true`:
the run returns the state at pc 0 with the counter at 1, the same guard,
nothing queued and nothing in the sink. -/
theorem symex_goto_backward_true_witness :
    ∃ s' : goto_symext,
      goto_symext.symex_goto sample_ext
        (sample_symex ⟨false, false, false, false⟩ (sample_state 2 [sample_sym "a" 1] []))
        true_expr = .ok s' ∧
      s'.cur_state.source.pc = 0 ∧
      map_at s'.cur_state.unwind_map ⟨2⟩ = 1 ∧
      s'.cur_state.top.goto_state_map = [] ∧
      s'.cur_state.guard = ⟨[sample_sym "a" 1]⟩ ∧
      s'.target = [] := by
  obtain ⟨s', h1, h2, _, h4, _, _, h7, h8, h9⟩ :=
    symex_goto_backward_true sample_ext
      (sample_symex ⟨false, false, false, false⟩ (sample_state 2 [sample_sym "a" 1] []))
      true_expr 0 rfl rfl rfl (by decide) (by rfl)
  exact ⟨s', h1, h2, h4 (by decide), h7, h8, h9⟩

/-- The function `loop_bound_exceeded` leaves the call-stack frame, and so
the queued goto-states, as they are. -/
theorem loop_bound_exceeded_top (ext : collaborators) (s : goto_symext) (c : expr2tc) :
    (s.loop_bound_exceeded ext c).cur_state.top = s.cur_state.top := by
  unfold goto_symext.loop_bound_exceeded
  cases s.options.base_case <;> cases s.options.forward_condition <;>
    cases s.options.partial_loops <;> cases s.options.no_unwinding_assertions <;>
    simp [goto_symext.guard_add, goto_symext.claim, goto_symext.unwinding_assumption]

/-- C25: on a backward goto with one target, a non-false guard and a
non-false condition `c` (renamed and simplified), when the incremented
counter `u` reaches the bound, `symex_goto` returns the state that
`loop_bound_exceeded(c)`, applied once to the state with the counter at `u`,
leaves, with the counter of the source reset to 0 and pc one more than
before; the queued goto-states are the ones from before. -/
theorem symex_goto_bound_reached (ext : collaborators) (s : goto_symext) (old_guard : expr2tc)
    (goto_target : Nat)
    (hnf : is_false (ext.do_simplify (ext.rename s.cur_state old_guard)) = false)
    (hG : s.cur_state.guard.is_false = false)
    (htargets : (ext.instruction s.cur_state.source.pc).targets = [goto_target])
    (hbw : ¬ (ext.instruction s.cur_state.source.pc).location_number <
      (ext.instruction goto_target).location_number)
    (hreach : (s.set_unwind ((map_at s.cur_state.unwind_map s.cur_state.source + 1)
        % 4294967296)).get_unwind ext s.cur_state.source
        ((map_at s.cur_state.unwind_map s.cur_state.source + 1) % 4294967296) = true) :
    ∃ s' : goto_symext,
      s.symex_goto ext old_guard = .ok s' ∧
      s' = (((s.set_unwind ((map_at s.cur_state.unwind_map s.cur_state.source + 1)
              % 4294967296)).loop_bound_exceeded ext
              (ext.do_simplify (ext.rename s.cur_state old_guard))).set_unwind 0).set_pc
            (s.cur_state.source.pc + 1) ∧
      map_at s'.cur_state.unwind_map s.cur_state.source = 0 ∧
      s'.cur_state.source.pc = s.cur_state.source.pc + 1 ∧
      s'.cur_state.top.goto_state_map = s.cur_state.top.goto_state_map := by
  have hrun := symex_goto_backward_eq ext s old_guard goto_target hnf hG htargets hbw
  rw [hreach] at hrun
  simp only [if_true] at hrun
  have hlb := loop_bound_exceeded_unwind_map ext
    (s.set_unwind ((map_at s.cur_state.unwind_map s.cur_state.source + 1) % 4294967296))
    (ext.do_simplify (ext.rename s.cur_state old_guard))
  have htop := loop_bound_exceeded_top ext
    (s.set_unwind ((map_at s.cur_state.unwind_map s.cur_state.source + 1) % 4294967296))
    (ext.do_simplify (ext.rename s.cur_state old_guard))
  refine ⟨_, hrun, rfl, ?_, rfl, ?_⟩
  · show map_at (map_set _ ((s.set_unwind ((map_at s.cur_state.unwind_map s.cur_state.source + 1)
        % 4294967296)).loop_bound_exceeded ext
        (ext.do_simplify (ext.rename s.cur_state old_guard))).cur_state.source 0)
      s.cur_state.source = 0
    rw [hlb.2]
    exact map_at_map_set_self _ _ _
  · show ((s.set_unwind ((map_at s.cur_state.unwind_map s.cur_state.source + 1)
        % 4294967296)).loop_bound_exceeded ext
        (ext.do_simplify (ext.rename s.cur_state old_guard))).cur_state.top.goto_state_map =
      s.cur_state.top.goto_state_map
    rw [htop]
    rfl

/-- C25, applied to the sample engine (limit 3, default options) at the
back-edge of instruction 2 with the guard `a`, the counter at 2 and the
condition `c`: the bound is reached, the run returns the state at pc 3 with
the counter at 0 and nothing queued, and the sink holds the one record of
`loop_bound_exceeded`, the unwinding claim `¬c` under the guard `a`. -/
theorem symex_goto_bound_reached_witness :
    ∃ s' : goto_symext,
      goto_symext.symex_goto sample_ext
        (sample_symex ⟨false, false, false, false⟩
          { sample_state 2 [sample_sym "a" 1] [] with unwind_map := [(⟨2⟩, 2)] })
        (sample_sym "c" 1) = .ok s' ∧
      s'.target = [.assertion (sample_sym "a" 1) (.not2t (sample_sym "c" 1))
        "unwinding assertion loop 7" ⟨2⟩] ∧
      map_at s'.cur_state.unwind_map ⟨2⟩ = 0 ∧
      s'.cur_state.source.pc = 3 ∧
      s'.cur_state.top.goto_state_map = [] := by
  obtain ⟨s', h1, h2, h3, h4, h5⟩ :=
    symex_goto_bound_reached sample_ext
      (sample_symex ⟨false, false, false, false⟩
        { sample_state 2 [sample_sym "a" 1] [] with unwind_map := [(⟨2⟩, 2)] })
      (sample_sym "c" 1) 0 rfl rfl rfl (by decide) (by rfl)
  refine ⟨s', h1, ?_, h3, h4, h5⟩
  rw [h2]
  rfl

/-- C30: when `symex_goto` forks on a condition `c` (renamed and simplified)
that is neither the constant true nor the constant false (one target, guard
`G` not false, below the bound on a backward goto): if `c` is a symbol or
the negation of a symbol, nothing is appended to the sink, the renaming is
unchanged and `c` itself is the guard literal, the side of the goto target
getting `G ∧ c` and the other side `G ∧ simplify(¬c)`; otherwise exactly one
record is appended, the hidden assignment `γ := simplify(¬c)` under the
guard true for the fresh L2 name `γ` of the guard helper symbol, and `¬γ` is
the guard literal. -/
theorem symex_goto_fork_guard_literal (ext : collaborators) (s : goto_symext)
    (old_guard c : expr2tc) (goto_target : Nat)
    (hc : ext.do_simplify (ext.rename s.cur_state old_guard) = c)
    (hnt : is_true c = false) (hnf : is_false c = false)
    (hG : s.cur_state.guard.is_false = false)
    (htargets : (ext.instruction s.cur_state.source.pc).targets = [goto_target])
    (hbound : ¬ (ext.instruction s.cur_state.source.pc).location_number <
        (ext.instruction goto_target).location_number →
      (s.set_unwind ((map_at s.cur_state.unwind_map s.cur_state.source + 1)
        % 4294967296)).get_unwind ext s.cur_state.source
        ((map_at s.cur_state.unwind_map s.cur_state.source + 1) % 4294967296) = false) :
    ∃ (s' : goto_symext) (target_guard fall_guard : guardt),
      s.symex_goto ext old_guard = .ok s' ∧
      ((ext.instruction s.cur_state.source.pc).location_number <
          (ext.instruction goto_target).location_number →
        s'.cur_state.guard = fall_guard ∧
        s'.last_pending_guard goto_target = some target_guard) ∧
      (¬ (ext.instruction s.cur_state.source.pc).location_number <
          (ext.instruction goto_target).location_number →
        s'.cur_state.guard = target_guard ∧
        s'.last_pending_guard (s.cur_state.source.pc + 1) = some fall_guard) ∧
      ((is_symbol2t c || is_not_of_symbol c) = true →
        s'.target = s.target ∧
        s'.cur_state.level2 = s.cur_state.level2 ∧
        target_guard = s.cur_state.guard.add c ∧
        fall_guard = s.cur_state.guard.add (ext.do_simplify (.not2t c))) ∧
      ((is_symbol2t c || is_not_of_symbol c) = false →
        ∃ γ : symbol_data,
          γ = (s.cur_state.assignment ext (symbol2t ext.guard_identifier)
            (ext.do_simplify (.not2t c))).2 ∧
          γ.thename = ext.guard_identifier ∧
          γ.rlevel = .level2 ∧
          s'.target = s.target ++
            [.assignment true_expr (.symbol γ) (.symbol γ) (ext.do_simplify (.not2t c))
              s'.cur_state.source true] ∧
          s'.cur_state.level2 =
            (s.cur_state.assignment ext (symbol2t ext.guard_identifier)
              (ext.do_simplify (.not2t c))).1.level2 ∧
          target_guard = s.cur_state.guard.add (.not2t (.symbol γ)) ∧
          fall_guard = s.cur_state.guard.add
            (ext.do_simplify (.not2t (.not2t (.symbol γ))))) := by
  subst hc
  by_cases hsym : (is_symbol2t (ext.do_simplify (ext.rename s.cur_state old_guard)) ||
      is_not_of_symbol (ext.do_simplify (ext.rename s.cur_state old_guard))) = true
  · by_cases hfw : (ext.instruction s.cur_state.source.pc).location_number <
        (ext.instruction goto_target).location_number
    · refine ⟨_, s.cur_state.guard.add (ext.do_simplify (ext.rename s.cur_state old_guard)),
        s.cur_state.guard.add
          (ext.do_simplify (.not2t (ext.do_simplify (ext.rename s.cur_state old_guard)))),
        symex_goto_forward_eq ext s old_guard goto_target hnf hG htargets hfw,
        fun _ => ⟨?_, ?_⟩, fun h => absurd hfw h, fun _ => ⟨?_, ?_, rfl, rfl⟩,
        fun h => absurd hsym (by simp [h])⟩ <;>
      simp [goto_symext.fork, goto_symext.adjust_guards, hnt, hsym, goto_symext.guard_add,
        goto_symext.push_goto_state, goto_symext.last_pending_guard, map_find_map_set_self,
        goto_symext.set_pc, goto_statet.of_state]
    · have hrun := symex_goto_backward_eq ext s old_guard goto_target hnf hG htargets hfw
      rw [hbound hfw] at hrun
      simp only [hnt, Bool.false_eq_true, if_false] at hrun
      refine ⟨_, s.cur_state.guard.add (ext.do_simplify (ext.rename s.cur_state old_guard)),
        s.cur_state.guard.add
          (ext.do_simplify (.not2t (ext.do_simplify (ext.rename s.cur_state old_guard)))),
        hrun, fun h => absurd h hfw, fun _ => ⟨?_, ?_⟩, fun _ => ⟨?_, ?_, rfl, rfl⟩,
        fun h => absurd hsym (by simp [h])⟩ <;>
      simp [goto_symext.fork, goto_symext.adjust_guards, hnt, hsym, goto_symext.guard_add,
        goto_symext.push_goto_state, goto_symext.last_pending_guard, map_find_map_set_self,
        goto_symext.set_pc, goto_statet.of_state, goto_symext.set_unwind]
  · by_cases hfw : (ext.instruction s.cur_state.source.pc).location_number <
        (ext.instruction goto_target).location_number
    · refine ⟨_, s.cur_state.guard.add (.not2t (.symbol
          (s.cur_state.assignment ext (symbol2t ext.guard_identifier) (ext.do_simplify
            (.not2t (ext.do_simplify (ext.rename s.cur_state old_guard))))).2)),
        s.cur_state.guard.add (ext.do_simplify (.not2t (.not2t (.symbol
          (s.cur_state.assignment ext (symbol2t ext.guard_identifier) (ext.do_simplify
            (.not2t (ext.do_simplify (ext.rename s.cur_state old_guard))))).2)))),
        symex_goto_forward_eq ext s old_guard goto_target hnf hG htargets hfw,
        fun _ => ⟨?_, ?_⟩, fun h => absurd hfw h, fun h => absurd h hsym,
        fun _ => ⟨_, rfl, ?_, ?_, ?_, ?_, rfl, rfl⟩⟩ <;>
      simp [goto_symext.fork, goto_symext.adjust_guards, hnt, hsym, goto_symext.guard_add,
        goto_symext.push_goto_state, goto_symext.last_pending_guard, map_find_map_set_self,
        goto_symext.set_pc, goto_statet.of_state, goto_symex_statet.assignment,
        level1t.rename, symbol2t, guardt.as_expr2tc, guardt.as_expr, migrate_expr, true_expr]
    · have hrun := symex_goto_backward_eq ext s old_guard goto_target hnf hG htargets hfw
      rw [hbound hfw] at hrun
      simp only [hnt, Bool.false_eq_true, if_false] at hrun
      refine ⟨_, s.cur_state.guard.add (.not2t (.symbol
          (s.cur_state.assignment ext (symbol2t ext.guard_identifier) (ext.do_simplify
            (.not2t (ext.do_simplify (ext.rename s.cur_state old_guard))))).2)),
        s.cur_state.guard.add (ext.do_simplify (.not2t (.not2t (.symbol
          (s.cur_state.assignment ext (symbol2t ext.guard_identifier) (ext.do_simplify
            (.not2t (ext.do_simplify (ext.rename s.cur_state old_guard))))).2)))),
        hrun, fun h => absurd h hfw, fun _ => ⟨?_, ?_⟩, fun h => absurd h hsym,
        fun _ => ⟨_, rfl, ?_, ?_, ?_, ?_, rfl, rfl⟩⟩ <;>
      simp [goto_symext.fork, goto_symext.adjust_guards, hnt, hsym, goto_symext.guard_add,
        goto_symext.push_goto_state, goto_symext.last_pending_guard, map_find_map_set_self,
        goto_symext.set_pc, goto_statet.of_state, goto_symex_statet.assignment,
        level1t.rename, symbol2t, guardt.as_expr2tc, guardt.as_expr, migrate_expr, true_expr,
        goto_symext.set_unwind]

/-- C30, applied to the sample engine at the forward goto of instruction 0
with the guard `a` and the condition `c ∨ d`, which is neither a symbol nor
the negation of one: the sink holds exactly one record afterwards, the
hidden assignment `γ := ¬(c ∨ d)` for a name `γ` of the guard helper symbol. -/
theorem symex_goto_fork_guard_literal_witness :
    ∃ (s' : goto_symext) (γ : symbol_data),
      goto_symext.symex_goto sample_ext
        (sample_symex ⟨false, false, false, false⟩ (sample_state 0 [sample_sym "a" 1] []))
        (.or2t (sample_sym "c" 1) (sample_sym "d" 1)) = .ok s' ∧
      γ.thename = "goto_symex::guard" ∧
      s'.target = [.assignment true_expr (.symbol γ) (.symbol γ)
        (.not2t (.or2t (sample_sym "c" 1) (sample_sym "d" 1))) s'.cur_state.source true] ∧
      s'.last_pending_guard 2 = some ⟨[sample_sym "a" 1, .not2t (.symbol γ)]⟩ := by
  obtain ⟨s', tg, fg, hrun, hfwd, _, _, hns⟩ :=
    symex_goto_fork_guard_literal sample_ext
      (sample_symex ⟨false, false, false, false⟩ (sample_state 0 [sample_sym "a" 1] []))
      (.or2t (sample_sym "c" 1) (sample_sym "d" 1))
      (.or2t (sample_sym "c" 1) (sample_sym "d" 1)) 2 rfl rfl rfl rfl rfl
      (fun h => absurd (by decide) h)
  obtain ⟨γ, _, hname, _, ht, _, htg, _⟩ := hns rfl
  refine ⟨s', γ, hrun, hname, ht, ?_⟩
  rw [(hfwd (by decide)).2, htg]
  rfl

/-- The guard adjustment of the fork leaves the frame and the source of the
current state as they are, and changes nothing but the guard of the queued
state: that guard stays as it is for the constant true and gets one term
added otherwise. -/
theorem adjust_guards_frame (ext : collaborators) (s : goto_symext)
    (new_state : goto_statet) (c : expr2tc) (forward : Bool) :
    (s.adjust_guards ext new_state c forward).1.cur_state.top = s.cur_state.top ∧
    (s.adjust_guards ext new_state c forward).1.cur_state.source = s.cur_state.source ∧
    (s.adjust_guards ext new_state c forward).1.cur_state.call_stack =
      s.cur_state.call_stack ∧
    (s.adjust_guards ext new_state c forward).2.depth = new_state.depth ∧
    (s.adjust_guards ext new_state c forward).2.level2 = new_state.level2 ∧
    (s.adjust_guards ext new_state c forward).2.value_set = new_state.value_set ∧
    (is_true c = true →
      (s.adjust_guards ext new_state c forward).2.guard = new_state.guard) ∧
    (is_true c = false →
      ∃ x : expr2tc,
        (s.adjust_guards ext new_state c forward).2.guard = new_state.guard.add x) := by
  unfold goto_symext.adjust_guards
  cases is_true c <;> cases (is_symbol2t c || is_not_of_symbol c) <;> cases forward <;>
    simp [goto_symext.guard_add, goto_symex_statet.assignment]

/-- The queue after the fork: the list under the pc of the other successor
has one goto-state more at its end, the snapshot of the state with its guard
extended by at most the branch literal, and the lists under all other keys
are the ones from before. -/
theorem fork_queue (ext : collaborators) (s : goto_symext) (c : expr2tc)
    (goto_target : Nat) (forward : Bool) :
    (s.fork ext c goto_target forward).cur_state.source.pc =
      (if forward then s.cur_state.source.pc + 1 else goto_target) ∧
    (∃ g : goto_statet,
      map_find (s.fork ext c goto_target forward).cur_state.top.goto_state_map
          (if forward then goto_target else s.cur_state.source.pc + 1) =
        some ((map_find s.cur_state.top.goto_state_map
          (if forward then goto_target else s.cur_state.source.pc + 1)).getD [] ++ [g]) ∧
      g.depth = s.cur_state.depth ∧ g.level2 = s.cur_state.level2 ∧
      g.value_set = s.cur_state.value_set ∧
      (is_true c = true → g.guard = s.cur_state.guard) ∧
      (is_true c = false → ∃ x : expr2tc, g.guard = s.cur_state.guard.add x)) ∧
    (∀ k, k ≠ (if forward then goto_target else s.cur_state.source.pc + 1) →
      map_find (s.fork ext c goto_target forward).cur_state.top.goto_state_map k =
        map_find s.cur_state.top.goto_state_map k) ∧
    (s.fork ext c goto_target forward).cur_state.top.level1 = s.cur_state.top.level1 ∧
    (s.fork ext c goto_target forward).cur_state.call_stack = s.cur_state.call_stack := by
  obtain ⟨htop, hsrc, hcs, hd, hl, hv, hgt, hgf⟩ := adjust_guards_frame ext
    (s.set_pc (if forward then s.cur_state.source.pc + 1 else goto_target))
    (goto_statet.of_state
      (s.set_pc (if forward then s.cur_state.source.pc + 1 else goto_target)).cur_state)
    c forward
  have hfork : s.fork ext c goto_target forward =
      ((s.set_pc (if forward then s.cur_state.source.pc + 1 else goto_target)).adjust_guards
        ext (goto_statet.of_state
          (s.set_pc (if forward then s.cur_state.source.pc + 1 else goto_target)).cur_state)
        c forward).1.push_goto_state
        (if forward then goto_target else s.cur_state.source.pc + 1)
        ((s.set_pc (if forward then s.cur_state.source.pc + 1 else goto_target)).adjust_guards
          ext (goto_statet.of_state
            (s.set_pc (if forward then s.cur_state.source.pc + 1 else goto_target)).cur_state)
          c forward).2 := rfl
  rw [hfork]
  generalize (s.set_pc (if forward then s.cur_state.source.pc + 1 else goto_target)).adjust_guards
    ext (goto_statet.of_state
      (s.set_pc (if forward then s.cur_state.source.pc + 1 else goto_target)).cur_state)
    c forward = r at htop hsrc hcs hd hl hv hgt hgf
  refine ⟨?_, ⟨r.2, ?_, hd, hl, hv, hgt, hgf⟩, ?_, ?_, ?_⟩
  · show r.1.cur_state.source.pc = _
    rw [hsrc]; rfl
  · show map_find (map_set r.1.cur_state.top.goto_state_map _ _) _ = _
    rw [map_find_map_set_self, htop]; rfl
  · intro k hk
    show map_find (map_set r.1.cur_state.top.goto_state_map _ _) _ = _
    rw [map_find_map_set_ne _ _ _ _ (fun e => hk e.symm), htop]; rfl
  · show r.1.cur_state.top.level1 = _
    rw [htop]; rfl
  · show r.1.cur_state.call_stack = _
    rw [hcs]; rfl

/-- C27: when `symex_goto` forks (one target, condition `c` and guard not
false; a forward goto, or a backward goto below the bound whose condition is
not the constant true), it returns a state whose pc is pc+1 for a forward
goto and the goto target for a backward goto; the list queued in the top
frame under the other successor (the target for a forward goto, pc+1 for a
backward goto) is the list from before with exactly one goto-state at its
end, which has the depth, the renaming and the value set of the state before
the branch and its guard, extended by the branch literal when `c` is not the
constant true; the lists under all other keys, the L1 map of the frame and
the frames below are the ones from before. -/
theorem symex_goto_fork_queue (ext : collaborators) (s : goto_symext)
    (old_guard c : expr2tc) (goto_target : Nat)
    (hc : ext.do_simplify (ext.rename s.cur_state old_guard) = c)
    (hnf : is_false c = false)
    (hG : s.cur_state.guard.is_false = false)
    (htargets : (ext.instruction s.cur_state.source.pc).targets = [goto_target])
    (hforks : (ext.instruction s.cur_state.source.pc).location_number <
        (ext.instruction goto_target).location_number ∨
      ((s.set_unwind ((map_at s.cur_state.unwind_map s.cur_state.source + 1)
        % 4294967296)).get_unwind ext s.cur_state.source
        ((map_at s.cur_state.unwind_map s.cur_state.source + 1) % 4294967296) = false ∧
       is_true c = false)) :
    ∃ (s' : goto_symext) (g : goto_statet),
      s.symex_goto ext old_guard = .ok s' ∧
      s'.cur_state.source.pc =
        (if (ext.instruction s.cur_state.source.pc).location_number <
            (ext.instruction goto_target).location_number
          then s.cur_state.source.pc + 1 else goto_target) ∧
      map_find s'.cur_state.top.goto_state_map
          (if (ext.instruction s.cur_state.source.pc).location_number <
              (ext.instruction goto_target).location_number
            then goto_target else s.cur_state.source.pc + 1) =
        some ((map_find s.cur_state.top.goto_state_map
          (if (ext.instruction s.cur_state.source.pc).location_number <
              (ext.instruction goto_target).location_number
            then goto_target else s.cur_state.source.pc + 1)).getD [] ++ [g]) ∧
      g.depth = s.cur_state.depth ∧ g.level2 = s.cur_state.level2 ∧
      g.value_set = s.cur_state.value_set ∧
      (is_true c = true → g.guard = s.cur_state.guard) ∧
      (is_true c = false → ∃ x : expr2tc, g.guard = s.cur_state.guard.add x) ∧
      (∀ k, k ≠ (if (ext.instruction s.cur_state.source.pc).location_number <
              (ext.instruction goto_target).location_number
            then goto_target else s.cur_state.source.pc + 1) →
        map_find s'.cur_state.top.goto_state_map k =
          map_find s.cur_state.top.goto_state_map k) ∧
      s'.cur_state.top.level1 = s.cur_state.top.level1 ∧
      s'.cur_state.call_stack = s.cur_state.call_stack := by
  subst hc
  by_cases hfw : (ext.instruction s.cur_state.source.pc).location_number <
      (ext.instruction goto_target).location_number
  · obtain ⟨h1, ⟨g, h2, h3, h4, h5, h6, h7⟩, h8, h9, h10⟩ := fork_queue ext s
      (ext.do_simplify (ext.rename s.cur_state old_guard)) goto_target true
    simp only [if_true] at h1 h2 h8
    simp only [hfw, if_true]
    exact ⟨_, g, symex_goto_forward_eq ext s old_guard goto_target hnf hG htargets hfw,
      h1, h2, h3, h4, h5, h6, h7, h8, h9, h10⟩
  · obtain ⟨hbelow, hnt⟩ := hforks.resolve_left hfw
    have hrun := symex_goto_backward_eq ext s old_guard goto_target hnf hG htargets hfw
    rw [hbelow] at hrun
    simp only [hnt, Bool.false_eq_true, if_false] at hrun
    obtain ⟨h1, ⟨g, h2, h3, h4, h5, h6, h7⟩, h8, h9, h10⟩ := fork_queue ext
      (s.set_unwind ((map_at s.cur_state.unwind_map s.cur_state.source + 1) % 4294967296))
      (ext.do_simplify (ext.rename s.cur_state old_guard)) goto_target false
    simp only [Bool.false_eq_true, if_false] at h1 h2 h8
    simp only [hfw, if_false]
    exact ⟨_, g, hrun, h1, h2, h3, h4, h5, h6, h7, h8, h9, h10⟩

/-- C27, applied to the sample engine at the forward goto of instruction 0
with the guard `a`, the condition `c` and one state `p` already queued under
the target 2 and one under 5: the run returns the state at pc 1, the list
under 2 is `p` followed by one new state, whose renaming is the one of the
state before the branch, and the list under 5 is as before. -/
theorem symex_goto_fork_queue_witness :
    ∃ (s' : goto_symext) (g : goto_statet),
      goto_symext.symex_goto sample_ext
        (sample_symex ⟨false, false, false, false⟩
          { sample_state 0 [sample_sym "a" 1] [] with
            top := { level1 := { current_names := [] },
                     goto_state_map := [(2, [sample_goto_state [sample_sym "p" 1] []]),
                       (5, [sample_goto_state [sample_sym "q" 1] []])] } })
        (sample_sym "c" 1) = .ok s' ∧
      s'.cur_state.source.pc = 1 ∧
      map_find s'.cur_state.top.goto_state_map 2 =
        some [sample_goto_state [sample_sym "p" 1] [], g] ∧
      g.level2 = { current_names := [] } ∧
      map_find s'.cur_state.top.goto_state_map 5 =
        some [sample_goto_state [sample_sym "q" 1] []] := by
  obtain ⟨s', g, h1, h2, h3, _, h5, _, _, _, h9, _, _⟩ :=
    symex_goto_fork_queue sample_ext
      (sample_symex ⟨false, false, false, false⟩
        { sample_state 0 [sample_sym "a" 1] [] with
          top := { level1 := { current_names := [] },
                   goto_state_map := [(2, [sample_goto_state [sample_sym "p" 1] []]),
                     (5, [sample_goto_state [sample_sym "q" 1] []])] } })
      (sample_sym "c" 1) (sample_sym "c" 1) 2 rfl rfl rfl rfl (Or.inl (by decide))
  exact ⟨s', g, h1, h2, h3, h5, h9 5 (by decide)⟩

/-! ### Repeated arrivals at a back-edge -/

/-- One arrival at a back-edge with one target, a guard and a condition `c`
that are not false, the counter at `m < 2^32 - 1` and the limit `N > m`:
when `m + 1 < N` the back-edge is followed (pc is the goto target, by a jump
or a fork) and the counter is `m + 1`; when `m + 1 = N` the condition goes to
`loop_bound_exceeded`, the counter is reset and pc moves on. -/
theorem symex_goto_arrival (ext : collaborators) (s : goto_symext) (old_guard : expr2tc)
    (goto_target N m : Nat)
    (hnf : is_false (ext.do_simplify (ext.rename s.cur_state old_guard)) = false)
    (hG : s.cur_state.guard.is_false = false)
    (htargets : (ext.instruction s.cur_state.source.pc).targets = [goto_target])
    (hbw : ¬ (ext.instruction s.cur_state.source.pc).location_number <
      (ext.instruction goto_target).location_number)
    (hlimit : s.this_loop_max_unwind ext s.cur_state.source = N)
    (hm : map_at s.cur_state.unwind_map s.cur_state.source = m)
    (hmN : m < N) (hm32 : m + 1 < 4294967296) :
    ∃ s' : goto_symext,
      s.symex_goto ext old_guard = .ok s' ∧
      (m + 1 < N →
        s'.cur_state.source.pc = goto_target ∧
        map_at s'.cur_state.unwind_map s.cur_state.source = m + 1 ∧
        (s' = (s.set_unwind (m + 1)).set_pc goto_target ∨
          s' = (s.set_unwind (m + 1)).fork ext
            (ext.do_simplify (ext.rename s.cur_state old_guard)) goto_target false)) ∧
      (m + 1 = N →
        s' = (((s.set_unwind N).loop_bound_exceeded ext
          (ext.do_simplify (ext.rename s.cur_state old_guard))).set_unwind 0).set_pc
            (s.cur_state.source.pc + 1)) := by
  have hrun := symex_goto_backward_eq ext s old_guard goto_target hnf hG htargets hbw
  have hmod : (m + 1) % 4294967296 = m + 1 := Nat.mod_eq_of_lt (by omega)
  rw [hm, hmod] at hrun
  have hget : (s.set_unwind (m + 1)).get_unwind ext s.cur_state.source (m + 1) =
      (N != 0 && decide (m + 1 ≥ N)) := by
    rw [← hlimit]; rfl
  rw [hget] at hrun
  by_cases hlt : m + 1 < N
  · have hb : (N != 0 && decide (m + 1 ≥ N)) = false := by simp; omega
    rw [hb] at hrun
    simp only [Bool.false_eq_true, if_false] at hrun
    by_cases ht : is_true (ext.do_simplify (ext.rename s.cur_state old_guard)) = true
    · rw [if_pos ht] at hrun
      exact ⟨_, hrun, fun _ => ⟨rfl, map_at_map_set_self _ _ _, Or.inl rfl⟩,
        fun h => absurd h (by omega)⟩
    · rw [if_neg ht] at hrun
      refine ⟨_, hrun, fun _ => ⟨(fork_queue ext _ _ goto_target false).1, ?_, Or.inr rfl⟩,
        fun h => absurd h (by omega)⟩
      rw [fork_unwind_map]
      exact map_at_map_set_self _ _ _
  · have hb : (N != 0 && decide (m + 1 ≥ N)) = true := by simp; omega
    have hN : m + 1 = N := by omega
    rw [hb] at hrun
    simp only [if_true] at hrun
    refine ⟨_, hrun, fun h => absurd h hlt, fun _ => ?_⟩
    rw [hN]

/-- Along the arrivals at a back-edge from the counter `m`, under the limit
`N`, the arrival number `i` (from 0) with `m + i < N` and `m + i < 2^32` is
at the back-edge with a guard and condition that are not false and finds the
counter at `m + i`. -/
theorem arrivals_at_counter (ext : collaborators) (old_guard : expr2tc) (source : sourcet)
    (goto_target N : Nat)
    (htargets : (ext.instruction source.pc).targets = [goto_target])
    (hbw : ¬ (ext.instruction source.pc).location_number <
      (ext.instruction goto_target).location_number) :
    ∀ (ss : List goto_symext) (m : Nat),
      (∀ s ∈ ss, s.this_loop_max_unwind ext source = N) →
      arrivals_at ext old_guard source m ss →
      ∀ (i : Nat) (s : goto_symext), ss[i]? = some s → m + i < N → m + i < 4294967296 →
        s.cur_state.source = source ∧
        map_at s.cur_state.unwind_map source = m + i ∧
        s.cur_state.guard.is_false = false ∧
        is_false (ext.do_simplify (ext.rename s.cur_state old_guard)) = false := by
  intro ss
  induction ss with
  | nil => intro m _ _ i s hi; simp at hi
  | cons s0 rest ih =>
    intro m hlim harr i s hi hlt h32
    obtain ⟨hsrc, hcnt, hG, hnf, hnext⟩ := harr
    cases i with
    | zero =>
      simp at hi
      subst hi
      exact ⟨hsrc, hcnt, hG, hnf⟩
    | succ j =>
      simp at hi
      obtain ⟨s0', hrun, hfollow, _⟩ := symex_goto_arrival ext s0 old_guard goto_target N m
        hnf hG (by rw [hsrc]; exact htargets) (by rw [hsrc]; exact hbw)
        (by rw [hsrc]; exact hlim s0 (List.mem_cons_self _ _))
        (by rw [hsrc]; exact hcnt) (by omega) (by omega)
      have hc := (hfollow (by omega)).2.1
      rw [hsrc] at hc
      have hrest := hnext s0' hrun
      rw [hc] at hrest
      have := ih (m + 1) (fun s hs => hlim s (List.mem_cons_of_mem _ hs)) hrest j s hi
        (by omega) (by omega)
      rw [show m + (j + 1) = m + 1 + j by omega]
      exact this

/-- C24 as stated fails for a limit the 32-bit counter cannot reach: with the
limit 4294967296 for loop 7 and the counter of the back-edge at 4294967295,
where 4294967295 earlier arrivals leave it, the arrival number 4294967296
does not reach `loop_bound_exceeded`: the increment of the `unsigned` wraps
to 0, which is below the limit, the back-edge is followed again (pc is the
target 0), the counter is 0 and no unwinding record is in the sink. -/
theorem symex_goto_wide_bound_not_applied :
    sample_symex_wide_bound.this_loop_max_unwind sample_ext ⟨2⟩ = 4294967296 ∧
    map_at sample_symex_wide_bound.cur_state.unwind_map ⟨2⟩ = 4294967296 - 1 ∧
    sample_symex_wide_bound.cur_state.guard.is_false = false ∧
    ∃ s' : goto_symext,
      goto_symext.symex_goto sample_ext sample_symex_wide_bound (sample_sym "c" 1) = .ok s' ∧
      s'.cur_state.source.pc = 0 ∧
      map_at s'.cur_state.unwind_map ⟨2⟩ = 0 ∧
      s'.target = [] ∧
      s'.cur_state.guard = ⟨[sample_sym "a" 1, sample_sym "c" 1]⟩ := by
  refine ⟨by rfl, by rfl, by rfl, _, rfl, by rfl, by rfl, by rfl, by rfl⟩

/-- C24, amended: for a back-edge with one target whose limit is `N` with
`1 ≤ N < 2^32` (the counter is a 32-bit `unsigned`), along the successive
arrivals of a path at the back-edge that start from the counter 0 and come
with a guard and a condition `c` that are not false, `symex_goto` returns a
state at each of the first `N` arrivals; at each arrival before the `N`-th
the back-edge is followed (pc is the goto target, by a jump or a fork, with
nothing handed to `loop_bound_exceeded`) and the counter is the number of
arrivals so far; at the `N`-th arrival the result is the one of
`loop_bound_exceeded(c)` with the counter reset to 0 and pc moved on. With
the limit 3 the back-edge is followed twice and the bound applies at the
third arrival, after three executions of the body. -/
theorem symex_goto_bound_on_nth_arrival (ext : collaborators) (old_guard : expr2tc)
    (source : sourcet) (goto_target N : Nat) (ss : List goto_symext)
    (hN32 : N < 4294967296)
    (htargets : (ext.instruction source.pc).targets = [goto_target])
    (hbw : ¬ (ext.instruction source.pc).location_number <
      (ext.instruction goto_target).location_number)
    (hlim : ∀ s ∈ ss, s.this_loop_max_unwind ext source = N)
    (harr : arrivals_at ext old_guard source 0 ss) :
    ∀ (i : Nat) (s : goto_symext), ss[i]? = some s → i < N →
      ∃ s' : goto_symext,
        s.symex_goto ext old_guard = .ok s' ∧
        (i + 1 < N →
          s'.cur_state.source.pc = goto_target ∧
          map_at s'.cur_state.unwind_map source = i + 1 ∧
          (s' = (s.set_unwind (i + 1)).set_pc goto_target ∨
            s' = (s.set_unwind (i + 1)).fork ext
              (ext.do_simplify (ext.rename s.cur_state old_guard)) goto_target false)) ∧
        (i + 1 = N →
          s' = (((s.set_unwind N).loop_bound_exceeded ext
            (ext.do_simplify (ext.rename s.cur_state old_guard))).set_unwind 0).set_pc
              (source.pc + 1)) := by
  intro i s hi hlt
  obtain ⟨hsrc, hcnt, hG, hnf⟩ := arrivals_at_counter ext old_guard source goto_target N
    htargets hbw ss 0 hlim harr i s hi (by omega) (by omega)
  have hmem : s ∈ ss := List.getElem?_mem hi
  obtain ⟨s', hrun, hfollow, hbound⟩ := symex_goto_arrival ext s old_guard goto_target N i
    hnf hG (by rw [hsrc]; exact htargets) (by rw [hsrc]; exact hbw)
    (by rw [hsrc]; exact hlim s hmem) (by rw [hsrc, hcnt]; omega) hlt (by omega)
  rw [hsrc] at hfollow hbound
  exact ⟨s', hrun, hfollow, hbound⟩

/-- The three arrivals of the sample engine at the back-edge of instruction 2
with the counter at 0, 1 and 2 are successive arrivals from the counter 0. -/
theorem sample_arrivals :
    arrivals_at sample_ext (sample_sym "c" 1) ⟨2⟩ 0
      [sample_symex_arrival 0, sample_symex_arrival 1, sample_symex_arrival 2] := by
  refine ⟨rfl, rfl, rfl, rfl, fun s1 h1 => ?_⟩
  cases h1
  refine ⟨rfl, rfl, rfl, rfl, fun s2 h2 => ?_⟩
  cases h2
  refine ⟨rfl, rfl, rfl, rfl, fun s3 _ => ?_⟩
  trivial

/-- C24, amended, applied to the sample engine with the limit 3 (unwind:3)
and the condition `c`: at the first and at the second arrival the back-edge
is followed to pc 0 and the counter is 1 and 2; at the third arrival the
bound applies: the unwinding claim is recorded, the counter is back at 0 and
pc is 3. -/
theorem symex_goto_bound_on_nth_arrival_witness :
    (∃ s' : goto_symext,
      goto_symext.symex_goto sample_ext (sample_symex_arrival 0) (sample_sym "c" 1) = .ok s' ∧
      s'.cur_state.source.pc = 0 ∧ map_at s'.cur_state.unwind_map ⟨2⟩ = 1) ∧
    (∃ s' : goto_symext,
      goto_symext.symex_goto sample_ext (sample_symex_arrival 1) (sample_sym "c" 1) = .ok s' ∧
      s'.cur_state.source.pc = 0 ∧ map_at s'.cur_state.unwind_map ⟨2⟩ = 2) ∧
    (∃ s' : goto_symext,
      goto_symext.symex_goto sample_ext (sample_symex_arrival 2) (sample_sym "c" 1) = .ok s' ∧
      s'.cur_state.source.pc = 3 ∧ map_at s'.cur_state.unwind_map ⟨2⟩ = 0 ∧
      s'.target = [.assertion (sample_sym "a" 1) (.not2t (sample_sym "c" 1))
        "unwinding assertion loop 7" ⟨2⟩]) := by
  have h := symex_goto_bound_on_nth_arrival sample_ext (sample_sym "c" 1) ⟨2⟩ 0 3
    [sample_symex_arrival 0, sample_symex_arrival 1, sample_symex_arrival 2]
    (by decide) rfl (by decide)
    (fun s hs => by
      simp only [List.mem_cons, List.mem_singleton, List.not_mem_nil, or_false] at hs
      rcases hs with rfl | rfl | rfl <;> rfl)
    sample_arrivals
  obtain ⟨a, ha, hfa, _⟩ := h 0 _ rfl (by decide)
  obtain ⟨b, hb, hfb, _⟩ := h 1 _ rfl (by decide)
  obtain ⟨c, hc, _, hbc⟩ := h 2 _ rfl (by decide)
  refine ⟨⟨a, ha, (hfa (by decide)).1, (hfa (by decide)).2.1⟩,
    ⟨b, hb, (hfb (by decide)).1, (hfb (by decide)).2.1⟩, ⟨c, hc, ?_, ?_, ?_⟩⟩ <;>
  · rw [hbc rfl]
    rfl

/-! ### Shared nodes and mutable access through a handle -/

/-- An element found at two different positions of a list occurs at least
twice in it. -/
theorem two_le_count_of_two_indices {α : Type} [BEq α] [LawfulBEq α] (x : α) :
    ∀ (l : List α) (i j : Nat), i ≠ j → l[i]? = some x → l[j]? = some x → 2 ≤ l.count x := by
  intro l
  induction l with
  | nil => intro i j _ hi; simp at hi
  | cons y ys ih =>
    intro i j hij hi hj
    cases i with
    | zero =>
      cases j with
      | zero => exact absurd rfl hij
      | succ j =>
        simp at hi hj
        subst hi
        have : 1 ≤ ys.count y := List.count_pos_iff.mpr (List.getElem?_mem hj)
        rw [List.count_cons_self]
        omega
    | succ i =>
      cases j with
      | zero =>
        simp at hi hj
        subst hj
        have : 1 ≤ ys.count y := List.count_pos_iff.mpr (List.getElem?_mem hi)
        rw [List.count_cons_self]
        omega
      | succ j =>
        simp at hi hj
        have := ih i j (fun e => hij (by rw [e])) hi hj
        rw [List.count_cons]
        omega

/-- Writing an element that a list does not contain at one of its positions
makes it occur once. -/
theorem count_set_of_not_mem {α : Type} [BEq α] [LawfulBEq α] (x : α) :
    ∀ (l : List α) (i : Nat), x ∉ l → i < l.length → (l.set i x).count x = 1 := by
  intro l
  induction l with
  | nil => intro i _ hi; simp at hi
  | cons y ys ih =>
    intro i hx hi
    have hy : x ≠ y := fun e => hx (by simp [e])
    have hys : x ∉ ys := fun e => hx (List.mem_cons_of_mem _ e)
    cases i with
    | zero => simp [List.count_eq_zero_of_not_mem hys]
    | succ i =>
      simp at hi
      simp [List.count_cons, ih i hys hi, Ne.symm hy]

/-- A handle points to `a` exactly when the entry of the handle is `some a`. -/
theorem pointee_eq_some_iff (st : handle_store) (h a : Nat) :
    st.pointee h = some a ↔ st.handles[h]? = some (some a) := by
  unfold handle_store.pointee
  rw [List.getD_eq_getElem?_getD]
  cases st.handles[h]? <;> simp

/-- C21: for a handle `h` that points to a node `n` at address `a`, in a
store where every handle points to a node in existence, the non-const `get()`
returns a store and the address `tmp` of the node handed out, to which `h`
points afterwards; that node has the term of `n` and the cached hash 0. Every
other handle points where it pointed and observes the node it observed, term
and cached hash. If the node was shared (use count above 1), `tmp` is a new
address, one node has been added, `h` is the only handle pointing to it and
the node at `a` is as before; if it was not shared (use count 1), `tmp` is
`a` and no node has been added. -/
theorem get_detaches (st : handle_store) (h a : Nat) (hwf : st.wf)
    (hh : st.pointee h = some a) :
    ∃ (st' : handle_store) (tmp : Nat) (n n' : expr2t_node),
      st.get h = .ok (st', tmp) ∧
      st.nodes[a]? = some n ∧
      st'.pointee h = some tmp ∧
      st'.nodes[tmp]? = some n' ∧
      n'.term = n.term ∧
      n'.crc_val = 0 ∧
      (∀ j, j ≠ h → st'.pointee j = st.pointee j ∧ st'.observe j = st.observe j) ∧
      (st.use_count h > 1 →
        tmp = st.nodes.length ∧ st'.nodes.length = st.nodes.length + 1 ∧
        st'.use_count h = 1 ∧ st'.nodes[a]? = some n) ∧
      (st.use_count h = 1 → tmp = a ∧ st'.nodes.length = st.nodes.length) ∧
      st'.wf := by
  have ha : a < st.nodes.length := hwf h a hh
  have hh2 := (pointee_eq_some_iff st h a).mp hh
  have hlen : h < st.handles.length := by
    rcases List.getElem?_eq_some.mp hh2 with ⟨hl, _⟩
    exact hl
  obtain ⟨n, hn⟩ : ∃ n, st.nodes[a]? = some n := ⟨_, List.getElem?_eq_getElem ha⟩
  have huc : st.use_count h = st.handles.count (some a) := by
    simp [handle_store.use_count, hh]
  by_cases h1 : st.handles.count (some a) = 1
  · -- not shared
    have hdet : st.detach h = .ok st := by
      simp [handle_store.detach, huc, h1]
    have hget : st.get h =
        .ok (⟨st.nodes.set a ⟨n.term, 0⟩, st.handles⟩, a) := by
      simp [handle_store.get, hdet, hh, hn]
    refine ⟨_, a, n, ⟨n.term, 0⟩, hget, hn, hh, ?_, rfl, rfl, ?_, ?_, ?_, ?_⟩
    · simp [ha]
    · intro j hj
      refine ⟨rfl, ?_⟩
      show (st.pointee j).bind _ = (st.pointee j).bind _
      cases hp : st.pointee j with
      | none => rfl
      | some b =>
        have hb : b ≠ a := by
          intro e
          subst e
          have := two_le_count_of_two_indices (some b) st.handles j h hj
            ((pointee_eq_some_iff st j b).mp hp) hh2
          omega
        simp [List.getElem?_set_ne (Ne.symm hb)]
    · intro hgt
      omega
    · intro _
      exact ⟨rfl, by simp⟩
    · intro j b hp
      have := hwf j b hp
      simpa using this
  · -- shared
    have hfresh : some st.nodes.length ∉ st.handles := by
      intro hmem
      obtain ⟨j, hj⟩ := List.getElem?_of_mem hmem
      have := hwf j st.nodes.length ((pointee_eq_some_iff st j _).mpr hj)
      omega
    have hdet : st.detach h =
        .ok ⟨st.nodes ++ [n.clone], st.handles.set h (some st.nodes.length)⟩ := by
      simp [handle_store.detach, huc, h1, hh, hn, handle_store.observe]
    have hp1 : ∀ ns : List expr2t_node, handle_store.pointee
        ⟨ns, st.handles.set h (some st.nodes.length)⟩ h = some st.nodes.length := by
      intro ns
      rw [pointee_eq_some_iff]
      simp [List.getElem?_set_self hlen]
    have hget : st.get h =
        .ok (⟨(st.nodes ++ [n.clone]).set st.nodes.length ⟨n.clone.term, 0⟩,
          st.handles.set h (some st.nodes.length)⟩, st.nodes.length) := by
      simp [handle_store.get, hdet, hp1]
    have hother : ∀ (ns : List expr2t_node) (j : Nat), j ≠ h → handle_store.pointee
        ⟨ns, st.handles.set h (some st.nodes.length)⟩ j = st.pointee j := by
      intro ns j hj
      simp [handle_store.pointee, List.getD_eq_getElem?_getD,
        List.getElem?_set_ne (Ne.symm hj)]
    have hold : ∀ b, b < st.nodes.length →
        ((st.nodes ++ [n.clone]).set st.nodes.length ⟨n.clone.term, 0⟩)[b]? =
          st.nodes[b]? := by
      intro b hb
      rw [List.getElem?_set_ne (by omega), List.getElem?_append_left hb]
    refine ⟨_, st.nodes.length, n, ⟨n.clone.term, 0⟩, hget, hn, hp1 _, ?_, rfl, rfl,
      ?_, ?_, ?_, ?_⟩
    · simp
    · intro j hj
      refine ⟨hother _ j hj, ?_⟩
      simp only [handle_store.observe]
      rw [hother _ j hj]
      cases hp : st.pointee j with
      | none => rfl
      | some b => exact hold b (hwf j b hp)
    · intro _
      refine ⟨rfl, by simp, ?_, ?_⟩
      · simp only [handle_store.use_count, hp1]
        exact count_set_of_not_mem _ _ _ hfresh hlen
      · rw [hold a ha, hn]
    · intro hone
      rw [huc] at hone
      exact absurd hone h1
    · intro j b hp
      by_cases hj : j = h
      · subst hj
        rw [hp1] at hp
        simp at hp
        subst hp
        simp
      · rw [hother _ j hj] at hp
        have := hwf j b hp
        simp
        omega

/-- Every handle of the sample store points to one of its two nodes. -/
theorem sample_handle_store_wf : sample_handle_store.wf := by
  intro h a hp
  rw [pointee_eq_some_iff] at hp
  rcases h with _ | _ | _ | h <;> simp [sample_handle_store] at hp <;>
    simp [sample_handle_store] <;> omega

/-- C21, applied to the sample store, where handles 0 and 1 share node 0
(term `a`, cached hash 77): `get()` on handle 0 hands out the new node 2,
which has the term `a` and the cached hash 0 and is referenced by handle 0
only; handle 1 still observes the term `a` with the cached hash 77 and handle
2 observes its own node as before. -/
theorem get_detaches_witness :
    ∃ (st' : handle_store) (tmp : Nat),
      sample_handle_store.get 0 = .ok (st', tmp) ∧
      tmp = 2 ∧
      st'.use_count 0 = 1 ∧
      st'.observe 0 = some ⟨sample_sym "a" 1, 0⟩ ∧
      st'.observe 1 = some ⟨sample_sym "a" 1, 77⟩ ∧
      st'.observe 2 = some ⟨sample_sym "b" 1, 88⟩ := by
  obtain ⟨st', tmp, n, n', hget, hn, hp, hn', hterm, hcrc, hframe, hshared, _, _⟩ :=
    get_detaches sample_handle_store 0 0 sample_handle_store_wf rfl
  have hn0 : n = ⟨sample_sym "a" 1, 77⟩ := (Option.some.inj hn).symm
  refine ⟨st', tmp, hget, (hshared (by decide)).1, (hshared (by decide)).2.2.1, ?_,
    ((hframe 1 (by decide)).2).trans rfl, ((hframe 2 (by decide)).2).trans rfl⟩
  have hn1 : n' = ⟨sample_sym "a" 1, 0⟩ := by
    cases n' with
    | mk t c =>
      simp only at hterm hcrc
      rw [hterm, hcrc, hn0]
  rw [← hn1, ← hn']
  simp [handle_store.observe, hp]

/-! ### The model of abs -/

/-- C22: for every 32-bit `int` value `x`, the value of `abs(x)` is the value
of `(x < 0) ? -x : x` in two's-complement arithmetic; `abs(-1)` and `abs(1)`
are 1; so the three assertions of the regression test on `int` values hold. -/
theorem abs_agrees_with_conditional_negation (x : Int) (hlo : -2147483648 ≤ x)
    (hhi : x < 2147483648) :
    do_abs x = main_iabs x ∧ do_abs (-1) = 1 ∧ do_abs 1 = 1 ∧
      main_int_assertions x = [true, true, true] := by
  have h1 : do_abs x = main_iabs x := by
    unfold do_abs abs2t_value main_iabs to_int32
    by_cases hneg : x < 0
    · rw [if_pos hneg]
      have : ((Int.natAbs x : Nat) : Int) = -x := by omega
      rw [this]
    · rw [if_neg hneg]
      have : ((Int.natAbs x : Nat) : Int) = x := by omega
      rw [this]
      omega
  have h2 : do_abs (-1) = 1 := by decide
  have h3 : do_abs 1 = 1 := by decide
  refine ⟨h1, h2, h3, ?_⟩
  simp [main_int_assertions, h1, h2, h3]

/-- C22, applied to the least `int`, whose negation wraps: `abs` and the
conditional negation both give -2147483648 there. -/
theorem abs_agrees_with_conditional_negation_witness :
    do_abs (-2147483648) = main_iabs (-2147483648) ∧
    main_iabs (-2147483648) = -2147483648 ∧
    main_int_assertions (-2147483648) = [true, true, true] :=
  ⟨(abs_agrees_with_conditional_negation (-2147483648) (by decide) (by decide)).1,
    by decide,
    (abs_agrees_with_conditional_negation (-2147483648) (by decide) (by decide)).2.2.2⟩

/-! ### The rules of the green normal form -/

/-- The documented rules for `==`, `!=`, `<` and `<=` keep the solutions: the
relation against 0 is satisfied by the same assignments as the relation it
replaces. -/
theorem green_rule_keeps_solutions (σ : String → Int) (r : green_relation)
    (hop : r.op ≠ .greaterthan ∧ r.op ≠ .greaterthanequal) :
    (expr_green_normal_form.run r).holds σ = r.holds σ := by
  obtain ⟨symbols, k, op, y⟩ := r
  cases op <;>
    simp [expr_green_normal_form.run, green_normal_form.holds, green_relation.holds,
      green_op.holds, green_sum] at hop ⊢ <;>
    omega

/-- What the documented rules for `>` and `>=` give: the relation against 0
is the relation `A + B + C + ... + k OP -y`, with the sign of `y` changed. -/
theorem green_rule_greater (σ : String → Int) (r : green_relation)
    (hop : r.op = .greaterthan ∨ r.op = .greaterthanequal) :
    (expr_green_normal_form.run r).holds σ = green_relation.holds σ { r with y := -r.y } := by
  obtain ⟨symbols, k, op, y⟩ := r
  cases op <;>
    simp [expr_green_normal_form.run, green_normal_form.holds, green_relation.holds,
      green_op.holds, green_sum] at hop ⊢
  omega

/-- C23 fails for the documented rules for `>` and `>=`: the assignment
`A = 0` does not satisfy `A + 0 > 1`, but it satisfies `-(A + (0+1-1)) <= 0`,
the relation the rule for `>` gives; and it does not satisfy `A + 0 >= 1`,
but it satisfies `-(A + (0+1)) <= 0`, the relation the rule for `>=` gives.
(The rules for `==`, `!=`, `<` and `<=` do keep the solutions.) -/
theorem green_rule_greater_changes_solutions :
    (sample_green_relation .greaterthan).holds sample_green_assignment = false ∧
    (expr_green_normal_form.run (sample_green_relation .greaterthan)).holds
      sample_green_assignment = true ∧
    expr_green_normal_form.run (sample_green_relation .greaterthan) =
      { symbols := ["A"], k := 0 + 1 - 1, negated := true, op := .lessthanequal } ∧
    (sample_green_relation .greaterthanequal).holds sample_green_assignment = false ∧
    (expr_green_normal_form.run (sample_green_relation .greaterthanequal)).holds
      sample_green_assignment = true ∧
    expr_green_normal_form.run (sample_green_relation .greaterthanequal) =
      { symbols := ["A"], k := 0 + 1, negated := true, op := .lessthanequal } := by
  decide

/-! ### Visibility of the records the engine appends -/

/-- A sink continues itself. -/
theorem sink_adds_refl (p : SSA_stept → Bool) (t : List SSA_stept) : sink_adds p t t :=
  ⟨[], by simp, by simp⟩

/-- Continuations of the sink compose. -/
theorem sink_adds_trans {p : SSA_stept → Bool} {t0 t1 t2 : List SSA_stept}
    (h1 : sink_adds p t0 t1) (h2 : sink_adds p t1 t2) : sink_adds p t0 t2 := by
  obtain ⟨a1, e1, p1⟩ := h1
  obtain ⟨a2, e2, p2⟩ := h2
  refine ⟨a1 ++ a2, by rw [e2, e1, List.append_assoc], ?_⟩
  intro r hr
  rcases List.mem_append.mp hr with h | h
  · exact p1 r h
  · exact p2 r h

/-- One record that passes the test continues the sink. -/
theorem sink_adds_one (p : SSA_stept → Bool) (t : List SSA_stept) (r : SSA_stept)
    (h : p r = true) : sink_adds p t (t ++ [r]) :=
  ⟨[r], rfl, by simpa using h⟩

/-- A continuation by hidden assignments is a continuation in which every
assignment is hidden. -/
theorem sink_adds_weaken {t0 t : List SSA_stept}
    (h : sink_adds SSA_stept.is_hidden_assignment t0 t) :
    sink_adds SSA_stept.hidden_if_assignment t0 t := by
  obtain ⟨app, e, hp⟩ := h
  refine ⟨app, e, fun r hr => ?_⟩
  have := hp r hr
  cases r <;> simp_all [SSA_stept.is_hidden_assignment, SSA_stept.hidden_if_assignment]

/-- The function `loop_bound_exceeded` appends no assignment. -/
theorem sink_adds_loop_bound_exceeded (ext : collaborators) (s : goto_symext) (c : expr2tc) :
    sink_adds SSA_stept.hidden_if_assignment s.target (s.loop_bound_exceeded ext c).target := by
  unfold goto_symext.loop_bound_exceeded
  cases s.options.base_case <;> cases s.options.forward_condition <;>
    cases s.options.partial_loops <;> cases s.options.no_unwinding_assertions <;>
    simp only [goto_symext.guard_add, goto_symext.claim, goto_symext.unwinding_assumption,
      Bool.false_eq_true, if_false, if_true, Bool.not_false, Bool.not_true] <;>
    first
      | exact sink_adds_refl _ _
      | exact sink_adds_one _ _ _ rfl

/-- The guard adjustment of the fork appends hidden assignments only. -/
theorem sink_adds_adjust_guards (ext : collaborators) (s : goto_symext)
    (new_state : goto_statet) (c : expr2tc) (forward : Bool) :
    sink_adds SSA_stept.is_hidden_assignment s.target
      (s.adjust_guards ext new_state c forward).1.target := by
  unfold goto_symext.adjust_guards
  cases is_true c <;> cases (is_symbol2t c || is_not_of_symbol c) <;> cases forward <;>
    simp only [goto_symext.guard_add, Bool.false_eq_true, if_false, if_true] <;>
    first
      | exact sink_adds_refl _ _
      | exact sink_adds_one _ _ _ rfl

/-- The fork appends hidden assignments only. -/
theorem sink_adds_fork (ext : collaborators) (s : goto_symext) (c : expr2tc)
    (goto_target : Nat) (forward : Bool) :
    sink_adds SSA_stept.is_hidden_assignment s.target
      (s.fork ext c goto_target forward).target :=
  sink_adds_adjust_guards ext (s.set_pc _) _ c forward

/-- One pass of the loop body of `phi_function` appends hidden assignments
only. -/
theorem sink_adds_phi_function_body (ext : collaborators) (goto_state : goto_statet)
    (s : goto_symext) (it : symbol_data) :
    sink_adds SSA_stept.is_hidden_assignment s.target
      (goto_symext.phi_function_body ext goto_state s it).target := by
  unfold goto_symext.phi_function_body
  by_cases h1 : goto_state.level2.current_number it = s.cur_state.level2.current_number it
  · rw [if_pos h1]
    exact sink_adds_refl _ _
  rw [if_neg h1]
  by_cases h2 : it.thename = ext.guard_identifier
  · rw [if_pos h2]
    exact sink_adds_refl _ _
  rw [if_neg h2]
  cases hl : ext.ns_lookup (get_original_name it).get_symbol_name with
  | none =>
    simp only [hl]
    exact sink_adds_refl _ _
  | some symbol =>
    simp only [hl]
    exact sink_adds_one _ _ _ rfl

/-- A loop of passes over a list of variables appends hidden assignments
only. -/
theorem sink_adds_foldl_phi (ext : collaborators) (goto_state : goto_statet)
    (vs : List symbol_data) :
    ∀ s : goto_symext, sink_adds SSA_stept.is_hidden_assignment s.target
      (vs.foldl (goto_symext.phi_function_body ext goto_state) s).target := by
  induction vs with
  | nil => intro s; exact sink_adds_refl _ _
  | cons it vs ih =>
    intro s
    rw [List.foldl_cons]
    exact sink_adds_trans (sink_adds_phi_function_body ext goto_state s it) (ih _)

/-- The records `symex_goto` appends: every assignment among them is hidden. -/
theorem sink_adds_symex_goto (ext : collaborators) (s s' : goto_symext) (old_guard : expr2tc)
    (hrun : s.symex_goto ext old_guard = .ok s') :
    sink_adds SSA_stept.hidden_if_assignment s.target s'.target := by
  unfold goto_symext.symex_goto at hrun
  by_cases h0 : (is_false (ext.do_simplify (ext.rename s.cur_state old_guard)) ||
      s.cur_state.guard.is_false) = true
  · simp only [h0, if_true] at hrun
    rw [← Except.ok.inj hrun]
    exact sink_adds_refl _ _
  have h0f : (is_false (ext.do_simplify (ext.rename s.cur_state old_guard)) ||
      s.cur_state.guard.is_false) = false := by simpa using h0
  simp only [h0f, Bool.false_eq_true, if_false] at hrun
  by_cases he : (ext.instruction s.cur_state.source.pc).targets.isEmpty = true
  · simp [he] at hrun
  simp only [he, if_false] at hrun
  by_cases hl : ((ext.instruction s.cur_state.source.pc).targets.length != 1) = true
  · simp [hl] at hrun
  simp only [hl, if_false] at hrun
  by_cases hfw : (ext.instruction s.cur_state.source.pc).location_number <
      (ext.instruction ((ext.instruction s.cur_state.source.pc).targets.headD
        0)).location_number
  · simp only [hfw, decide_True, Bool.not_true, Bool.false_eq_true, if_false] at hrun
    rw [← Except.ok.inj hrun]
    exact sink_adds_weaken (sink_adds_fork ext s _ _ _)
  · simp only [hfw, decide_False, Bool.not_false, if_true] at hrun
    by_cases hb : (s.set_unwind ((map_at s.cur_state.unwind_map s.cur_state.source + 1)
        % 4294967296)).get_unwind ext (s.set_unwind
          ((map_at s.cur_state.unwind_map s.cur_state.source + 1)
            % 4294967296)).cur_state.source
        ((map_at s.cur_state.unwind_map s.cur_state.source + 1) % 4294967296) = true
    · simp only [hb, if_true] at hrun
      rw [← Except.ok.inj hrun]
      exact sink_adds_loop_bound_exceeded ext (s.set_unwind _) _
    · simp only [hb, Bool.false_eq_true, if_false] at hrun
      by_cases ht : is_true (ext.do_simplify (ext.rename s.cur_state old_guard)) = true
      · simp only [ht, if_true] at hrun
        rw [← Except.ok.inj hrun]
        exact sink_adds_refl _ _
      · simp only [ht, if_false] at hrun
        rw [← Except.ok.inj hrun]
        exact sink_adds_weaken (sink_adds_fork ext (s.set_unwind _) _ _ _)

/-- C31: every assignment record that `symex_goto` appends to the sink is
marked HIDDEN (the other records it can append, the unwinding claim or
assumption, are not assignments), and every record that `phi_function`
appends is an assignment marked HIDDEN. -/
theorem engine_assignments_hidden (ext : collaborators) (s : goto_symext)
    (old_guard : expr2tc) (goto_state : goto_statet) :
    (∀ s' : goto_symext, s.symex_goto ext old_guard = .ok s' →
      ∃ app : List SSA_stept, s'.target = s.target ++ app ∧
        ∀ guard lhs original_lhs rhs source hidden,
          SSA_stept.assignment guard lhs original_lhs rhs source hidden ∈ app →
          hidden = true) ∧
    (∃ app : List SSA_stept, (s.phi_function ext goto_state).target = s.target ++ app ∧
      ∀ r ∈ app, ∃ guard lhs original_lhs rhs source,
        r = SSA_stept.assignment guard lhs original_lhs rhs source true) := by
  constructor
  · intro s' hrun
    obtain ⟨app, e, hp⟩ := sink_adds_symex_goto ext s s' old_guard hrun
    exact ⟨app, e, fun g l ol rhs src hid hmem => hp _ hmem⟩
  · obtain ⟨app, e, hp⟩ := sink_adds_foldl_phi ext goto_state (s.phi_variables goto_state) s
    refine ⟨app, e, fun r hr => ?_⟩
    have := hp r hr
    cases r with
    | assignment g l ol rhs src hid =>
      simp only [SSA_stept.is_hidden_assignment] at this
      exact ⟨g, l, ol, rhs, src, by rw [this]⟩
    | assumption g c src => simp [SSA_stept.is_hidden_assignment] at this
    | assertion g c m src => simp [SSA_stept.is_hidden_assignment] at this

/-- C31, applied to the sample engine: the forward goto of instruction 0 on
the condition `c ∨ d` appends the assignment of the guard helper, and every
assignment in the sink afterwards is hidden; the merge of a pending state in
which `x` has another SSA number appends the phi assignment of `x`, and every
record in the sink afterwards is a hidden assignment. -/
theorem engine_assignments_hidden_witness :
    (∃ s' : goto_symext,
      goto_symext.symex_goto sample_ext
        (sample_symex ⟨false, false, false, false⟩ (sample_state 0 [sample_sym "a" 1] []))
        (.or2t (sample_sym "c" 1) (sample_sym "d" 1)) = .ok s' ∧
      s'.target.length = 1 ∧
      ∀ guard lhs original_lhs rhs source hidden,
        SSA_stept.assignment guard lhs original_lhs rhs source hidden ∈ s'.target →
        hidden = true) ∧
    ((goto_symext.phi_function sample_ext
        (sample_symex ⟨false, false, false, false⟩ (sample_state 0 [sample_sym "a" 1] []))
        (sample_goto_state [sample_sym "a" 1, sample_sym "c" 1]
          [(sample_l1 "x", 2)])).target.length = 1 ∧
      ∀ r ∈ (goto_symext.phi_function sample_ext
        (sample_symex ⟨false, false, false, false⟩ (sample_state 0 [sample_sym "a" 1] []))
        (sample_goto_state [sample_sym "a" 1, sample_sym "c" 1]
          [(sample_l1 "x", 2)])).target,
        ∃ guard lhs original_lhs rhs source,
          r = SSA_stept.assignment guard lhs original_lhs rhs source true) := by
  have h := engine_assignments_hidden sample_ext
    (sample_symex ⟨false, false, false, false⟩ (sample_state 0 [sample_sym "a" 1] []))
    (.or2t (sample_sym "c" 1) (sample_sym "d" 1))
    (sample_goto_state [sample_sym "a" 1, sample_sym "c" 1] [(sample_l1 "x", 2)])
  obtain ⟨app, happ, hhid⟩ := h.1 _ rfl
  obtain ⟨app2, happ2, hhid2⟩ := h.2
  have e1 : app = _ := (List.nil_append app).symm.trans happ.symm
  have e2 : app2 = _ := (List.nil_append app2).symm.trans happ2.symm
  refine ⟨⟨_, rfl, rfl, ?_⟩, rfl, ?_⟩
  · rw [← e1]; exact hhid
  · rw [← e2]; exact hhid2

/-! ### Merging pending states -/

/-- After `erase` the key has no entry. -/
theorem map_find_map_erase_self {κ ν : Type} [DecidableEq κ] (m : List (κ × ν)) (k : κ) :
    map_find (map_erase m k) k = none := by
  induction m with
  | nil => rfl
  | cons kv m ih =>
    obtain ⟨k1, v1⟩ := kv
    by_cases h : k1 = k
    · simp only [map_erase, List.filter_cons, h, decide_True, Bool.not_true,
        Bool.false_eq_true, if_false]
      exact ih
    · simp only [map_erase, List.filter_cons, h, decide_False, Bool.not_false, if_true,
        map_find, if_false]
      exact ih

/-- The function `erase` leaves the entries of the other keys as they are. -/
theorem map_find_map_erase_ne {κ ν : Type} [DecidableEq κ] (m : List (κ × ν)) (k k2 : κ)
    (hne : k2 ≠ k) : map_find (map_erase m k) k2 = map_find m k2 := by
  induction m with
  | nil => rfl
  | cons kv m ih =>
    obtain ⟨k1, v1⟩ := kv
    by_cases h : k1 = k
    · have h2 : k1 ≠ k2 := fun e => hne (e ▸ h)
      simp only [map_erase, List.filter_cons, h, decide_True, Bool.not_true,
        Bool.false_eq_true, if_false, map_find]
      rw [← h, if_neg h2]
      rw [h]
      exact ih
    · simp only [map_erase, List.filter_cons, h, decide_False, Bool.not_false, if_true,
        map_find]
      by_cases h3 : k1 = k2
      · simp [h3]
      · simp only [h3, if_false]
        exact ih

/-- One pass of the loop body of `phi_function` changes the renaming, the
value set and the sink only. -/
theorem phi_function_body_frame (ext : collaborators) (goto_state : goto_statet)
    (s : goto_symext) (it : symbol_data) :
    (goto_symext.phi_function_body ext goto_state s it).cur_state.top = s.cur_state.top ∧
    (goto_symext.phi_function_body ext goto_state s it).cur_state.source =
      s.cur_state.source ∧
    (goto_symext.phi_function_body ext goto_state s it).cur_state.guard = s.cur_state.guard ∧
    (goto_symext.phi_function_body ext goto_state s it).cur_state.depth = s.cur_state.depth ∧
    (goto_symext.phi_function_body ext goto_state s it).cur_state.unwind_map =
      s.cur_state.unwind_map ∧
    (goto_symext.phi_function_body ext goto_state s it).cur_state.call_stack =
      s.cur_state.call_stack := by
  unfold goto_symext.phi_function_body
  by_cases h1 : goto_state.level2.current_number it = s.cur_state.level2.current_number it
  · simp [h1]
  rw [if_neg h1]
  by_cases h2 : it.thename = ext.guard_identifier
  · simp [h2]
  rw [if_neg h2]
  cases hl : ext.ns_lookup (get_original_name it).get_symbol_name with
  | none => simp only [hl]; simp
  | some symbol => simp only [hl]; simp [goto_symex_statet.assignment]

/-- The function `phi_function` changes the renaming, the value set and the
sink only. -/
theorem phi_function_frame (ext : collaborators) (goto_state : goto_statet)
    (vs : List symbol_data) :
    ∀ s : goto_symext,
      (vs.foldl (goto_symext.phi_function_body ext goto_state) s).cur_state.top =
        s.cur_state.top ∧
      (vs.foldl (goto_symext.phi_function_body ext goto_state) s).cur_state.source =
        s.cur_state.source ∧
      (vs.foldl (goto_symext.phi_function_body ext goto_state) s).cur_state.guard =
        s.cur_state.guard ∧
      (vs.foldl (goto_symext.phi_function_body ext goto_state) s).cur_state.depth =
        s.cur_state.depth ∧
      (vs.foldl (goto_symext.phi_function_body ext goto_state) s).cur_state.unwind_map =
        s.cur_state.unwind_map ∧
      (vs.foldl (goto_symext.phi_function_body ext goto_state) s).cur_state.call_stack =
        s.cur_state.call_stack := by
  induction vs with
  | nil => intro s; simp
  | cons it vs ih =>
    intro s
    rw [List.foldl_cons]
    obtain ⟨a1, a2, a3, a4, a5, a6⟩ := ih (goto_symext.phi_function_body ext goto_state s it)
    obtain ⟨b1, b2, b3, b4, b5, b6⟩ := phi_function_body_frame ext goto_state s it
    exact ⟨a1.trans b1, a2.trans b2, a3.trans b3, a4.trans b4, a5.trans b5, a6.trans b6⟩

/-- The merge of one pending state: the frame, the source, the unwind map and
the frames below stay, the guard is joined with the pending guard, the depth
is the smaller of the two, and the value set is the pending one when the
guard from before the merge is false and the union of the value set after
the phi assignments with the pending one otherwise. -/
theorem merge_goto_state_frame (ext : collaborators) (s : goto_symext)
    (goto_state : goto_statet) :
    (s.merge_goto_state ext goto_state).cur_state.top = s.cur_state.top ∧
    (s.merge_goto_state ext goto_state).cur_state.source = s.cur_state.source ∧
    (s.merge_goto_state ext goto_state).cur_state.unwind_map = s.cur_state.unwind_map ∧
    (s.merge_goto_state ext goto_state).cur_state.call_stack = s.cur_state.call_stack ∧
    (s.merge_goto_state ext goto_state).cur_state.guard =
      s.cur_state.guard.operator_or_assign goto_state.guard ∧
    (s.merge_goto_state ext goto_state).cur_state.depth =
      min s.cur_state.depth goto_state.depth ∧
    (s.merge_goto_state ext goto_state).cur_state.value_set =
      (if s.cur_state.guard.is_false then goto_state.value_set
       else (s.phi_function ext goto_state).cur_state.value_set ∪ goto_state.value_set) ∧
    (s.merge_goto_state ext goto_state).cur_state.level2 =
      (s.phi_function ext goto_state).cur_state.level2 ∧
    (s.merge_goto_state ext goto_state).target = (s.phi_function ext goto_state).target := by
  obtain ⟨h1, h2, h3, h4, h5, h6⟩ :=
    phi_function_frame ext goto_state (s.phi_variables goto_state) s
  have hphi : s.phi_function ext goto_state =
      (s.phi_variables goto_state).foldl (goto_symext.phi_function_body ext goto_state) s := rfl
  rw [← hphi] at h1 h2 h3 h4 h5 h6
  simp only [goto_symext.merge_goto_state, goto_symext.merge_value_sets, h3]
  cases hg : s.cur_state.guard.is_false <;>
    simp [h1, h2, h3, h4, h5, h6]

/-- The loop of `merge_gotos` over a list of pending states: the frame, the
source, the unwind map and the frames below stay, and the depth is the
smallest of the depth before and the depths of the states merged. -/
theorem foldl_merge_goto_state_frame (ext : collaborators) (l : List goto_statet) :
    ∀ s : goto_symext,
      (l.foldl (goto_symext.merge_goto_state ext) s).cur_state.top = s.cur_state.top ∧
      (l.foldl (goto_symext.merge_goto_state ext) s).cur_state.source = s.cur_state.source ∧
      (l.foldl (goto_symext.merge_goto_state ext) s).cur_state.unwind_map =
        s.cur_state.unwind_map ∧
      (l.foldl (goto_symext.merge_goto_state ext) s).cur_state.call_stack =
        s.cur_state.call_stack ∧
      (l.foldl (goto_symext.merge_goto_state ext) s).cur_state.depth =
        l.foldl (fun d g => min d g.depth) s.cur_state.depth := by
  induction l with
  | nil => intro s; simp
  | cons g l ih =>
    intro s
    rw [List.foldl_cons, List.foldl_cons]
    obtain ⟨a1, a2, a3, a4, a5⟩ := ih (s.merge_goto_state ext g)
    obtain ⟨b1, b2, b3, b4, _, b6, _⟩ := merge_goto_state_frame ext s g
    exact ⟨a1.trans b1, a2.trans b2, a3.trans b3, a4.trans b4, by rw [a5, b6]⟩

/-- The function `merge_gotos` as a loop followed by the erase. -/
theorem merge_gotos_eq (ext : collaborators) (s : goto_symext) (state_list : List goto_statet)
    (h : map_find s.cur_state.top.goto_state_map s.cur_state.source.pc = some state_list) :
    s.merge_gotos ext =
      (state_list.reverse.foldl (goto_symext.merge_goto_state ext) s).erase_goto_state_list
        s.cur_state.source.pc := by
  simp only [goto_symext.merge_gotos, h, goto_symext.erase_goto_state_list]

/-- C33: when the top frame's `goto_state_map` has no entry for the current
pc, `merge_gotos` returns the engine as it is, state and sink; when it has
the entry `state_list`, the result is what merging the states of the list
one after the other, the last queued first, gives, with the entry of the
current pc erased: there is no entry for the current pc afterwards and the
entries of all other keys, the L1 map of the frame and the frames below are
the ones from before. -/
theorem merge_gotos_frame (ext : collaborators) (s : goto_symext) :
    (map_find s.cur_state.top.goto_state_map s.cur_state.source.pc = none →
      s.merge_gotos ext = s) ∧
    (∀ state_list : List goto_statet,
      map_find s.cur_state.top.goto_state_map s.cur_state.source.pc = some state_list →
      s.merge_gotos ext =
        (state_list.foldr (fun goto_state acc => acc.merge_goto_state ext goto_state)
          s).erase_goto_state_list s.cur_state.source.pc ∧
      map_find (s.merge_gotos ext).cur_state.top.goto_state_map s.cur_state.source.pc = none ∧
      (∀ k, k ≠ s.cur_state.source.pc →
        map_find (s.merge_gotos ext).cur_state.top.goto_state_map k =
          map_find s.cur_state.top.goto_state_map k) ∧
      (s.merge_gotos ext).cur_state.top.level1 = s.cur_state.top.level1 ∧
      (s.merge_gotos ext).cur_state.call_stack = s.cur_state.call_stack ∧
      (s.merge_gotos ext).cur_state.source = s.cur_state.source) := by
  constructor
  · intro h
    simp only [goto_symext.merge_gotos, h]
  · intro state_list h
    have heq := merge_gotos_eq ext s state_list h
    obtain ⟨h1, h2, _, h4, _⟩ := foldl_merge_goto_state_frame ext state_list.reverse s
    refine ⟨?_, ?_, ?_, ?_, ?_, ?_⟩
    · rw [heq, List.foldl_reverse]
    · rw [heq]
      show map_find (map_erase _ _) _ = none
      exact map_find_map_erase_self _ _
    · intro k hk
      rw [heq]
      show map_find (map_erase _ _) _ = _
      rw [map_find_map_erase_ne _ _ _ hk, h1]
    · rw [heq]
      show (state_list.reverse.foldl (goto_symext.merge_goto_state ext)
        s).cur_state.top.level1 = _
      rw [h1]
    · rw [heq]
      exact h4
    · rw [heq]
      exact h2

/-- C33, applied to the sample engine at pc 1 with the pending states `p`
(queued first) and `q` (queued last) under pc 1 and one state under pc 5:
`q` is merged first and `p` after it, the entry of pc 1 is gone and the
entry of pc 5 is as before; an entry of pc 1 that holds no state is erased;
with no entry for pc 1 the engine is returned as it is. -/
theorem merge_gotos_frame_witness :
    goto_symext.merge_gotos sample_ext
        (sample_symex ⟨false, false, false, false⟩
          { sample_state 1 [sample_sym "a" 1] [] with
            top := { level1 := { current_names := [] },
                     goto_state_map := [(1, [sample_pending [sample_sym "p" 1] 3 ∅,
                         sample_pending [sample_sym "q" 1] 4 ∅]),
                       (5, [sample_pending [sample_sym "r" 1] 5 ∅])] } }) =
      goto_symext.erase_goto_state_list
        (goto_symext.merge_goto_state sample_ext
          (goto_symext.merge_goto_state sample_ext
            (sample_symex ⟨false, false, false, false⟩
              { sample_state 1 [sample_sym "a" 1] [] with
                top := { level1 := { current_names := [] },
                         goto_state_map := [(1, [sample_pending [sample_sym "p" 1] 3 ∅,
                             sample_pending [sample_sym "q" 1] 4 ∅]),
                           (5, [sample_pending [sample_sym "r" 1] 5 ∅])] } })
            (sample_pending [sample_sym "q" 1] 4 ∅))
          (sample_pending [sample_sym "p" 1] 3 ∅)) 1 ∧
    map_find (goto_symext.merge_gotos sample_ext
        (sample_symex ⟨false, false, false, false⟩
          { sample_state 1 [sample_sym "a" 1] [] with
            top := { level1 := { current_names := [] },
                     goto_state_map := [(1, [sample_pending [sample_sym "p" 1] 3 ∅,
                         sample_pending [sample_sym "q" 1] 4 ∅]),
                       (5, [sample_pending [sample_sym "r" 1] 5 ∅])] } })).cur_state.top.goto_state_map
      5 = some [sample_pending [sample_sym "r" 1] 5 ∅] ∧
    goto_symext.merge_gotos sample_ext (sample_symex_merge [sample_sym "a" 1] ∅ []) ≠
      sample_symex_merge [sample_sym "a" 1] ∅ [] ∧
    goto_symext.merge_gotos sample_ext
        (sample_symex ⟨false, false, false, false⟩ (sample_state 1 [sample_sym "a" 1] [])) =
      sample_symex ⟨false, false, false, false⟩ (sample_state 1 [sample_sym "a" 1] []) := by
  have h := (merge_gotos_frame sample_ext
    (sample_symex ⟨false, false, false, false⟩
      { sample_state 1 [sample_sym "a" 1] [] with
        top := { level1 := { current_names := [] },
                 goto_state_map := [(1, [sample_pending [sample_sym "p" 1] 3 ∅,
                     sample_pending [sample_sym "q" 1] 4 ∅]),
                   (5, [sample_pending [sample_sym "r" 1] 5 ∅])] } })).2 _ rfl
  refine ⟨h.1, (h.2.2.1 5 (by decide)).trans rfl, ?_,
    (merge_gotos_frame sample_ext
      (sample_symex ⟨false, false, false, false⟩
        (sample_state 1 [sample_sym "a" 1] []))).1 rfl⟩
  intro e
  have := congrArg (fun x => x.cur_state.top.goto_state_map) e
  simp [goto_symext.merge_gotos, sample_symex_merge, sample_symex, sample_state_with_pending,
    sample_state, map_find, map_erase] at this

/-- C34: `merge_value_sets` replaces the current value set by the pending
one when the current guard is false and makes it the union of the two
otherwise, and changes nothing else; in the merge of a pending state the
guard it tests is the current guard from before the join with the pending
guard, and the value set the union is taken with is the current one after
the phi assignments. -/
theorem merge_value_sets_join (ext : collaborators) (s : goto_symext)
    (goto_state : goto_statet) :
    (s.merge_value_sets goto_state).cur_state.value_set =
      (if s.cur_state.guard.is_false then goto_state.value_set
       else s.cur_state.value_set ∪ goto_state.value_set) ∧
    s.merge_value_sets goto_state =
      { s with cur_state := { s.cur_state with
          value_set := (s.merge_value_sets goto_state).cur_state.value_set } } ∧
    (s.merge_goto_state ext goto_state).cur_state.value_set =
      (if s.cur_state.guard.is_false then goto_state.value_set
       else (s.phi_function ext goto_state).cur_state.value_set ∪ goto_state.value_set) ∧
    (s.merge_goto_state ext goto_state).cur_state.guard =
      s.cur_state.guard.operator_or_assign goto_state.guard := by
  obtain ⟨_, _, _, _, hg, _, hv, _, _⟩ := merge_goto_state_frame ext s goto_state
  refine ⟨?_, ?_, hv, hg⟩
  · unfold goto_symext.merge_value_sets
    cases s.cur_state.guard.is_false <;> simp
  · unfold goto_symext.merge_value_sets
    cases s.cur_state.guard.is_false <;> simp

/-- The smallest of a number and the depths of a list of pending states. -/
theorem foldl_min_depth (l : List goto_statet) :
    ∀ d : Nat,
      l.foldl (fun d g => min d g.depth) d ≤ d ∧
      (∀ g ∈ l, l.foldl (fun d g => min d g.depth) d ≤ g.depth) ∧
      (l.foldl (fun d g => min d g.depth) d = d ∨
        ∃ g ∈ l, l.foldl (fun d g => min d g.depth) d = g.depth) := by
  induction l with
  | nil => intro d; simp
  | cons a l ih =>
    intro d
    rw [List.foldl_cons]
    obtain ⟨h1, h2, h3⟩ := ih (min d a.depth)
    refine ⟨le_trans h1 (Nat.min_le_left _ _), ?_, ?_⟩
    · intro g hg
      rcases List.mem_cons.mp hg with rfl | hg
      · exact le_trans h1 (Nat.min_le_right _ _)
      · exact h2 g hg
    · rcases h3 with h3 | ⟨g, hg, h3⟩
      · rcases Nat.le_total d a.depth with hle | hle
        · left; rw [h3, Nat.min_eq_left hle]
        · right; exact ⟨a, List.mem_cons_self _ _, by rw [h3, Nat.min_eq_right hle]⟩
      · right; exact ⟨g, List.mem_cons_of_mem _ hg, h3⟩

/-- C35: after `merge_gotos` the depth of the current state is the minimum
of its depth before and the depths of the pending states queued under the
current pc, which are the states merged: it is not above the depth before
nor above the depth of any of these states, and it is one of these depths. -/
theorem merge_gotos_depth (ext : collaborators) (s : goto_symext) :
    (s.merge_gotos ext).cur_state.depth ≤ s.cur_state.depth ∧
    (∀ g ∈ s.pending_states, (s.merge_gotos ext).cur_state.depth ≤ g.depth) ∧
    ((s.merge_gotos ext).cur_state.depth = s.cur_state.depth ∨
      ∃ g ∈ s.pending_states, (s.merge_gotos ext).cur_state.depth = g.depth) ∧
    (s.merge_gotos ext).cur_state.depth =
      (s.pending_states.map (fun g => g.depth)).foldr min s.cur_state.depth := by
  have key : (s.merge_gotos ext).cur_state.depth =
      s.pending_states.reverse.foldl (fun d g => min d g.depth) s.cur_state.depth := by
    unfold goto_symext.pending_states
    cases h : map_find s.cur_state.top.goto_state_map s.cur_state.source.pc with
    | none => simp [goto_symext.merge_gotos, h]
    | some state_list =>
      rw [merge_gotos_eq ext s state_list h]
      exact (foldl_merge_goto_state_frame ext state_list.reverse s).2.2.2.2
  obtain ⟨h1, h2, h3⟩ := foldl_min_depth s.pending_states.reverse s.cur_state.depth
  rw [← key] at h1 h2 h3
  refine ⟨h1, fun g hg => h2 g (List.mem_reverse.mpr hg), ?_, ?_⟩
  · rcases h3 with h3 | ⟨g, hg, h3⟩
    · exact Or.inl h3
    · exact Or.inr ⟨g, List.mem_reverse.mp hg, h3⟩
  · rw [key, List.foldl_reverse, List.foldr_map]
    congr 1
    funext x y
    exact Nat.min_comm _ _

/-! ### The join of guards, tail by tail -/

/-- The common-prefix loop on two lists that start with the same list. -/
theorem common_len_append_append (p t1 t2 : List expr2tc) :
    guardt.common_len (p ++ t1) (p ++ t2) = p.length + guardt.common_len t1 t2 := by
  induction p with
  | nil => simp
  | cons a p ih => simp [guardt.common_len, ih]; omega

/-- The old form of a term is the constant true exactly when the term is. -/
theorem is_true_migrate_expr_back (e : expr2tc) :
    (migrate_expr_back e).is_true = is_true e := by
  cases e <;> simp [migrate_expr_back, exprt.is_true, is_true]

/-- The term `as_expr` gives for a tail that is not empty and has no constant
true among its conjuncts is not the constant true. -/
theorem as_expr_not_true (t : List expr2tc) (ht : t ≠ [])
    (hadd : ∀ e ∈ t, is_true e = false) :
    (guardt.as_expr ⟨t⟩ 0).is_true = false := by
  cases t with
  | nil => exact absurd rfl ht
  | cons a t =>
    cases t with
    | nil =>
      simp only [guardt.as_expr, List.drop_zero]
      rw [is_true_migrate_expr_back]
      exact hadd a (List.mem_cons_self _ _)
    | cons b t => simp [guardt.as_expr, exprt.is_true]

/-- The term `as_expr` gives from the end of an initial segment is the term
of the rest. -/
theorem as_expr_append (p t : List expr2tc) :
    guardt.as_expr ⟨p ++ t⟩ p.length = guardt.as_expr ⟨t⟩ 0 := by
  simp [guardt.as_expr]

/-- No conjunct of a term is the constant true. -/
theorem spec_conjuncts_not_true (e : expr2tc) : ∀ x ∈ spec_conjuncts e, is_true x = false := by
  induction e with
  | constant_bool b => cases b <;> simp [spec_conjuncts, is_true]
  | and2t a b iha ihb =>
    intro x hx
    simp only [spec_conjuncts, List.mem_append] at hx
    rcases hx with h | h
    · exact iha x h
    · exact ihb x h
  | symbol s => simp [spec_conjuncts, is_true]
  | not2t a _ => simp [spec_conjuncts, is_true]
  | or2t a b _ _ => simp [spec_conjuncts, is_true]
  | implies2t a b _ _ => simp [spec_conjuncts, is_true]
  | if2t c a b _ _ _ => simp [spec_conjuncts, is_true]
  | other n => simp [spec_conjuncts, is_true]

/-- No conjunct of a guard built by `add` from the empty guard is the
constant true. -/
theorem foldl_add_not_true (es : List expr2tc) :
    ∀ x ∈ (es.foldl guardt.add ⟨[]⟩).guard_list, is_true x = false := by
  intro x hx
  rw [foldl_add_guard_list] at hx
  simp only [List.nil_append, List.mem_flatten, List.mem_map] at hx
  obtain ⟨l, ⟨e, _, rfl⟩, hxl⟩ := hx
  exact spec_conjuncts_not_true e x hxl

/-- When the tail of `g1` after the common part is empty, the join of two
guards that are not false leaves exactly the common part in `g1`. -/
theorem operator_or_assign_first_tail_empty (p t2 : List expr2tc)
    (h1 : guardt.is_false ⟨p⟩ = false) (h2 : guardt.is_false ⟨p ++ t2⟩ = false) :
    guardt.operator_or_assign ⟨p⟩ ⟨p ++ t2⟩ = ⟨p⟩ := by
  have hc : guardt.common_len p (p ++ t2) = p.length := by
    have := common_len_append_append p [] t2
    rw [List.append_nil] at this
    rw [this]
    cases t2 <;> simp [guardt.common_len]
  unfold guardt.operator_or_assign
  simp only [h1, h2, Bool.false_eq_true, if_false, hc]
  by_cases hl : p.length = (p ++ t2).length
  · rw [if_pos hl]
  · rw [if_neg hl]
    have ha : guardt.as_expr ⟨p⟩ p.length = .constant_bool true := by
      simp [guardt.as_expr]
    simp [ha, exprt.is_true]

/-- C36 at a failing input: `g1` is `a, b` and `g2` is `a`; neither is false,
the common part is `a`, and the tail of `g2` after it is empty. The join
returns early and leaves the conjunct list of `g1` at `a, b`, not at the
common part `a`. In the mirrored case, where the tail of `g1` is the empty
one, the tail is dropped. -/
theorem operator_or_assign_second_tail_empty_keeps_first_tail :
    guardt.is_false ⟨[sample_sym "a" 1, sample_sym "b" 1]⟩ = false ∧
    guardt.is_false ⟨[sample_sym "a" 1]⟩ = false ∧
    guardt.common_len [sample_sym "a" 1, sample_sym "b" 1] [sample_sym "a" 1] = 1 ∧
    List.drop 1 [sample_sym "a" 1] = [] ∧
    (guardt.operator_or_assign ⟨[sample_sym "a" 1, sample_sym "b" 1]⟩
      ⟨[sample_sym "a" 1]⟩).guard_list = [sample_sym "a" 1, sample_sym "b" 1] ∧
    (guardt.operator_or_assign ⟨[sample_sym "a" 1, sample_sym "b" 1]⟩
      ⟨[sample_sym "a" 1]⟩).guard_list ≠ [sample_sym "a" 1] ∧
    (guardt.operator_or_assign ⟨[sample_sym "a" 1]⟩
      ⟨[sample_sym "a" 1, sample_sym "b" 1]⟩).guard_list = [sample_sym "a" 1] := by
  refine ⟨by rfl, by rfl, by rfl, by rfl, by rfl, by decide, by rfl⟩

/-- C37, amended: for guards `g1` and `g2` built by `add` from the empty
guard, with the conjunct lists `p ++ t1` and `p ++ t2`, neither of them
false, `p` the common part the loop of `operator|=` finds and both tails not
empty, the join `g1 |= g2` is the guard `p` when `make_not` of `as_expr(t2)`
(a constant flipped, a leading `not` taken off, any other term wrapped in a
`not`) equals `as_expr(t1)`, and otherwise `p` followed by the one conjunct
`or(as_expr(t1), as_expr(t2))`; in both cases the list starts with `p`. -/
theorem operator_or_assign_tails (es1 es2 p t1 t2 : List expr2tc)
    (hb1 : (es1.foldl guardt.add ⟨[]⟩).guard_list = p ++ t1)
    (hb2 : (es2.foldl guardt.add ⟨[]⟩).guard_list = p ++ t2)
    (h1 : (es1.foldl guardt.add ⟨[]⟩).is_false = false)
    (h2 : (es2.foldl guardt.add ⟨[]⟩).is_false = false)
    (hp : guardt.common_len (p ++ t1) (p ++ t2) = p.length)
    (ht1 : t1 ≠ []) (ht2 : t2 ≠ []) :
    (es1.foldl guardt.add ⟨[]⟩).operator_or_assign (es2.foldl guardt.add ⟨[]⟩) =
      (if exprt.beq ((es2.foldl guardt.add ⟨[]⟩).as_expr p.length).make_not
            ((es1.foldl guardt.add ⟨[]⟩).as_expr p.length) then
        ⟨p⟩
      else
        ⟨p ++ [migrate_expr (.or [(es1.foldl guardt.add ⟨[]⟩).as_expr p.length,
          (es2.foldl guardt.add ⟨[]⟩).as_expr p.length])]⟩) ∧
    p <+: ((es1.foldl guardt.add ⟨[]⟩).operator_or_assign
      (es2.foldl guardt.add ⟨[]⟩)).guard_list := by
  have hn1 := foldl_add_not_true es1
  have hn2 := foldl_add_not_true es2
  generalize es1.foldl guardt.add ⟨[]⟩ = g1 at hb1 h1 hn1 ⊢
  generalize es2.foldl guardt.add ⟨[]⟩ = g2 at hb2 h2 hn2 ⊢
  obtain ⟨l1⟩ := g1
  obtain ⟨l2⟩ := g2
  simp only at hb1 hb2
  subst hb1 hb2
  have hl : ¬ p.length = (p ++ t2).length := by
    cases t2 with
    | nil => exact absurd rfl ht2
    | cons b t2 => simp
  have ha1 : guardt.as_expr ⟨p ++ t1⟩ p.length = guardt.as_expr ⟨t1⟩ 0 := as_expr_append p t1
  have ha2 : guardt.as_expr ⟨p ++ t2⟩ p.length = guardt.as_expr ⟨t2⟩ 0 := as_expr_append p t2
  have hnt1 := as_expr_not_true t1 ht1 (fun e he => hn1 e (List.mem_append_right _ he))
  have hnt2 := as_expr_not_true t2 ht2 (fun e he => hn2 e (List.mem_append_right _ he))
  have key : guardt.operator_or_assign ⟨p ++ t1⟩ ⟨p ++ t2⟩ =
      (if exprt.beq (guardt.as_expr ⟨p ++ t2⟩ p.length).make_not
            (guardt.as_expr ⟨p ++ t1⟩ p.length) then
        ⟨p⟩
      else
        ⟨p ++ [migrate_expr (.or [guardt.as_expr ⟨p ++ t1⟩ p.length,
          guardt.as_expr ⟨p ++ t2⟩ p.length])]⟩) := by
    unfold guardt.operator_or_assign
    simp only [h1, h2, Bool.false_eq_true, if_false, hp, hl, ha1, ha2, hnt1, hnt2,
      Bool.or_self, List.take_left']
    by_cases hb : exprt.beq (guardt.as_expr ⟨t2⟩ 0).make_not (guardt.as_expr ⟨t1⟩ 0) = true
    · simp [hb]
    · simp [hb, guardt.move, exprt.is_true]
  refine ⟨key, ?_⟩
  rw [key]
  split
  · exact List.prefix_refl _
  · exact List.prefix_append _ _

/-- C37, amended, applied to guards built by `add`: the join of `a, b` with `a, c` is
`a, b ∨ c`, and the join of `a, ¬b` with `a, b` is `a`. -/
theorem operator_or_assign_tails_witness :
    guardt.operator_or_assign
        ([sample_sym "a" 1, sample_sym "b" 1].foldl guardt.add ⟨[]⟩)
        ([sample_sym "a" 1, sample_sym "c" 1].foldl guardt.add ⟨[]⟩) =
      ⟨[sample_sym "a" 1, .or2t (sample_sym "b" 1) (sample_sym "c" 1)]⟩ ∧
    guardt.operator_or_assign
        ([sample_sym "a" 1, .not2t (sample_sym "b" 1)].foldl guardt.add ⟨[]⟩)
        ([sample_sym "a" 1, sample_sym "b" 1].foldl guardt.add ⟨[]⟩) =
      ⟨[sample_sym "a" 1]⟩ :=
  ⟨(operator_or_assign_tails [sample_sym "a" 1, sample_sym "b" 1]
      [sample_sym "a" 1, sample_sym "c" 1] [sample_sym "a" 1] [sample_sym "b" 1]
      [sample_sym "c" 1] rfl rfl rfl rfl (by decide) (by decide) (by decide)).1.trans
      (by rfl),
    (operator_or_assign_tails [sample_sym "a" 1, .not2t (sample_sym "b" 1)]
      [sample_sym "a" 1, sample_sym "b" 1] [sample_sym "a" 1] [.not2t (sample_sym "b" 1)]
      [sample_sym "b" 1] rfl rfl rfl rfl (by decide) (by decide) (by decide)).1.trans
      (by rfl)⟩

/-- C37, counterexample: the test of `operator|=` is not "`as_expr(t1)` is
the negation of `as_expr(t2)`". With the common part `a`, the tails `¬¬b` and
`¬b` are a term and its negation, yet the join is `a` followed by
`or(¬¬b, ¬b)`; and the tails `b` and `¬b`, where `b` is not the term
`not(¬b)`, join to `a` alone. All four guards are built by `add`, none is
false, and the common part is the one conjunct `a`. -/
theorem operator_or_assign_not_structural_negation :
    (([sample_sym "a" 1, .not2t (.not2t (sample_sym "b" 1))].foldl guardt.add ⟨[]⟩).guard_list =
        [sample_sym "a" 1] ++ [.not2t (.not2t (sample_sym "b" 1))] ∧
      ([sample_sym "a" 1, .not2t (sample_sym "b" 1)].foldl guardt.add ⟨[]⟩).guard_list =
        [sample_sym "a" 1] ++ [.not2t (sample_sym "b" 1)] ∧
      ([sample_sym "a" 1, .not2t (.not2t (sample_sym "b" 1))].foldl guardt.add ⟨[]⟩).is_false =
        false ∧
      ([sample_sym "a" 1, .not2t (sample_sym "b" 1)].foldl guardt.add ⟨[]⟩).is_false = false ∧
      guardt.common_len ([sample_sym "a" 1] ++ [.not2t (.not2t (sample_sym "b" 1))])
        ([sample_sym "a" 1] ++ [.not2t (sample_sym "b" 1)]) = 1 ∧
      ([sample_sym "a" 1, .not2t (.not2t (sample_sym "b" 1))].foldl guardt.add ⟨[]⟩).as_expr 1 =
        .not (([sample_sym "a" 1, .not2t (sample_sym "b" 1)].foldl guardt.add ⟨[]⟩).as_expr 1) ∧
      guardt.operator_or_assign
          ([sample_sym "a" 1, .not2t (.not2t (sample_sym "b" 1))].foldl guardt.add ⟨[]⟩)
          ([sample_sym "a" 1, .not2t (sample_sym "b" 1)].foldl guardt.add ⟨[]⟩) =
        ⟨[sample_sym "a" 1,
          .or2t (.not2t (.not2t (sample_sym "b" 1))) (.not2t (sample_sym "b" 1))]⟩) ∧
    (([sample_sym "a" 1, sample_sym "b" 1].foldl guardt.add ⟨[]⟩).guard_list =
        [sample_sym "a" 1] ++ [sample_sym "b" 1] ∧
      ([sample_sym "a" 1, sample_sym "b" 1].foldl guardt.add ⟨[]⟩).is_false = false ∧
      guardt.common_len ([sample_sym "a" 1] ++ [sample_sym "b" 1])
        ([sample_sym "a" 1] ++ [.not2t (sample_sym "b" 1)]) = 1 ∧
      ([sample_sym "a" 1, sample_sym "b" 1].foldl guardt.add ⟨[]⟩).as_expr 1 ≠
        .not (([sample_sym "a" 1, .not2t (sample_sym "b" 1)].foldl guardt.add ⟨[]⟩).as_expr 1) ∧
      guardt.operator_or_assign
          ([sample_sym "a" 1, sample_sym "b" 1].foldl guardt.add ⟨[]⟩)
          ([sample_sym "a" 1, .not2t (sample_sym "b" 1)].foldl guardt.add ⟨[]⟩) =
        ⟨[sample_sym "a" 1]⟩) := by
  refine ⟨⟨by rfl, by rfl, by rfl, by rfl, by rfl, by rfl, by rfl⟩,
    ⟨by rfl, by rfl, by rfl, ?_, by rfl⟩⟩
  intro h
  have h2 : exprt.symbol ⟨"b", .level2, 0, 1⟩ = exprt.not (.not (.symbol ⟨"b", .level2, 0, 1⟩)) := h
  cases h2

/-! ### A path whose guard is false -/

/-- The loop of `merge_gotos` over pending states whose guards are false
leaves the guard of the current state as it is. -/
theorem foldl_merge_goto_state_guard (ext : collaborators) (l : List goto_statet)
    (hl : ∀ g ∈ l, g.guard.is_false = true) :
    ∀ s : goto_symext,
      (l.foldl (goto_symext.merge_goto_state ext) s).cur_state.guard = s.cur_state.guard := by
  induction l with
  | nil => intro s; rfl
  | cons g l ih =>
    intro s
    rw [List.foldl_cons, ih (fun x hx => hl x (List.mem_cons_of_mem _ hx))]
    rw [(merge_goto_state_frame ext s g).2.2.2.2.1]
    unfold guardt.operator_or_assign
    rw [hl g (List.mem_cons_self _ _)]
    rfl

/-- A run of `symex_goto` steps from a state whose guard is false returns a
state with the same guard, sink and queue, as many instructions on as there
are steps. -/
theorem run_gotos_of_false_guard (ext : collaborators) (conds : List expr2tc) :
    ∀ s : goto_symext, s.cur_state.guard.is_false = true →
      ∃ s1 : goto_symext, s.run ext (conds.map symex_stept.goto) = .ok s1 ∧
        s1.cur_state.guard = s.cur_state.guard ∧
        s1.target = s.target ∧
        s1.cur_state.top = s.cur_state.top ∧
        s1.cur_state.source.pc = s.cur_state.source.pc + conds.length := by
  induction conds with
  | nil => intro s _; exact ⟨s, rfl, rfl, rfl, rfl, rfl⟩
  | cons c conds ih =>
    intro s hg
    have hrun := symex_goto_skip_eq ext s c (Or.inr hg)
    obtain ⟨s1, h1, h2, h3, h4, h5⟩ := ih ((s.set_unwind 0).set_pc (s.cur_state.source.pc + 1))
      hg
    refine ⟨s1, ?_, h2, h3, h4, ?_⟩
    · simp only [List.map_cons, goto_symext.run, hrun]
      exact h1
    · rw [h5]
      simp only [goto_symext.set_pc, List.length_cons]
      omega

/-- A merge that joins only pending states whose guards are false leaves the
guard of the current state as it is. -/
theorem merge_gotos_guard_of_pending_false (ext : collaborators) (s : goto_symext)
    (hp : ∀ g ∈ s.pending_states, g.guard.is_false = true) :
    (s.merge_gotos ext).cur_state.guard = s.cur_state.guard := by
  unfold goto_symext.pending_states at hp
  cases h : map_find s.cur_state.top.goto_state_map s.cur_state.source.pc with
  | none =>
    have : s.merge_gotos ext = s := by simp only [goto_symext.merge_gotos, h]
    rw [this]
  | some state_list =>
    rw [h] at hp
    rw [merge_gotos_eq ext s state_list h]
    exact foldl_merge_goto_state_guard ext _
      (fun g hg => hp g (List.mem_reverse.mp hg)) s

/-- A run from a state whose guard is false, in which no merge joins a
pending state whose guard is not false, returns a state with the same guard. -/
theorem run_of_false_guard_merges (ext : collaborators) (steps : List symex_stept) :
    ∀ s : goto_symext, s.cur_state.guard.is_false = true → merges_join_false ext s steps →
      ∃ s1 : goto_symext, s.run ext steps = .ok s1 ∧
        s1.cur_state.guard = s.cur_state.guard := by
  induction steps with
  | nil => intro s _ _; exact ⟨s, rfl, rfl⟩
  | cons step steps ih =>
    intro s hg hm
    cases step with
    | goto old_guard =>
      have hrun := symex_goto_skip_eq ext s old_guard (Or.inr hg)
      obtain ⟨s1, h1, h2⟩ := ih ((s.set_unwind 0).set_pc (s.cur_state.source.pc + 1))
        hg (hm _ hrun)
      refine ⟨s1, ?_, h2⟩
      simp only [goto_symext.run, hrun]
      exact h1
    | merge =>
      have hmg := merge_gotos_guard_of_pending_false ext s hm.1
      obtain ⟨s1, h1, h2⟩ := ih (s.merge_gotos ext) (by rw [hmg]; exact hg) hm.2
      refine ⟨s1, ?_, h2.trans hmg⟩
      simp only [goto_symext.run]
      exact h1

/-- C38 as stated fails once a merge intervenes: the sample engine reaches
the bound 3 at the unconditional back-edge of instruction 2, the negated
condition `false` is added and `is_false()` holds for the guard `a, false`;
the merge at pc 3 joins the pending state of guard `b`, after which the guard
is `b` and `is_false()` does not hold; the goto of instruction 3 on the
condition `c` then does not take the shortcut: it forks, queues a state under
its target 5 and leaves the guard `b, ¬c`. -/
theorem symex_goto_after_merge_is_not_skipped :
    (∃ s1 : goto_symext,
      sample_symex_at_bound.run sample_ext_after_loop [.goto true_expr] = .ok s1 ∧
      s1.cur_state.guard = ⟨[sample_sym "a" 1, false_expr]⟩ ∧
      s1.cur_state.guard.is_false = true ∧ s1.cur_state.source.pc = 3) ∧
    (∃ s2 : goto_symext,
      sample_symex_at_bound.run sample_ext_after_loop [.goto true_expr, .merge] = .ok s2 ∧
      s2.cur_state.guard = ⟨[sample_sym "b" 1]⟩ ∧
      s2.cur_state.guard.is_false = false) ∧
    (∃ s3 : goto_symext,
      sample_symex_at_bound.run sample_ext_after_loop
        [.goto true_expr, .merge, .goto (sample_sym "c" 1)] = .ok s3 ∧
      s3.cur_state.guard = ⟨[sample_sym "b" 1, .not2t (sample_sym "c" 1)]⟩ ∧
      s3.last_pending_guard 5 = some ⟨[sample_sym "b" 1, sample_sym "c" 1]⟩) := by
  refine ⟨⟨_, rfl, by rfl, by rfl, by rfl⟩, ⟨_, rfl, by rfl, by rfl⟩, ⟨_, rfl, by rfl, by rfl⟩⟩

/-- C38, amended: when the condition passed to `loop_bound_exceeded` is the
constant true, the negated condition is the constant false, and in every
mode that adds it to the guard (base-case, forward-condition, or partial
loops disabled) `is_false()` holds for the state guard afterwards. Every
`symex_goto` that follows then takes the shortcut, the guard staying as it
is: after any number of `symex_goto` steps, and after any run of `symex_goto`
and `merge_gotos` steps in which no merge joins a pending state whose guard
is not false. (A merge that joins a pending state whose guard is not false
replaces the guard, and the shortcut is no longer taken.) -/
theorem loop_bound_exceeded_true_condition (ext : collaborators) (s : goto_symext)
    (c : expr2tc) (hc : is_true c = true)
    (hmode : s.options.base_case = true ∨ s.options.forward_condition = true ∨
      s.options.partial_loops = false) :
    negated_cond c = false_expr ∧
    (s.loop_bound_exceeded ext c).cur_state.guard = s.cur_state.guard.add false_expr ∧
    (s.loop_bound_exceeded ext c).cur_state.guard.is_false = true ∧
    (∀ (conds : List expr2tc) (old_guard : expr2tc),
      ∃ s1 : goto_symext,
        (s.loop_bound_exceeded ext c).run ext (conds.map symex_stept.goto) = .ok s1 ∧
        s1.cur_state.guard = (s.loop_bound_exceeded ext c).cur_state.guard ∧
        s1.symex_goto ext old_guard =
          .ok ((s1.set_unwind 0).set_pc (s1.cur_state.source.pc + 1))) ∧
    (∀ (steps : List symex_stept) (old_guard : expr2tc),
      merges_join_false ext (s.loop_bound_exceeded ext c) steps →
      ∃ s1 : goto_symext,
        (s.loop_bound_exceeded ext c).run ext steps = .ok s1 ∧
        s1.cur_state.guard = (s.loop_bound_exceeded ext c).cur_state.guard ∧
        s1.symex_goto ext old_guard =
          .ok ((s1.set_unwind 0).set_pc (s1.cur_state.source.pc + 1))) := by
  have hneg : negated_cond c = false_expr := by simp [negated_cond, hc]
  have hguard : (s.loop_bound_exceeded ext c).cur_state.guard =
      s.cur_state.guard.add false_expr := by
    unfold goto_symext.loop_bound_exceeded
    rw [hneg]
    rcases hmode with h | h | h
    · simp [h, goto_symext.guard_add, goto_symext.unwinding_assumption]
    · cases hb : s.options.base_case <;>
        simp [h, goto_symext.guard_add, goto_symext.unwinding_assumption, goto_symext.claim]
    · cases hb : s.options.base_case <;> cases hf : s.options.forward_condition <;>
        cases hu : s.options.no_unwinding_assertions <;>
        simp [h, goto_symext.guard_add, goto_symext.unwinding_assumption, goto_symext.claim]
  have hfalse : (s.loop_bound_exceeded ext c).cur_state.guard.is_false = true := by
    rw [hguard]
    simp only [guardt.is_false, guardt.add, guardt.add_list, false_expr]
    rw [forall_guard_is_false_iff_mem]
    simp [false_expr]
  refine ⟨hneg, hguard, hfalse, ?_, ?_⟩
  · intro conds old_guard
    obtain ⟨s1, h1, h2, _⟩ := run_gotos_of_false_guard ext conds _ hfalse
    exact ⟨s1, h1, h2, symex_goto_skip_eq ext s1 old_guard (Or.inr (by rw [h2]; exact hfalse))⟩
  · intro steps old_guard hm
    obtain ⟨s1, h1, h2⟩ := run_of_false_guard_merges ext steps _ hfalse hm
    exact ⟨s1, h1, h2, symex_goto_skip_eq ext s1 old_guard (Or.inr (by rw [h2]; exact hfalse))⟩

/-- C38, amended, applied to the sample engine at the back-edge with the
guard `a`, default options and the condition `true`: the guard afterwards is
`a, false`, `is_false()` holds for it, and two `symex_goto` steps on the
conditions `c` and `d` return a state with the same guard, from which a
further `symex_goto` takes the shortcut. -/
theorem loop_bound_exceeded_true_condition_witness :
    (goto_symext.loop_bound_exceeded sample_ext
      (sample_symex ⟨false, false, false, false⟩ (sample_state 2 [sample_sym "a" 1] []))
      true_expr).cur_state.guard = ⟨[sample_sym "a" 1, false_expr]⟩ ∧
    (goto_symext.loop_bound_exceeded sample_ext
      (sample_symex ⟨false, false, false, false⟩ (sample_state 2 [sample_sym "a" 1] []))
      true_expr).cur_state.guard.is_false = true ∧
    ∃ s1 : goto_symext,
      goto_symext.run sample_ext
        (goto_symext.loop_bound_exceeded sample_ext
          (sample_symex ⟨false, false, false, false⟩ (sample_state 2 [sample_sym "a" 1] []))
          true_expr)
        [.goto (sample_sym "c" 1), .goto (sample_sym "d" 1)] = .ok s1 ∧
      s1.cur_state.guard = ⟨[sample_sym "a" 1, false_expr]⟩ ∧
      s1.symex_goto sample_ext (sample_sym "e" 1) =
        .ok ((s1.set_unwind 0).set_pc (s1.cur_state.source.pc + 1)) := by
  have h := loop_bound_exceeded_true_condition sample_ext
    (sample_symex ⟨false, false, false, false⟩ (sample_state 2 [sample_sym "a" 1] []))
    true_expr rfl (Or.inr (Or.inr rfl))
  obtain ⟨s1, h1, h2, h3⟩ := h.2.2.2.1 [sample_sym "c" 1, sample_sym "d" 1] (sample_sym "e" 1)
  exact ⟨h.2.1, h.2.2.1, s1, h1, h2.trans h.2.1, h3⟩

/-! ### The solver factory -/

/-- The flags the solver constructor receives from `create_solver_factory`:
for z3, smtlib, minisat and boolector the parameter `int_encoding` gets the
argument `int_encoding` and the parameter `is_cpp` the argument `is_cpp`; for
mathsat and cvc the two are exchanged. -/
theorem create_solver_factory_flags (b : solver_build) (get_bool_option : String → Bool)
    (solver_name : String) (is_cpp int_encoding : Bool) (ctx : smt_convt)
    (h : create_solver_factory b get_bool_option solver_name is_cpp int_encoding = .ok ctx) :
    (ctx.solver ∈ ["z3", "smtlib", "minisat", "boolector"] ∧
      ctx.int_encoding = int_encoding ∧ ctx.is_cpp = is_cpp) ∨
    (ctx.solver ∈ ["mathsat", "cvc"] ∧
      ctx.int_encoding = is_cpp ∧ ctx.is_cpp = int_encoding) := by
  unfold create_solver_factory create_solver_factory1 pick_solver at h
  simp only [create_z3_solver, create_minisat_solver, create_mathsat_solver,
    create_cvc_solver, create_boolector_solver, create_new_solver] at h
  repeat' split at h
  all_goals first
    | (cases h; simp)
    | (simp at h)

/-- C39 at a failing input: with MathSAT built in, `create_solver_factory`
for the solver name "mathsat" with `is_cpp` true and `int_encoding` false
calls the MathSAT constructor with `int_encoding` true and `is_cpp` false;
the same happens for "cvc", and when the solver is picked from the options.
The call `create_mathsat_solver(int_encoding, is_cpp, ...)` gives the two
flags in the other order than the parameters `(is_cpp, int_encoding, ...)`
of the function; for z3, with the same parameters, the call gives them in
the order of the parameters and the flags arrive as they are. -/
theorem create_solver_factory_mathsat_exchanges_flags :
    create_solver_factory sample_solver_build (fun _ => false) "mathsat" true false =
      .ok { solver := "mathsat", int_encoding := true, is_cpp := false } ∧
    create_solver_factory sample_solver_build (fun _ => false) "cvc" true false =
      .ok { solver := "cvc", int_encoding := true, is_cpp := false } ∧
    create_solver_factory sample_solver_build (fun o => o == "mathsat") "" true false =
      .ok { solver := "mathsat", int_encoding := true, is_cpp := false } ∧
    create_solver_factory sample_solver_build (fun o => o == "cvc") "" true false =
      .ok { solver := "cvc", int_encoding := true, is_cpp := false } ∧
    create_solver_factory sample_solver_build (fun _ => false) "z3" true false =
      .ok { solver := "z3", int_encoding := false, is_cpp := true } := by
  refine ⟨by rfl, by rfl, by rfl, by rfl, by rfl⟩

/-! ### The assignments of phi_function, identifier by identifier -/

